import Mathlib

/-!
# Cardinal: NekRS field transfer, a verification development

Shallow embedding of `NekRSProblemBase` (`src/base/NekRSProblemBase.C`:
construction, setup, the coupled time step, synchronization and the solution
transfer), of the coupling table (`include/mesh/NekBoundaryCoupling.h`), of the
mirror-mesh accessors used by it (`include/mesh/NekRSMesh.h`), of
`src/base/UserErrorChecking.C` and of the id lookups of
`src/base/OpenMCProblemBase.C`.

Conventions of the embedding.

* `double` values are rationals (`ℚ`). The sums and differences of the time
  bookkeeping (`_time += _dt`, `_time - _dt`, the difference taken by
  `synchronizeOut`) are rounded to binary64 by `roundDouble`, because what is
  proved about them depends on whether `(t + dt) - dt` gives back `t`. The
  arithmetic on field values (rescaling, interpolation) is left exact.
* Sizes, counts, ranks, ids and loop counters are `Nat`; the flattened point
  ids handed to the solver accessors (`f(id)`, `vmapM[...]`) are `Int`, so the
  closed-form corner indices keep the subtraction of the source. Overflow of
  `int` is not modelled.
* `std::vector` and heap buffers are lists. A read beyond the end (undefined in
  C++) yields `0`; a store beyond the end (undefined in C++) is dropped.
* MPI ranks run the same code on their own state; a collective run is a family
  of per-rank states indexed by the rank.
* A member function with effects returns the state it leaves, the calls it made
  into the solver, in order, and the fatal error (`mooseError`) that stopped it,
  if any.
-/

namespace Cardinal

/-! ## Enumerations -/

/-- The solver fields read by the outgoing transfer (`field::NekFieldEnum`);
`CardinalEnums.h` is not among the sources, the enumerators are the ones that
`NekRSProblemBase::extractOutputs` dispatches to. -/
inductive NekFieldEnum where
  | temperature
  | pressure
  | velocity_x
  | velocity_y
  | velocity_z
  deriving DecidableEq, Repr

/-! ## Coupling tables -/

/-- The boundary coupling table of `NekBoundaryCoupling.h`. -/
structure NekBoundaryCoupling where
  /-- process-local element ids on the boundary of interest (for all ranks) -/
  element : List Nat
  /-- element-local face ids on the boundary of interest (for all ranks) -/
  face : List Nat
  /-- problem-global boundary id for each element (for all ranks) -/
  boundary_id : List Nat
  /-- process owning each face (for all faces) -/
  process : List Nat
  /-- number of faces owned by each process -/
  counts : List Nat
  /-- number of coupling elements owned by this process -/
  n_faces : Nat
  /-- total number of coupling elements -/
  total_n_faces : Nat
  /-- start of this rank in the element, face and process arrays -/
  offset : Nat

/-- The owner lookup `NekBoundaryCoupling::processor_id`: `process[elem_id]`. -/
def NekBoundaryCoupling.processor_id (bc : NekBoundaryCoupling) (elem_id : Nat) : Nat :=
  bc.process.getD elem_id 0

/-- Modelled from the spec: `NekVolumeCoupling.h` is not among the sources. The
spec gives the volume table the shape of the boundary table, keyed per element,
without the face array and with element counts for face counts; the field names
are the ones `NekRSProblemBase.C` reads (`element`, `counts`, `n_elems`). -/
structure NekVolumeCoupling where
  /-- process-local element ids (for all ranks) -/
  element : List Nat
  /-- process owning each element (for all elements) -/
  process : List Nat
  /-- number of elements owned by each process -/
  counts : List Nat
  /-- number of coupling elements owned by this process -/
  n_elems : Nat
  /-- total number of coupling elements -/
  total_n_elems : Nat
  /-- start of this rank in the element and process arrays -/
  offset : Nat

/-- Modelled from the spec: the owner lookup of the volume table, as for the
boundary table: `process[elem_id]`. -/
def NekVolumeCoupling.processor_id (vc : NekVolumeCoupling) (elem_id : Nat) : Nat :=
  vc.process.getD elem_id 0

/-! ## The solver backend, as one rank sees it -/

/-- The fields of the solver mesh (`mesh_t`, a type of the solver library) that
the transfer reads. -/
structure mesh_t where
  /-- quadrature points per dimension -/
  Nq : Nat
  /-- quadrature points per element -/
  Np : Nat
  /-- faces per element -/
  Nfaces : Nat
  /-- rank-local element count -/
  Nelements : Nat
  /-- face point to volume point map -/
  vmapM : Int → Int

/-- The calls into the `nekrs` interface whose results the transfer consumes on
one rank: `commRank()`, `entireMesh()`, `solution::solutionPointer(field)` (a
read accessor by flattened point id) and `solution::dimensionalize(field, value)`
(taken as a function of the value it rescales in place). -/
structure NekInterface where
  commRank : Nat
  entireMesh : mesh_t
  solutionPointer : NekFieldEnum → Int → ℚ
  dimensionalize : NekFieldEnum → ℚ → ℚ

/-! ## The mirror mesh -/

/-- A libMesh node, reduced to what `fillAuxVariable` asks of it. -/
structure Node where
  processor_id : Nat
  /-- The accessor `dof_number(sys, var, comp)`. -/
  dof_number : Nat → Nat → Nat → Nat

/-- A libMesh element, reduced to its vertex accessor. -/
structure Elem where
  node_ptr : Nat → Node

/-- The members of `NekRSMesh` read by `NekRSProblemBase`. `order` is the
zero-indexed `order::NekOrderEnum` (0 = first, 1 = second);
`numQuadraturePoints1D` is declared in `NekRSMesh.h` and defined outside the
sources, so its value is a field here. -/
structure NekRSMesh where
  order : Nat
  numQuadraturePoints1D : Nat
  boundaryCoupling : NekBoundaryCoupling
  volumeCoupling : NekVolumeCoupling
  boundary : Option (List Nat)
  volume : Bool
  numSurfaceElems : Nat
  numVerticesPerSurface : Nat
  numVolumeElems : Nat
  numVerticesPerVolume : Nat
  numElems : Nat
  numVerticesPerElem : Nat
  /-- the vector behind `_node_index` -/
  node_index : List Nat
  scaling : ℚ
  /-- The lookup `queryElemPtr(e)`: `none` is the null pointer. -/
  queryElemPtr : Nat → Option Elem

/-- The accessor `NekRSMesh::nodeIndex`: `(*_node_index)[gll_index]`. -/
def NekRSMesh.nodeIndex (m : NekRSMesh) (gll_index : Nat) : Nat :=
  m.node_index.getD gll_index 0

/-! ## Interpolation -/

/-- Modelled from the spec: the Lagrange basis polynomial `L_j` of the source
nodes `nodes`, evaluated at `x` (the entries of `nekrs::interpolationMatrix`,
which is not among the sources). -/
def lagrangeBasis (nodes : List ℚ) (j : Nat) (x : ℚ) : ℚ :=
  (((List.range nodes.length).filter fun m => m ≠ j).map fun m =>
    (x - nodes.getD m 0) / (nodes.getD j 0 - nodes.getD m 0)).prod

/-- Modelled from the spec: the 1-D interpolation matrix from the source nodes
to the target nodes, entry `(i, j) = L_j(x_i)` with `x_i` the `i`-th target. -/
def interpolationMatrix (source target : List ℚ) (i j : Nat) : ℚ :=
  lagrangeBasis source j (target.getD i 0)

/-- Modelled from the spec: one pass of the tensor-product application, along
one coordinate axis. The input is flattened as `(o * N + n) * inner + i`
(`o < outer`, `n < N`, `i < inner`, first axis fastest), the output as
`(o * M + j) * inner + i`, with `out = Σ_n I(j, n) * x`. -/
def interpolateAxis (I : Nat → Nat → ℚ) (N M outer inner : Nat) (x : List ℚ) : List ℚ :=
  (List.range (outer * M * inner)).map fun p =>
    ((List.range N).map fun n =>
      I ((p / inner) % M) n * x.getD ((p / (inner * M) * N + n) * inner + p % inner) 0).sum

/-- Modelled from the spec: `nekrs::interpolateSurfaceFaceHex3D`, the 2-D
tensor-product application of the 1-D matrix `I` (`M × N`) to the `N * N` face
values `x`, one axis in turn; the result has `M * M` entries. -/
def interpolateSurfaceFaceHex3D (I : Nat → Nat → ℚ) (x : List ℚ) (N M : Nat) : List ℚ :=
  interpolateAxis I N M 1 M (interpolateAxis I N M N 1 x)

/-- Modelled from the spec: `nekrs::interpolateVolumeHex3D`, the 3-D
tensor-product application of the 1-D matrix `I` (`M × N`) to the `N * N * N`
element values `x`, one axis in turn; the result has `M * M * M` entries. -/
def interpolateVolumeHex3D (I : Nat → Nat → ℚ) (x : List ℚ) (N M : Nat) : List ℚ :=
  interpolateAxis I N M 1 (M * M)
    (interpolateAxis I N M N M (interpolateAxis I N M (N * N) 1 x))

/-- Modelled from the spec: `nekrs::allgatherv(base_counts, input, output,
multiplier)`. Rank `r` contributes the first `base_counts[r] * multiplier`
entries of its buffer; the contributions are laid out in rank order, each at the
displacement given by the scaled counts before it. -/
def allgatherv (base_counts : List Nat) (input : Nat → List ℚ) (multiplier : Nat) : List ℚ :=
  (List.range base_counts.length).flatMap fun r =>
    (List.range (base_counts.getD r 0 * multiplier)).map fun i => (input r).getD i 0

/-! ## Input parameters -/

/-- A parameter value of one of the kinds `NekRSProblemBase::validParams`
declares. -/
inductive ParamValue where
  | bool (b : Bool)
  | real (x : ℚ)
  | str (s : String)
  | multi (items : List String)
  deriving DecidableEq, Repr

/-- One entry of the framework parameter store (`InputParameters`, a type of
the host framework). `valid` is what `isParamValid` reports: a parameter
declared with a default value is valid from its declaration on, a parameter
declared without one becomes valid when the input sets it. `set_by_user` is what
`isParamSetByUser` reports: true only once the input sets the parameter. -/
structure Param where
  name : String
  value : ParamValue
  valid : Bool
  set_by_user : Bool
  deriving DecidableEq, Repr

/-- The framework parameter store. -/
structure InputParameters where
  params : List Param
  deriving DecidableEq, Repr

/-- Look a parameter up by name. -/
def InputParameters.find (p : InputParameters) (name : String) : Option Param :=
  p.params.find? fun q => q.name == name

/-- The framework query `isParamValid(name)`. -/
def InputParameters.isParamValid (p : InputParameters) (name : String) : Bool :=
  match p.find name with
  | some q => q.valid
  | none => false

/-- The framework query `isParamSetByUser(name)`. -/
def InputParameters.isParamSetByUser (p : InputParameters) (name : String) : Bool :=
  match p.find name with
  | some q => q.set_by_user
  | none => false

/-- The read `getParam<bool>(name)`. -/
def InputParameters.getBool (p : InputParameters) (name : String) : Bool :=
  match p.find name with
  | some ⟨_, ParamValue.bool b, _, _⟩ => b
  | _ => false

/-- The read `getParam<Real>(name)`. -/
def InputParameters.getReal (p : InputParameters) (name : String) : ℚ :=
  match p.find name with
  | some ⟨_, ParamValue.real x, _, _⟩ => x
  | _ => 0

/-- The read `getParam<MultiMooseEnum>(name)`: the selected items, in order. -/
def InputParameters.getMulti (p : InputParameters) (name : String) : List String :=
  match p.find name with
  | some ⟨_, ParamValue.multi l, _, _⟩ => l
  | _ => []

/-- The declaration `addParam<T>(name, doc)`, without a default: not valid
until set. -/
def InputParameters.addParamNoDefault (p : InputParameters) (name : String)
    (placeholder : ParamValue) : InputParameters :=
  ⟨p.params ++ [⟨name, placeholder, false, false⟩]⟩

/-- The declarations `addParam<T>(name, value, doc)` and
`addRangeCheckedParam<T>(name, value, range, doc)` with a default: valid, not
set by the user. A multi-selection enumeration is valid only while it selects
at least one item. The range check is done by the framework when the input is
parsed and is not modelled. -/
def InputParameters.addParam (p : InputParameters) (name : String)
    (value : ParamValue) : InputParameters :=
  ⟨p.params ++ [⟨name, value, decide (value ≠ ParamValue.multi []), false⟩]⟩

/-- What the input file does to a declared parameter: it stores the value and
marks the parameter valid and set by the user. -/
def InputParameters.setByUser (p : InputParameters) (name : String)
    (value : ParamValue) : InputParameters :=
  ⟨p.params.map fun q =>
    if q.name == name then ⟨name, value, decide (value ≠ ParamValue.multi []), true⟩ else q⟩

/-- The declarations of `NekRSProblemBase::validParams` (those of the base class
`ExternalProblem` are outside the sources). -/
def validParams : InputParameters :=
  let params := InputParameters.mk []
  let params := params.addParamNoDefault "casename" (ParamValue.str "")
  let params := params.addParam "nondimensional" (ParamValue.bool false)
  let params := params.addParam "U_ref" (ParamValue.real 1)
  let params := params.addParam "T_ref" (ParamValue.real 0)
  let params := params.addParam "dT_ref" (ParamValue.real 1)
  let params := params.addParam "L_ref" (ParamValue.real 1)
  let params := params.addParam "rho_0" (ParamValue.real 1)
  let params := params.addParam "Cp_0" (ParamValue.real 1)
  let params := params.addParam "output" (ParamValue.multi [])
  let params := params.addParam "write_fld_files" (ParamValue.bool false)
  let params := params.addParam "disable_fld_file_output" (ParamValue.bool false)
  let params := params.addParam "minimize_transfers_in" (ParamValue.bool false)
  let params := params.addParam "minimize_transfers_out" (ParamValue.bool false)
  params

/-! ## User error checking (`UserErrorChecking.C`) -/

/-- The function `checkUnusedParam`: a warning (returned, not fatal) when the
user set the parameter. -/
def checkUnusedParam (p : InputParameters) (name explanation : String) : List String :=
  if p.isParamSetByUser name then
    ["When " ++ explanation ++ ", the \x27" ++ name ++ "\x27 parameter is unused!"]
  else []

/-- The function `checkRequiredParam`: a fatal error when the parameter is not
valid. -/
def checkRequiredParam (p : InputParameters) (name explanation : String) : Except String Unit :=
  if !p.isParamValid name then
    Except.error ("When " ++ explanation ++ ", the \x27" ++ name ++ "\x27 parameter is required!")
  else Except.ok ()

/-- The member `std::string::pop_back`: the string without its last character. -/
def pop_back (s : String) : String := String.mk s.data.dropLast

/-- The loop of `checkJointParams` over the names: `name_list` and the flags
`at_least_one_present`, `at_least_one_not_present` after it. -/
def checkJointParams_loop (p : InputParameters) (name : List String) : String × Bool × Bool :=
  name.foldl
    (fun (st : String × Bool × Bool) s =>
      let name_list := st.1 ++ (" \x27" ++ s ++ "\x27,")
      if p.isParamValid s then (name_list, true, st.2.2) else (name_list, st.2.1, true))
    ("", false, false)

/-- The function `checkJointParams`: a fatal error when some of the names are
valid parameters and some are not. -/
def checkJointParams (p : InputParameters) (name : List String) (explanation : String) :
    Except String Unit :=
  let st := checkJointParams_loop p name
  if st.2.1 && st.2.2 then
    Except.error ("When " ++ explanation ++ ", the" ++ pop_back st.1 ++
      " parameters\nmust either ALL " ++
      "be specified or ALL omitted; you have only provided a subset of parameters!")
  else Except.ok ()

/-! ## The problem object -/

/-- The members of `NekRSProblemBase` that the modelled member functions read
or write. `outputs` is the pointer `_outputs` (`none` is null). -/
structure NekRSProblemBase where
  /-- The registered type name of the object, `type()`. -/
  type : String
  nondimensional : Bool
  U_ref : ℚ
  T_ref : ℚ
  dT_ref : ℚ
  L_ref : ℚ
  rho_0 : ℚ
  Cp_0 : ℚ
  write_fld_files : Bool
  disable_fld_file_output : Bool
  minimize_transfers_in : Bool
  minimize_transfers_out : Bool
  start_time : ℚ
  prefix_str : String
  nek_mesh : NekRSMesh
  n_surface_elems : Nat
  n_vertices_per_surface : Nat
  n_volume_elems : Nat
  n_vertices_per_volume : Nat
  n_elems : Nat
  n_vertices_per_elem : Nat
  n_points : Nat
  /-- the matrix built by `initializeInterpolationMatrices`, solver to mirror -/
  interpolation_outgoing : Nat → Nat → ℚ
  /-- the matrix built by `initializeInterpolationMatrices`, mirror to solver -/
  interpolation_incoming : Nat → Nat → ℚ
  needs_interpolation : Bool
  outputs : Option (List String)
  external_data : List ℚ
  var_names : List String
  external_vars : List Nat
  var_string : String
  /-- The value of `_aux->number()`. -/
  aux_number : Nat
  /-- The value of `_communicator.rank()`. -/
  pid : Nat

/-- The member function `fieldFilePrefix`. Indexing the alphabet at its length
yields the null character. -/
def fieldFilePrefix (number : Nat) : String :=
  let alphabet := "abcdefghijklmnopqrstuvwxyz"
  let letter := number / 100
  let remainder := number % 100
  let s := if remainder < 10 then "0" else ""
  String.singleton (alphabet.toList.getD letter (Char.ofNat 0)) ++ s ++ toString remainder

/-- What the constructor of `NekRSProblemBase` reads from outside its
parameters: the application (`isUltimateMaster`, `multiAppNumber`), the solver
(`hasCHT`, `buildOnly`, `startTime`), the type names used in messages, the mesh
after the cast to `NekRSMesh` (`none` when the cast fails), the interpolation
matrices that
`initializeInterpolationMatrices` obtains from the solver interface, the
tolerance of `MooseUtils::absoluteFuzzyEqual`, and the auxiliary system. -/
structure ConstructorEnv where
  isUltimateMaster : Bool
  multiAppNumber : Nat
  hasCHT : Bool
  buildOnly : Bool
  startTime : ℚ
  /-- The registered type name of the problem object, `type()`. -/
  type : String
  /-- The registered type name of the mesh object, `mesh().type()`. -/
  mesh_type : String
  mesh : Option NekRSMesh
  interpolationMatrix : Nat → Nat → Nat → Nat → ℚ
  entireMesh : mesh_t
  fuzzy_tol : ℚ
  aux_number : Nat
  pid : Nat

/-- The framework helper `MooseUtils::absoluteFuzzyEqual` with tolerance
`tol`. -/
def absoluteFuzzyEqual (a b tol : ℚ) : Bool :=
  decide (|a - b| ≤ tol)

/-- The loop of the constructor over the six reference scales: the first fatal
error of `checkRequiredParam` stops it, the warnings of `checkUnusedParam`
accumulate. -/
def checkScales (p : InputParameters) (nondimensional : Bool) :
    List String → Except String (List String)
  | [] => Except.ok []
  | s :: rest =>
    if nondimensional then
      match checkRequiredParam p s "solving in non-dimensional form" with
      | Except.error e => Except.error e
      | Except.ok _ => checkScales p nondimensional rest
    else
      match checkScales p nondimensional rest with
      | Except.error e => Except.error e
      | Except.ok w => Except.ok (checkUnusedParam p s "solving in dimensional form" ++ w)

/-- The six reference scales, in the order the constructor checks them. -/
def scales : List String := ["U_ref", "T_ref", "dT_ref", "L_ref", "rho_0", "Cp_0"]

/-- The constructor `NekRSProblemBase::NekRSProblemBase`: every `mooseError` /
`paramError` is a fatal error (`Except.error` with the message); on success the
constructed object and the warnings emitted. Console printing and the hand-over
of the scales to the solver (`initializeDimensionalScales`) are left out. -/
def NekRSProblemBase.construct (params : InputParameters) (env : ConstructorEnv) :
    Except String (NekRSProblemBase × List String) :=
  let nondimensional := params.getBool "nondimensional"
  let U_ref := params.getReal "U_ref"
  let T_ref := params.getReal "T_ref"
  let dT_ref := params.getReal "dT_ref"
  let L_ref := params.getReal "L_ref"
  let rho_0 := params.getReal "rho_0"
  let Cp_0 := params.getReal "Cp_0"
  let write_fld_files := params.getBool "write_fld_files"
  let disable_fld_file_output := params.getBool "disable_fld_file_output"
  let minimize_transfers_in := params.getBool "minimize_transfers_in"
  let minimize_transfers_out := params.getBool "minimize_transfers_out"
  if env.isUltimateMaster && (minimize_transfers_in || minimize_transfers_out) then
    Except.error ("The \x27minimize_transfers_in\x27 and \x27minimize_transfers_out\x27 " ++
      "capabilities require that nekRS is receiving and sending data to a master " ++
      "application, but in your case nekRS is the master application.")
  else if disable_fld_file_output && write_fld_files then
    Except.error ("Cannot both disable all field file output and write custom field files!\n" ++
      "\x27write_fld_files\x27 and \x27disable_fld_file_output\x27 cannot both be true!")
  else if env.isUltimateMaster && write_fld_files then
    Except.error ("The \x27write_fld_files\x27 setting should only be true when multiple " ++
      "Nek simulations are run as sub-apps on a master app.\n" ++
      "Your input has Nek as the master app.")
  else if env.hasCHT then
    Except.error
      "Cardinal does not yet support running NekRS inputs with conjugate heat transfer!"
  else
    match env.mesh with
    | none =>
      Except.error ("Mesh for \x27" ++ env.type ++ "\x27 must be of type \x27NekRSMesh\x27, " ++
        "but you have specified a \x27" ++ env.mesh_type ++ "\x27!")
    | some nek_mesh =>
      match checkScales params nondimensional scales with
      | Except.error e => Except.error e
      | Except.ok warnings =>
        if nondimensional && !absoluteFuzzyEqual nek_mesh.scaling L_ref env.fuzzy_tol then
          Except.error ("L_ref: When solving in non-dimensional form, no capability exists " ++
            "to allow a nondimensional solution based on reference scales that are not in " ++
            "the same units as the coupled MOOSE application!\n\nIf solving nekRS in " ++
            "nondimensional form, you must choose reference dimensional scales in the same " ++
            "units as expected by MOOSE, i.e. \x27L_ref\x27 must match \x27scaling\x27 in " ++
            "\x27NekRSMesh\x27.")
        else
          let n_points :=
            if nek_mesh.volume then nek_mesh.numVolumeElems * nek_mesh.numVerticesPerVolume
            else nek_mesh.numSurfaceElems * nek_mesh.numVerticesPerSurface
          let has_output := params.isParamValid "output"
          Except.ok (
            ⟨env.type, nondimensional, U_ref, T_ref, dT_ref, L_ref, rho_0, Cp_0,
              write_fld_files, disable_fld_file_output,
              minimize_transfers_in, minimize_transfers_out,
              env.startTime, fieldFilePrefix env.multiAppNumber, nek_mesh,
              nek_mesh.numSurfaceElems, nek_mesh.numVerticesPerSurface,
              nek_mesh.numVolumeElems, nek_mesh.numVerticesPerVolume,
              nek_mesh.numElems, nek_mesh.numVerticesPerElem, n_points,
              env.interpolationMatrix env.entireMesh.Nq nek_mesh.numQuadraturePoints1D,
              env.interpolationMatrix nek_mesh.numQuadraturePoints1D env.entireMesh.Nq,
              decide (nek_mesh.numQuadraturePoints1D > 2),
              if has_output then some (params.getMulti "output") else none,
              if has_output then List.replicate n_points 0 else [],
              [], [], "", env.aux_number, env.pid⟩,
            warnings)

/-- The message of the first check of the constructor: a transfer-minimization
toggle is set while Nek is the top-level driver. -/
def minimizeTransfersMessage : String :=
  "The \x27minimize_transfers_in\x27 and \x27minimize_transfers_out\x27 " ++
    "capabilities require that nekRS is receiving and sending data to a master " ++
    "application, but in your case nekRS is the master application."

/-- The message of the second check of the constructor: field-file output is
both disabled and customised. -/
def disableAndWriteMessage : String :=
  "Cannot both disable all field file output and write custom field files!\n" ++
    "\x27write_fld_files\x27 and \x27disable_fld_file_output\x27 cannot both be true!"

/-- The message of the third check of the constructor: custom field files are
requested while Nek is the top-level driver. -/
def masterWriteMessage : String :=
  "The \x27write_fld_files\x27 setting should only be true when multiple " ++
    "Nek simulations are run as sub-apps on a master app.\n" ++
    "Your input has Nek as the master app."

/-! ## Scatter into the mirror-mesh field storage -/

/-- One call `solution.set(dof_idx, value[node_offset])` of `fillAuxVariable`,
tagged with the loop indices `e`, `n` at which it is made. -/
structure AuxSet where
  e : Nat
  n : Nat
  node_offset : Nat
  dof_idx : Nat
  val : ℚ
  deriving DecidableEq, Repr

/-- The member function `fillAuxVariable`: the calls to `solution.set`, in the
order the two nested loops make them. -/
def NekRSProblemBase.fillAuxVariable (pb : NekRSProblemBase) (var_number : Nat)
    (value : Nat → ℚ) : List AuxSet :=
  let sys_number := pb.aux_number
  let pid := pb.pid
  (List.range pb.n_elems).flatMap fun e =>
    match pb.nek_mesh.queryElemPtr e with
    | none => []
    | some elem_ptr =>
      (List.range pb.n_vertices_per_elem).flatMap fun n =>
        let node_ptr := elem_ptr.node_ptr n
        if node_ptr.processor_id = pid then
          let node_index := pb.nek_mesh.nodeIndex n
          let node_offset := e * pb.n_vertices_per_elem + node_index
          let dof_idx := node_ptr.dof_number sys_number var_number 0
          [⟨e, n, node_offset, dof_idx, value node_offset⟩]
        else []

/-! ## Registration of the auxiliary variables -/

/-- The member function `addTemperatureVariable`. -/
def NekRSProblemBase.addTemperatureVariable (pb : NekRSProblemBase)
    (hasTemperatureVariable : Bool) : Except String NekRSProblemBase :=
  if !hasTemperatureVariable then
    Except.error ("Cannot set \x27output = temperature\x27 for \x27" ++ pb.type ++
      "\x27 because your Nek case files do not have a temperature variable!")
  else
    Except.ok { pb with var_names := pb.var_names ++ ["temp"] }

/-- The first loop of `addExternalVariables`, over the requested outputs. -/
def NekRSProblemBase.addOutputNames (hasTemperatureVariable : Bool) :
    NekRSProblemBase → List String → Except String NekRSProblemBase
  | pb, [] => Except.ok pb
  | pb, output :: rest =>
    if output = "temperature" then
      match pb.addTemperatureVariable hasTemperatureVariable with
      | Except.error e => Except.error e
      | Except.ok pb1 => NekRSProblemBase.addOutputNames hasTemperatureVariable pb1 rest
    else if output = "velocity" then
      NekRSProblemBase.addOutputNames hasTemperatureVariable
        { pb with var_names := pb.var_names ++ ["vel_x", "vel_y", "vel_z"] } rest
    else if output = "pressure" then
      NekRSProblemBase.addOutputNames hasTemperatureVariable
        { pb with var_names := pb.var_names ++ ["P"] } rest
    else
      NekRSProblemBase.addOutputNames hasTemperatureVariable pb rest

/-- What `addExternalVariables` leaves behind: the problem object, the names
passed to `addAuxVariable` and to `addPostprocessor`, in call order. -/
structure ExternalVariables where
  problem : NekRSProblemBase
  aux_variables : List String
  postprocessors : List String

/-- The member function `addExternalVariables`. `number` is the variable number
the auxiliary system reports for a name it has registered
(`_aux->getFieldVariable<Real>(0, name).number()`). -/
def NekRSProblemBase.addExternalVariables (pb : NekRSProblemBase)
    (hasTemperatureVariable : Bool) (number : String → Nat) :
    Except String ExternalVariables :=
  let pp := if pb.minimize_transfers_in then ["transfer_in"] else []
  match pb.outputs with
  | none => Except.ok ⟨pb, [], pp⟩
  | some outputs =>
    match NekRSProblemBase.addOutputNames hasTemperatureVariable pb outputs with
    | Except.error e => Except.error e
    | Except.ok pb1 =>
      let var_string := pb1.var_names.foldl (fun s name => s ++ " " ++ name ++ ",") ""
      Except.ok ⟨
        { pb1 with
            external_vars := pb1.external_vars ++ pb1.var_names.map number
            var_string := var_string.dropRight 1 },
        pb1.var_names, pp⟩

/-! ## Outgoing transfer: solver to mirror mesh -/

/-- Consecutive stores `buf[c] = v₀, buf[c + 1] = v₁, ...` into a buffer. -/
def writeAt (buf : List ℚ) (c : Nat) : List ℚ → List ℚ
  | [] => buf
  | v :: vs => writeAt (buf.set c v) (c + 1) vs

/-- The array `indices` of `boundarySolution`: the flattened face indices taken
when no interpolation is needed. -/
def boundarySolution_indices (start_1d : Int) : List Int :=
  let start_2d := start_1d * start_1d
  [0, start_1d - 1, start_2d - start_1d, start_2d - 1]

/-- The array `indices` of `volumeSolution`: the flattened element indices taken
when no interpolation is needed. -/
def volumeSolution_indices (start_1d : Int) : List Int :=
  let start_2d := start_1d * start_1d
  let start_3d := start_1d * start_1d * start_1d
  [0, start_1d - 1, start_2d - start_1d, start_2d - 1,
    start_3d - start_2d, start_3d - start_2d + start_1d - 1, start_3d - start_1d, start_3d - 1]

/-- The body of the face loop of `boundarySolution` for table entry `k`: the
`end_2d` values stored at the cursor, in store order. -/
def NekRSProblemBase.boundarySolution_face (pb : NekRSProblemBase) (nek : NekInterface)
    (field : NekFieldEnum) (k : Nat) : List ℚ :=
  let mesh := nek.entireMesh
  let bc := pb.nek_mesh.boundaryCoupling
  let f := nek.solutionPointer field
  let start_1d := mesh.Nq
  let end_1d := pb.nek_mesh.order + 2
  let start_2d := start_1d * start_1d
  let end_2d := end_1d * end_1d
  let indices := boundarySolution_indices start_1d
  let i := bc.element.getD k 0
  let j := bc.face.getD k 0
  let offset : Int := (i : Int) * (mesh.Nfaces : Int) * (start_2d : Int) + (j : Int) * (start_2d : Int)
  if pb.needs_interpolation then
    let Tface := (List.range start_2d).map fun (v : Nat) => f (mesh.vmapM (offset + (v : Int)))
    interpolateSurfaceFaceHex3D pb.interpolation_outgoing Tface start_1d end_1d
  else
    (List.range end_2d).map fun (v : Nat) => f (mesh.vmapM (offset + indices.getD v 0))

/-- The face loop of `boundarySolution`: the buffer `Ttmp` (allocated zeroed
with `n_faces * end_2d` entries) and the cursor `c` after the loop. -/
def NekRSProblemBase.boundarySolution_extract (pb : NekRSProblemBase) (nek : NekInterface)
    (field : NekFieldEnum) : List ℚ × Nat :=
  let bc := pb.nek_mesh.boundaryCoupling
  let end_1d := pb.nek_mesh.order + 2
  let end_2d := end_1d * end_1d
  (List.range bc.total_n_faces).foldl
    (fun (st : List ℚ × Nat) k =>
      if bc.process.getD k 0 = nek.commRank then
        (writeAt st.1 st.2 (pb.boundarySolution_face nek field k), st.2 + end_2d)
      else st)
    (List.replicate (bc.n_faces * end_2d) 0, 0)

/-- The stores `buf[c] = v₀, buf[c + 1] = v₁, ...` of `writeAt`, recorded
instead of performed: (position, value) pairs in program order. -/
def storesAt (c : Nat) : List ℚ → List (Nat × ℚ)
  | [] => []
  | v :: vs => (c, v) :: storesAt (c + 1) vs

/-- The face loop of `boundarySolution` with its stores into `Ttmp` recorded
instead of performed: the (position, value) pairs in program order, and the
cursor `c` after the loop. -/
def NekRSProblemBase.boundarySolution_stores (pb : NekRSProblemBase) (nek : NekInterface)
    (field : NekFieldEnum) : List (Nat × ℚ) × Nat :=
  let bc := pb.nek_mesh.boundaryCoupling
  let end_1d := pb.nek_mesh.order + 2
  let end_2d := end_1d * end_1d
  (List.range bc.total_n_faces).foldl
    (fun (st : List (Nat × ℚ) × Nat) k =>
      if bc.process.getD k 0 = nek.commRank then
        (st.1 ++ storesAt st.2 (pb.boundarySolution_face nek field k), st.2 + end_2d)
      else st)
    ([], 0)

/-- The loop "dimensionalize the solution if needed" shared by `boundarySolution`
and `volumeSolution`: for `v < Nlocal`, `dimensionalize(field, Ttmp[v])`, then
the reference temperature is added when the field is the temperature. -/
def NekRSProblemBase.dimensionalizeLoop (pb : NekRSProblemBase) (nek : NekInterface)
    (field : NekFieldEnum) (Nlocal : Nat) (Ttmp : List ℚ) : List ℚ :=
  (List.range Nlocal).foldl
    (fun buf v =>
      let x := nek.dimensionalize field (buf.getD v 0)
      buf.set v (if field = NekFieldEnum.temperature then x + pb.T_ref else x))
    Ttmp

/-- The rank-local part of `boundarySolution`: the buffer `Ttmp` handed to the
collective gather. -/
def NekRSProblemBase.boundarySolution_local (pb : NekRSProblemBase) (nek : NekInterface)
    (field : NekFieldEnum) : List ℚ :=
  let bc := pb.nek_mesh.boundaryCoupling
  let end_1d := pb.nek_mesh.order + 2
  let end_2d := end_1d * end_1d
  pb.dimensionalizeLoop nek field (bc.n_faces * end_2d) (pb.boundarySolution_extract nek field).1

/-- The member function `boundarySolution` in a collective run: rank `r` holds
the problem `pb r` over the solver state `nek r`; the result is the array `T`
on rank `self`. -/
def boundarySolution (pb : Nat → NekRSProblemBase) (nek : Nat → NekInterface) (self : Nat)
    (field : NekFieldEnum) : List ℚ :=
  let bc := (pb self).nek_mesh.boundaryCoupling
  let end_1d := (pb self).nek_mesh.order + 2
  let end_2d := end_1d * end_1d
  allgatherv bc.counts (fun r => (pb r).boundarySolution_local (nek r) field) end_2d

/-- The body of the element loop of `volumeSolution` for the rank-local element
`k`: the `end_3d` values stored at the cursor, in store order. -/
def NekRSProblemBase.volumeSolution_element (pb : NekRSProblemBase) (nek : NekInterface)
    (field : NekFieldEnum) (k : Nat) : List ℚ :=
  let mesh := nek.entireMesh
  let f := nek.solutionPointer field
  let start_1d := mesh.Nq
  let end_1d := pb.nek_mesh.order + 2
  let start_3d := start_1d * start_1d * start_1d
  let end_3d := end_1d * end_1d * end_1d
  let indices := volumeSolution_indices start_1d
  let offset : Int := (k : Int) * (start_3d : Int)
  if pb.needs_interpolation then
    let Telem := (List.range start_3d).map fun (v : Nat) => f (offset + (v : Int))
    interpolateVolumeHex3D pb.interpolation_outgoing Telem start_1d end_1d
  else
    (List.range end_3d).map fun (v : Nat) => f (offset + indices.getD v 0)

/-- The element loop of `volumeSolution`: the buffer `Ttmp` (allocated zeroed
with `n_elems * end_3d` entries) and the cursor `c` after the loop. -/
def NekRSProblemBase.volumeSolution_extract (pb : NekRSProblemBase) (nek : NekInterface)
    (field : NekFieldEnum) : List ℚ × Nat :=
  let vc := pb.nek_mesh.volumeCoupling
  let end_1d := pb.nek_mesh.order + 2
  let end_3d := end_1d * end_1d * end_1d
  (List.range nek.entireMesh.Nelements).foldl
    (fun (st : List ℚ × Nat) k =>
      (writeAt st.1 st.2 (pb.volumeSolution_element nek field k), st.2 + end_3d))
    (List.replicate (vc.n_elems * end_3d) 0, 0)

/-- The rank-local part of `volumeSolution`: the buffer `Ttmp` handed to the
collective gather. -/
def NekRSProblemBase.volumeSolution_local (pb : NekRSProblemBase) (nek : NekInterface)
    (field : NekFieldEnum) : List ℚ :=
  let vc := pb.nek_mesh.volumeCoupling
  let end_1d := pb.nek_mesh.order + 2
  let end_3d := end_1d * end_1d * end_1d
  pb.dimensionalizeLoop nek field (vc.n_elems * end_3d) (pb.volumeSolution_extract nek field).1

/-- The member function `volumeSolution` in a collective run; the result is the
array `T` on rank `self`. -/
def volumeSolution (pb : Nat → NekRSProblemBase) (nek : Nat → NekInterface) (self : Nat)
    (field : NekFieldEnum) : List ℚ :=
  let vc := (pb self).nek_mesh.volumeCoupling
  let end_1d := (pb self).nek_mesh.order + 2
  let end_3d := end_1d * end_1d * end_1d
  allgatherv vc.counts (fun r => (pb r).volumeSolution_local (nek r) field) end_3d

/-! ## Incoming transfer: mirror mesh to solver -/

/-- One call `write_solution(id, value)` of the write accessor selected by
`field` (`nekrs::solution::solutionPointer(field)`). -/
structure WriteCall (W : Type) where
  field : W
  id : Nat
  value : ℚ

/-- The member function `writeVolumeSolution`: the calls it makes to the write
accessor, in order. `W` is `field::NekWriteEnum`; `add` is the optional
correction (`none` is the null pointer). -/
def NekRSProblemBase.writeVolumeSolution {W : Type} (pb : NekRSProblemBase)
    (nek : NekInterface) (elem_id : Nat) (field : W) (T : List ℚ)
    (add : Option (List ℚ)) : List (WriteCall W) :=
  let vc := pb.nek_mesh.volumeCoupling
  if nek.commRank = vc.processor_id elem_id then
    let mesh := nek.entireMesh
    let end_1d := mesh.Nq
    let start_1d := pb.nek_mesh.order + 2
    let e := vc.element.getD elem_id 0
    let tmp := writeAt (List.replicate mesh.Np 0) 0
      (interpolateVolumeHex3D pb.interpolation_incoming T start_1d end_1d)
    let id := e * mesh.Np
    (List.range mesh.Np).map fun v =>
      let extra : ℚ := match add with
        | none => 0
        | some a => a.getD (id + v) 0
      ⟨field, id + v, tmp.getD v 0 + extra⟩
  else []

/-- The flattened index selected along one axis by the endpoint targets: the
first source node for target `0`, the last one otherwise. -/
def corner (N : Nat) (j : Nat) : Nat := if j = 0 then 0 else N - 1

/-! ## A small two-rank configuration

Concrete objects at which the theorems below are instantiated: two ranks, a
solver mesh with two points per dimension, a first-order mirror mesh with one
coupled face (one coupled element) per rank. -/

/-- A solver mesh with two points per dimension and one element. -/
def sampleMesh : mesh_t := ⟨2, 8, 6, 1, fun i => i⟩

/-- The solver as rank `r` sees it: the field value at point `id` is `id + r`,
rescaling doubles. -/
def sampleNek (r : Nat) : NekInterface :=
  ⟨r, sampleMesh, fun _ id => (id : ℚ) + (r : ℚ), fun _ x => 2 * x⟩

/-- A boundary table with one face on each of two ranks. -/
def sampleBoundary : NekBoundaryCoupling := ⟨[0, 0], [4, 2], [1, 1], [0, 1], [1, 1], 1, 2, 0⟩

/-- A volume table with one element on each of two ranks. -/
def sampleVolume : NekVolumeCoupling := ⟨[0, 0], [0, 1], [1, 1], 1, 2, 0⟩

/-- A mirror element whose vertices 0 and 1 belong to rank 0, the others to
rank 1; the degree of freedom of vertex `n` of element `e` is `10 * e + n`. -/
def sampleElem (e : Nat) : Elem :=
  ⟨fun n => ⟨if n < 2 then 0 else 1, fun _ _ _ => 10 * e + n⟩⟩

/-- A first-order boundary mirror mesh of two elements. -/
def sampleMirror : NekRSMesh :=
  ⟨0, 2, sampleBoundary, sampleVolume, some [1], false, 2, 4, 2, 8, 2, 4, [0, 1, 3, 2], 1,
    fun e => if e < 2 then some (sampleElem e) else none⟩

/-- The problem object on rank `r`, with identity interpolation matrices and
reference temperature 5. -/
def sampleProblem (r : Nat) : NekRSProblemBase :=
  ⟨"NekRSProblem", false, 1, 5, 1, 1, 1, 1, false, false, false, false, 0, "a00", sampleMirror,
    2, 4, 2, 8, 2, 4, 8,
    fun i j => if i = j then 1 else 0, fun i j => if i = j then 1 else 0,
    false, some ["temperature", "velocity"], List.replicate 8 0, [], [], "", 0, r⟩

/-- The surroundings of the constructor in the sample configuration: a
sub-application with index 0, no conjugate heat transfer, identity interpolation
matrices. -/
def sampleEnv : ConstructorEnv :=
  ⟨false, 0, false, false, 0, "NekRSProblem", "NekRSMesh", some sampleMirror,
    fun _ _ i j => if i = j then 1 else 0, sampleMesh, 1 / 1000000000000, 0, 0⟩

/-- The parameters of the sample configuration: the input sets `T_ref = 5` and
`output = temperature velocity`. -/
def sampleParams : InputParameters :=
  (validParams.setByUser "T_ref" (ParamValue.real 5)).setByUser "output"
    (ParamValue.multi ["temperature", "velocity"])

/-- Non-dimensional mode with four of the six reference scales set by the
input: `rho_0` and `Cp_0` are left out. -/
def partialScaleParams : InputParameters :=
  ((((validParams.setByUser "nondimensional" (ParamValue.bool true)).setByUser
    "U_ref" (ParamValue.real 2)).setByUser
    "T_ref" (ParamValue.real 300)).setByUser
    "dT_ref" (ParamValue.real 10)).setByUser
    "L_ref" (ParamValue.real 1)

/-! ## Extraction of the outputs onto the mirror mesh -/

/-- One pass of the loop of `extractOutputs` for a supported name: the field it
dispatched to, `_external_data` after `boundarySolution` / `volumeSolution`
stored the gathered array into it, and the calls `fillAuxVariable` made to
`solution.set`. -/
structure OutputTransfer where
  name : String
  field : NekFieldEnum
  data : List ℚ
  sets : List AuxSet

/-- What `extractOutputs` leaves behind on the calling rank: `_external_data`,
the passes completed, and the fatal error that stopped the loop, if any. -/
structure ExtractOutcome where
  external_data : List ℚ
  transfers : List OutputTransfer
  error : Option String

/-- The loop of `extractOutputs` over the indices `i` of `_var_names`, in a
collective run (rank `r` holds `pb r` over `nek r`, the caller is `self`).
`_volume` is the flag `volume()` of the mesh, copied by the constructor. -/
def extractOutputs_loop (pb : Nat → NekRSProblemBase) (nek : Nat → NekInterface) (self : Nat) :
    List Nat → List ℚ → List OutputTransfer → ExtractOutcome
  | [], external_data, done => ⟨external_data, done, none⟩
  | i :: rest, external_data, done =>
    let name := (pb self).var_names.getD i ""
    let field_enum : Option NekFieldEnum :=
      if name = "temp" then some NekFieldEnum.temperature
      else if name = "P" then some NekFieldEnum.pressure
      else if name = "vel_x" then some NekFieldEnum.velocity_x
      else if name = "vel_y" then some NekFieldEnum.velocity_y
      else if name = "vel_z" then some NekFieldEnum.velocity_z
      else none
    match field_enum with
    | none => ⟨external_data, done, some "Unhandled NekFieldEnum in NekRSProblemBase!"⟩
    | some field =>
      let T :=
        if (pb self).nek_mesh.volume then volumeSolution pb nek self field
        else boundarySolution pb nek self field
      let data := writeAt external_data 0 T
      let sets := (pb self).fillAuxVariable ((pb self).external_vars.getD i 0)
        (fun j => data.getD j 0)
      extractOutputs_loop pb nek self rest data (done ++ [⟨name, field, data, sets⟩])

/-- The member function `extractOutputs` in a collective run, on rank `self`. -/
def extractOutputs (pb : Nat → NekRSProblemBase) (nek : Nat → NekInterface) (self : Nat) :
    ExtractOutcome :=
  if (pb self).outputs.isSome && decide ((pb self).var_names.length ≠ 0) then
    extractOutputs_loop pb nek self (List.range (pb self).var_names.length)
      (pb self).external_data []
  else ⟨(pb self).external_data, [], none⟩

/-! ## The coupled time step -/

/-- A call into the solver or into the time stepper, with its arguments. -/
inductive NekCall where
  | runStep (time dt : ℚ) (tstep : Int)
  | adjustNekSolution
  | ocopyToNek (time : ℚ) (tstep : Int)
  | write_field_file (prefix_str : String) (time : ℚ)
  | outfld (time : ℚ)
  | udfExecuteStep (time : ℚ) (tstep : Int) (outputStep : Bool)
  | setReferenceTime (L U : ℚ)
  | dimensionalizeDT
  deriving DecidableEq, Repr

/-- Whether a call writes a field file. -/
def NekCall.isFieldFileWrite : NekCall → Bool
  | NekCall.write_field_file _ _ => true
  | NekCall.outfld _ => true
  | _ => false

/-- The floor of the binary logarithm of `n` (`0` for `n = 0`), by repeated
halving; `fuel = n` halvings are always enough. -/
def floorLog2 : Nat → Nat → Nat
  | 0, _ => 0
  | fuel + 1, n => if n < 2 then 0 else floorLog2 fuel (n / 2) + 1

/-- The integer nearest to `n / d`, a tie going to the even one. -/
def roundHalfEven (n d : Nat) : Nat :=
  let q := n / d
  let r := n % d
  if 2 * r < d then q else if d < 2 * r then q + 1 else if q % 2 = 0 then q else q + 1

/-- The floor of the binary logarithm of `n / d`, for `n` and `d` positive. -/
def log2Ratio (n d : Nat) : Int :=
  let k : Int := (floorLog2 n n : Int) - (floorLog2 d d : Int)
  if d * 2 ^ k.toNat ≤ n * 2 ^ (-k).toNat then k else k - 1

/-- The binary64 significand and exponent of `n / d`: the exponent `e` puts
`n / (d * 2 ^ e)` in `[2 ^ 52, 2 ^ 53)` and is not below `-1074` (the
subnormal range); the significand is `n / (d * 2 ^ e)` rounded to nearest, ties
to even. -/
def doubleMantissaExponent (n d : Nat) : Nat × Int :=
  let e := max (log2Ratio n d - 52) (-1074)
  (roundHalfEven (n * 2 ^ (-e).toNat) (d * 2 ^ e.toNat), e)

/-- The rounding of a real result to the type `double` (IEEE 754 binary64,
round to nearest, ties to even), as the hardware applies it to every `+` and
`-` of the source. Overflow to infinity is not modelled: beyond the largest
finite double the exponent keeps growing. -/
def roundDouble (x : ℚ) : ℚ :=
  let me := doubleMantissaExponent x.num.natAbs x.den
  (if x.num < 0 then -1 else 1) * ((me.1 : ℚ) * 2 ^ me.2)

/-- The members of the problem object that change during the run and are not
set by the constructor: the driver time `_time`, the step `_dt` and the step
index `_t_step` (owned by the framework), `_is_output_step`, the value of the
`transfer_in` postprocessor that `_transfer_in` points to, and the function
static `first` of `synchronizeIn`. -/
structure RunState where
  time : ℚ
  dt : ℚ
  t_step : Int
  is_output_step : Bool
  transfer_in : ℚ
  first : Bool
  deriving DecidableEq, Repr

/-- What the time step reads from outside the problem object: the solver
(`buildOnly`, `lastStep(time, tstep, 0.0)`, `outputStep(time, tstep)`), the
application (`isUltimateMaster`), the time stepper (`minDT`,
`nondimensionalDT`), the executioner (`getTargetTime`, `timestepTol`) and the
two renderings of numbers used in messages (`Moose::stringify` and
`std::to_string`). -/
structure RunEnv where
  buildOnly : Bool
  isUltimateMaster : Bool
  lastStep : ℚ → Int → Bool
  outputStep : ℚ → Int → Bool
  minDT : ℚ
  nondimensionalDT : ℚ → ℚ
  targetTime : ℚ
  timestepTol : ℚ
  stringify : ℚ → String
  to_string : ℚ → String

/-- The outcome of a member function that may stop on a fatal error: the run
state when it returned or stopped, the calls made up to then, and the error. -/
structure RunOutcome where
  state : RunState
  calls : List NekCall
  error : Option String

/-- The member function `isOutputStep`. -/
def NekRSProblemBase.isOutputStep (env : RunEnv) (s : RunState) : Bool :=
  if env.isUltimateMaster && env.lastStep (env.nondimensionalDT s.time) s.t_step then true
  else env.outputStep (env.nondimensionalDT s.time) s.t_step

/-- The field-file write shared by `externalSolve` and the destructor:
`write_field_file(_prefix, time)` when `_write_fld_files`, else `outfld(time)`. -/
def NekRSProblemBase.fieldFileWrite (pb : NekRSProblemBase) (time : ℚ) : NekCall :=
  if pb.write_fld_files then NekCall.write_field_file pb.prefix_str time
  else NekCall.outfld time

/-- The member function `externalSolve`. The difference `_time - _dt` and the
sum `_time += _dt` are operations on `double`. -/
def NekRSProblemBase.externalSolve (pb : NekRSProblemBase) (env : RunEnv) (s : RunState) :
    RunOutcome :=
  if env.buildOnly then ⟨s, [], none⟩
  else if s.dt < env.minDT then
    ⟨s, [], some ("Requested time step of " ++ env.to_string s.dt ++
      " is smaller than the minimum time step of " ++ env.stringify env.minDT ++
      " allowed in NekRS!\n\nYou can control this behavior with the \x27min_dt\x27 " ++
      "parameter on \x27NekTimeStepper\x27.")⟩
  else
    let step_start_time := roundDouble (s.time - s.dt)
    let step_end_time := s.time
    let step := [NekCall.runStep (env.nondimensionalDT step_start_time)
        (env.nondimensionalDT s.dt) s.t_step,
      NekCall.adjustNekSolution,
      NekCall.ocopyToNek (env.nondimensionalDT step_end_time) s.t_step]
    let is_output_step := NekRSProblemBase.isOutputStep env s
    let writes :=
      if is_output_step && !pb.disable_fld_file_output then
        [pb.fieldFileWrite (env.nondimensionalDT step_end_time)]
      else []
    ⟨{ s with is_output_step := is_output_step, time := roundDouble (s.time + s.dt) },
      step ++ writes, none⟩

/-- The destructor `~NekRSProblemBase`: the calls it makes into the solver (the
release of the buffers is left out). -/
def NekRSProblemBase.destructor (pb : NekRSProblemBase) (env : RunEnv) (s : RunState) :
    List NekCall :=
  if !s.is_output_step && !pb.disable_fld_file_output then
    [pb.fieldFileWrite (env.nondimensionalDT s.time)]
  else []

/-! ## Synchronization -/

/-- The values of `ExternalProblem::Direction`; `other` stands for a value of
the enumeration type that is none of its two enumerators. -/
inductive Direction where
  | TO_EXTERNAL_APP
  | FROM_EXTERNAL_APP
  | other (raw : Int)
  deriving DecidableEq, Repr

/-- The member function `synchronizeIn`: the returned flag, the run state after
the call (postprocessor value, `first`) and the fatal error, if any. -/
def NekRSProblemBase.synchronizeIn (pb : NekRSProblemBase) (s : RunState) :
    Bool × RunState × Option String :=
  if pb.minimize_transfers_in then
    if s.first && decide (s.transfer_in = 0) then
      (true, s, some ("The default value for the \x27transfer_in\x27 postprocessor received " ++
        "by nekRS must not be false! Make sure that the master application\x27s " ++
        "postprocessor is not zero."))
    else if s.transfer_in = 0 then (false, { s with first := false }, none)
    else (true, { s with transfer_in := 0, first := false }, none)
  else (true, { s with first := false }, none)

/-- The member function `synchronizeOut`. The two subtractions of
`_time - _dt - getTargetTime()` are operations on `double`, done left to
right. -/
def NekRSProblemBase.synchronizeOut (pb : NekRSProblemBase) (env : RunEnv) (s : RunState) :
    Bool :=
  if pb.minimize_transfers_out then
    if |roundDouble (roundDouble (s.time - s.dt) - env.targetTime)| > env.timestepTol then false
    else true
  else true

/-- What `syncSolutions` leaves behind on the calling rank. -/
structure SyncOutcome where
  state : RunState
  external_data : List ℚ
  transfers : List OutputTransfer
  error : Option String

/-- The member function `syncSolutions` in a collective run, on rank `self`. -/
def syncSolutions (pb : Nat → NekRSProblemBase) (nek : Nat → NekInterface) (self : Nat)
    (env : RunEnv) (s : RunState) (direction : Direction) : SyncOutcome :=
  if env.buildOnly then ⟨s, (pb self).external_data, [], none⟩
  else
    match direction with
    | Direction.TO_EXTERNAL_APP =>
      let r := (pb self).synchronizeIn s
      ⟨r.2.1, (pb self).external_data, [], r.2.2⟩
    | Direction.FROM_EXTERNAL_APP =>
      if !(pb self).synchronizeOut env s then ⟨s, (pb self).external_data, [], none⟩
      else
        let out := extractOutputs pb nek self
        ⟨s, out.external_data, out.transfers, out.error⟩
    | Direction.other _ =>
      ⟨s, (pb self).external_data, [], some "Unhandled Transfer::DIRECTION enum!"⟩

/-! ## Initial setup -/

/-- What `initialSetup` reads from the application: the executioner after the
cast to `Transient` (`none` when the cast fails, else its `getStartTime()`),
whether its time stepper casts to `NekTimeStepper`, the type names used in
messages, the tolerance of `MooseUtils::absoluteFuzzyEqual`, the time stepper's
`dimensionalDT` and the rendering of numbers in messages. -/
structure SetupEnv where
  transient : Option ℚ
  executioner_type : String
  isNekTimeStepper : Bool
  stepper_type : String
  fuzzy_tol : ℚ
  dimensionalDT : ℚ → ℚ
  stringify : ℚ → String

/-- What `initialSetup` leaves behind: the problem object, the warnings emitted,
the calls into the time stepper and the solver, and the fatal error, if any. -/
structure SetupOutcome where
  problem : NekRSProblemBase
  warnings : List String
  calls : List NekCall
  error : Option String

/-- The member function `initialSetup` (the setup of the base class
`ExternalProblem` and the lookup of the `transfer_in` postprocessor are left
out). -/
def NekRSProblemBase.initialSetup (pb : NekRSProblemBase) (env : SetupEnv) (s : RunState) :
    SetupOutcome :=
  match env.transient with
  | none =>
    ⟨pb, [], [], some ("A \x27Transient\x27 executioner must be used with \x27" ++ pb.type ++
      "\x27, but you have specified the \x27" ++ env.executioner_type ++ "\x27 executioner!")⟩
  | some moose_start_time =>
    if moose_start_time ≠ 0 then
      ⟨pb, [], [], some ("You specified a start time of " ++ env.stringify moose_start_time ++
        ", but a non-zero start time is not yet supported for \x27" ++ pb.type ++ "\x27!")⟩
    else if !env.isNekTimeStepper then
      ⟨pb, [], [], some ("The \x27NekTimeStepper\x27 stepper must be used with \x27" ++ pb.type ++
        "\x27, but you have specified the \x27" ++ env.stepper_type ++ "\x27 time stepper!")⟩
    else
      let reference := [NekCall.setReferenceTime pb.L_ref pb.U_ref]
      if !absoluteFuzzyEqual moose_start_time pb.start_time env.fuzzy_tol then
        ⟨{ pb with start_time := moose_start_time },
          ["The start time set on the executioner: " ++ env.stringify moose_start_time ++
            " does not match the start time set in NekRS\x27s .par file: " ++
            env.stringify (env.dimensionalDT pb.start_time) ++ ". " ++
            "\nThis may happen if you are using a restart file in NekRS.\n\n" ++
            "Setting start time for \x27" ++ pb.type ++ "\x27 to: " ++
            env.stringify moose_start_time],
          reference ++ [NekCall.dimensionalizeDT,
            NekCall.udfExecuteStep moose_start_time s.t_step false],
          none⟩
      else
        ⟨pb, [],
          reference ++ [NekCall.dimensionalizeDT,
            NekCall.udfExecuteStep pb.start_time s.t_step false],
          none⟩

/-! ## The transport solver wrapper (`OpenMCProblemBase.C`) -/

/-- What a lookup of the transport backend (`openmc_cell_get_id`,
`openmc_material_get_id`) hands back: the status it returns, the content of the
output argument `id` after the call, and the message left in `openmc_err_msg`. -/
structure OpenMCLookup where
  err : Int
  id : Int
  err_msg : String

/-- The two id lookups of the transport backend, by index. -/
structure OpenMCBackend where
  openmc_cell_get_id : Int → OpenMCLookup
  openmc_material_get_id : Int → OpenMCLookup

/-- The member function `OpenMCProblemBase::cellID`. -/
def OpenMCProblemBase.cellID (backend : OpenMCBackend) (index : Int) : Except String Int :=
  let r := backend.openmc_cell_get_id index
  if r.err ≠ 0 then
    Except.error ("In attempting to get ID for cell with index " ++ toString index ++
      " , OpenMC reported:\n\n" ++ r.err_msg)
  else Except.ok r.id

/-- The member function `OpenMCProblemBase::materialID`: on a nonzero status
the message is assembled into a local stream and dropped; the function returns
`id` in either case. -/
def OpenMCProblemBase.materialID (backend : OpenMCBackend) (index : Int) : Except String Int :=
  let r := backend.openmc_material_get_id index
  Except.ok r.id


/-- A transport backend with three cells and three materials (ids 10, 11, 12
and 20, 21, 22); any other index is reported out of bounds with a nonzero
status, and the output argument then holds 0. -/
def sampleBackend : OpenMCBackend :=
  ⟨fun i => if 0 ≤ i ∧ i < 3 then ⟨0, 10 + i, ""⟩
      else ⟨-3, 0, "Index in cells array is out of bounds."⟩,
    fun i => if 0 ≤ i ∧ i < 3 then ⟨0, 20 + i, ""⟩
      else ⟨-3, 0, "Index in materials array is out of bounds."⟩⟩

/-- The sample problem with a second registered name, `flux`, that
`extractOutputs` does not handle. -/
def sampleUnhandled (r : Nat) : NekRSProblemBase :=
  { sampleProblem r with var_names := ["temp", "flux"], external_vars := [0, 1] }

/-- A run as a sub-application, outside build-only mode: the solver reports the
last step at step 10 and an output step at every even step; minimum step 1/100,
no rescaling of time. -/
def sampleRunEnv : RunEnv :=
  ⟨false, false, fun _ t => decide (t = 10), fun _ t => decide (t % 2 = 0), 1 / 100,
    fun x => x, 1, 1 / 1000000, fun x => toString x.num ++ "/" ++ toString x.den,
    fun x => toString x.num ++ "/" ++ toString x.den⟩

/-- The run state before the step from time 1/2 to time 1 (step index 4). -/
def sampleRunState : RunState := ⟨1, 1 / 2, 4, false, 1, true⟩

/-- A transient executioner with start time 0 and a `NekTimeStepper`. -/
def sampleSetupEnv : SetupEnv :=
  ⟨some 0, "Transient", true, "NekTimeStepper", 1 / 1000000000000, fun x => x,
    fun x => toString x.num ++ "/" ++ toString x.den⟩

/-- The reading of a prefix that the specification describes, not a function
of the program: 100 times the position of the first character in `a..z`, plus
the decimal value of the next two characters. -/
def prefixNumber (s : String) : Nat :=
  let cs := s.toList
  100 * ((cs.getD 0 (Char.ofNat 0)).toNat - 97) +
    (10 * ((cs.getD 1 (Char.ofNat 0)).toNat - 48) + ((cs.getD 2 (Char.ofNat 0)).toNat - 48))

/-- The joint parameters `a` (given a value by the input) and `b` (declared
without a default and left out). -/
def jointParams : InputParameters :=
  (((InputParameters.mk []).addParamNoDefault "a" (ParamValue.real 0)).addParamNoDefault "b"
    (ParamValue.real 0)).setByUser "a" (ParamValue.real 1)

/-- A run state asking for the step 1/1000, below the minimum step of
`sampleRunEnv`. -/
def smallStepState : RunState := ⟨1, 1 / 1000, 4, false, 1, true⟩

/-- The sample problem on rank 0 with both transfer toggles set. -/
def minimizingProblem : NekRSProblemBase :=
  { sampleProblem 0 with minimize_transfers_in := true, minimize_transfers_out := true }

/-- A run state at driver time 1023 asking for the step 1.07 (the double
nearest to it), after the first synchronization. -/
def driftState : RunState := ⟨1023, roundDouble (107 / 100), 4, false, 1, false⟩

/-- A run as a sub-application, outside build-only mode, with target time 1023
and the step tolerance 1e-13 (the double nearest to it). -/
def driftEnv : RunEnv :=
  ⟨false, false, fun _ _ => false, fun _ _ => false, 1 / 100, fun x => x, 1023,
    roundDouble (1 / 10000000000000), fun x => toString x.num ++ "/" ++ toString x.den,
    fun x => toString x.num ++ "/" ++ toString x.den⟩

/-! # Theorems -/

/-! ## Corner index tables -/

theorem sq_bounds (N : Int) (hN : 2 ≤ N) : 2 * N ≤ N * N ∧ 2 * (N * N) ≤ N * N * N := by
  constructor <;> nlinarith [mul_nonneg (by linarith : (0:Int) ≤ N) (by linarith : (0:Int) ≤ N - 2),
    mul_nonneg (mul_nonneg (by linarith : (0:Int) ≤ N) (by linarith : (0:Int) ≤ N)) (by linarith : (0:Int) ≤ N - 2)]

/-- C7: for every solver point count per dimension `N ≥ 2`, the index table of
`boundarySolution` is `[0, N - 1, N² - N, N² - 1]` with entry `a + 2b` equal to
`a(N - 1) + N·b(N - 1)`, the index table of `volumeSolution` is the eight-entry
table of the source with entry `a + 2b + 4c` equal to
`a(N - 1) + N·b(N - 1) + N²·c(N - 1)` (`a, b, c ∈ {0, 1}`); the entries of each
table are pairwise distinct and lie in `[0, N²)`, respectively `[0, N³)`. -/
theorem corner_indices_closed_form (N : Int) (hN : 2 ≤ N) :
    boundarySolution_indices N = [0, N - 1, N ^ 2 - N, N ^ 2 - 1] ∧
    volumeSolution_indices N =
      [0, N - 1, N ^ 2 - N, N ^ 2 - 1, N ^ 3 - N ^ 2, N ^ 3 - N ^ 2 + N - 1, N ^ 3 - N,
        N ^ 3 - 1] ∧
    (∀ a b : Nat, a < 2 → b < 2 →
      (boundarySolution_indices N)[a + 2 * b]? = some ((a : Int) * (N - 1) + N * ((b : Int) * (N - 1)))) ∧
    (∀ a b c : Nat, a < 2 → b < 2 → c < 2 →
      (volumeSolution_indices N)[a + 2 * b + 4 * c]? =
        some ((a : Int) * (N - 1) + N * ((b : Int) * (N - 1)) + N ^ 2 * ((c : Int) * (N - 1)))) ∧
    (boundarySolution_indices N).Nodup ∧
    (volumeSolution_indices N).Nodup ∧
    (∀ i ∈ boundarySolution_indices N, 0 ≤ i ∧ i < N ^ 2) ∧
    (∀ i ∈ volumeSolution_indices N, 0 ≤ i ∧ i < N ^ 3) := by
  obtain ⟨h2, h3⟩ := sq_bounds N hN
  have e2 : N ^ 2 = N * N := by ring
  have e3 : N ^ 3 = N * N * N := by ring
  refine ⟨?_, ?_, ?_, ?_, ?_, ?_, ?_, ?_⟩
  · simp [boundarySolution_indices, e2]
  · simp [volumeSolution_indices, e2, e3]
  · intro a b ha hb
    interval_cases a <;> interval_cases b <;> simp [boundarySolution_indices] <;> ring
  · intro a b c ha hb hc
    interval_cases a <;> interval_cases b <;> interval_cases c <;>
      simp [volumeSolution_indices] <;> ring
  · simp only [boundarySolution_indices]
    generalize N * N = s at *
    simp only [List.nodup_cons, List.mem_cons, List.mem_singleton, List.not_mem_nil, List.nodup_nil,
      or_false, not_false_eq_true, and_true, not_or]
    omega
  · simp only [volumeSolution_indices]
    generalize N * N * N = t at *
    generalize N * N = s at *
    simp only [List.nodup_cons, List.mem_cons, List.mem_singleton, List.not_mem_nil, List.nodup_nil,
      or_false, not_false_eq_true, and_true, not_or]
    omega
  · simp only [boundarySolution_indices, e2]
    generalize N * N = s at *
    simp only [List.mem_cons, List.mem_singleton, List.not_mem_nil, or_false]
    intro i hi
    omega
  · simp only [volumeSolution_indices, e3]
    generalize N * N * N = t at *
    generalize N * N = s at *
    simp only [List.mem_cons, List.mem_singleton, List.not_mem_nil, or_false]
    intro i hi
    omega

theorem corner_indices_closed_form_witness :
    (2 : Int) ≤ 3 ∧
    (boundarySolution_indices 3 = [0, 3 - 1, 3 ^ 2 - 3, 3 ^ 2 - 1] ∧
    volumeSolution_indices 3 =
      [0, 3 - 1, 3 ^ 2 - 3, 3 ^ 2 - 1, 3 ^ 3 - 3 ^ 2, 3 ^ 3 - 3 ^ 2 + 3 - 1, 3 ^ 3 - 3,
        3 ^ 3 - 1] ∧
    (∀ a b : Nat, a < 2 → b < 2 →
      (boundarySolution_indices 3)[a + 2 * b]? = some ((a : Int) * (3 - 1) + 3 * ((b : Int) * (3 - 1)))) ∧
    (∀ a b c : Nat, a < 2 → b < 2 → c < 2 →
      (volumeSolution_indices 3)[a + 2 * b + 4 * c]? =
        some ((a : Int) * (3 - 1) + 3 * ((b : Int) * (3 - 1)) + 3 ^ 2 * ((c : Int) * (3 - 1)))) ∧
    (boundarySolution_indices 3).Nodup ∧
    (volumeSolution_indices 3).Nodup ∧
    (∀ i ∈ boundarySolution_indices 3, 0 ≤ i ∧ i < 3 ^ 2) ∧
    (∀ i ∈ volumeSolution_indices 3, 0 ≤ i ∧ i < 3 ^ 3)) :=
  ⟨by decide, corner_indices_closed_form 3 (by decide)⟩

/-! ## Interpolation at the endpoints -/

theorem getD_of_nodup_ne (nodes : List ℚ) (hnd : nodes.Nodup) {i j : Nat}
    (hi : i < nodes.length) (hj : j < nodes.length) (hij : i ≠ j) :
    nodes.getD i 0 ≠ nodes.getD j 0 := by
  rw [List.getD_eq_getElem _ _ hi, List.getD_eq_getElem _ _ hj]
  intro h
  exact hij ((List.Nodup.getElem_inj_iff hnd).1 h)

theorem lagrangeBasis_node (nodes : List ℚ) (hnd : nodes.Nodup) (i j : Nat)
    (hi : i < nodes.length) (hj : j < nodes.length) :
    lagrangeBasis nodes j (nodes.getD i 0) = if j = i then 1 else 0 := by
  unfold lagrangeBasis
  split_ifs with h
  · subst h
    apply List.prod_eq_one
    intro q hq
    simp only [List.mem_map, List.mem_filter, List.mem_range] at hq
    obtain ⟨m, ⟨hm, hmj⟩, rfl⟩ := hq
    have hne : m ≠ j := by simpa using hmj
    have := getD_of_nodup_ne nodes hnd hj hm (Ne.symm hne)
    exact div_self (sub_ne_zero.2 this)
  · apply List.prod_eq_zero
    simp only [List.mem_map, List.mem_filter, List.mem_range]
    exact ⟨i, ⟨hi, by simpa using (Ne.symm h)⟩, by simp⟩

theorem sum_select (N c : Nat) (hc : c < N) (g : Nat → ℚ) :
    ((List.range N).map fun n => (if n = c then (1 : ℚ) else 0) * g n).sum = g c := by
  induction N with
  | zero => omega
  | succ N ih =>
    rw [List.range_succ, List.map_append, List.sum_append]
    by_cases h : c = N
    · subst h
      have : ((List.range c).map fun n => (if n = c then (1 : ℚ) else 0) * g n) =
          (List.range c).map fun _ => (0 : ℚ) := by
        apply List.map_congr_left
        intro n hn
        have : n ≠ c := by have := List.mem_range.1 hn; omega
        simp [this]
      rw [this]
      simp
    · rw [ih (by omega)]
      have : N ≠ c := fun h' => h h'.symm
      simp [this]

theorem interpolateAxis_select (I : Nat → Nat → ℚ) (N M outer inner : Nat) (x : List ℚ)
    (c : Nat → Nat) (hM : 0 < M)
    (hI : ∀ j, j < M → ∀ n, n < N → I j n = if n = c j then 1 else 0)
    (hc : ∀ j, j < M → c j < N) :
    interpolateAxis I N M outer inner x =
      (List.range (outer * M * inner)).map fun p =>
        x.getD ((p / (inner * M) * N + c ((p / inner) % M)) * inner + p % inner) 0 := by
  unfold interpolateAxis
  apply List.map_congr_left
  intro p _
  have hj : (p / inner) % M < M := Nat.mod_lt _ hM
  rw [← sum_select N (c ((p / inner) % M)) (hc _ hj)
    (fun n => x.getD ((p / (inner * M) * N + n) * inner + p % inner) 0)]
  congr 1
  apply List.map_congr_left
  intro n hn
  rw [hI _ hj n (List.mem_range.1 hn)]

theorem getD_map_range (n : Nat) (g : Nat → ℚ) (i : Nat) (hi : i < n) :
    ((List.range n).map g).getD i 0 = g i := by
  rw [List.getD_eq_getElem _ _ (by simpa using hi)]
  simp

theorem endpoint_matrix (nodes : List ℚ) (hnd : nodes.Nodup) (N : Nat) (hlen : nodes.length = N)
    (hN : 2 ≤ N) :
    ∀ j, j < 2 → ∀ n, n < N →
      interpolationMatrix nodes [nodes.getD 0 0, nodes.getD (N - 1) 0] j n =
        if n = corner N j then 1 else 0 := by
  intro j hj n hn
  unfold interpolationMatrix corner
  interval_cases j
  · simpa using lagrangeBasis_node nodes hnd 0 n (by omega) (by omega)
  · simpa using lagrangeBasis_node nodes hnd (N - 1) n (by omega) (by omega)

theorem surface_select (I : Nat → Nat → ℚ) (N : Nat) (x : List ℚ) (hN : 2 ≤ N)
    (hI : ∀ j, j < 2 → ∀ n, n < N → I j n = if n = corner N j then 1 else 0) :
    interpolateSurfaceFaceHex3D I x N 2 =
      [x.getD 0 0, x.getD (N - 1) 0, x.getD ((N - 1) * N) 0, x.getD ((N - 1) * N + (N - 1)) 0] := by
  have hc : ∀ j, j < 2 → corner N j < N := by
    intro j _; unfold corner; split_ifs <;> omega
  unfold interpolateSurfaceFaceHex3D
  rw [interpolateAxis_select I N 2 1 2 _ (corner N) (by omega) hI hc,
    interpolateAxis_select I N 2 N 1 _ (corner N) (by omega) hI hc]
  have h4 : 1 * 2 * 2 = 4 := rfl
  rw [h4]
  simp only [List.range_succ, List.range_zero, List.nil_append, List.map_append, List.map_cons,
    List.map_nil, List.cons_append]
  have c0 : corner N 0 = 0 := by simp [corner]
  have c1 : corner N 1 = N - 1 := by simp [corner]
  have d1 : ((N - 1) * 2 + 1) / 2 = N - 1 := by omega
  have d2 : ((N - 1) * 2 + 1) % 2 = 1 := by omega
  have d3 : ((N - 1) * 2) / 2 = N - 1 := by omega
  have d4 : ((N - 1) * 2) % 2 = 0 := by omega
  simp only [Nat.reduceDiv, Nat.reduceMod, c0, c1, zero_mul, zero_add, add_zero, mul_one,
    Nat.mod_one, Nat.div_one, one_mul]
  rw [getD_map_range _ _ 0 (by omega), getD_map_range _ _ 1 (by omega),
    getD_map_range _ _ ((N - 1) * 2) (by omega), getD_map_range _ _ ((N - 1) * 2 + 1) (by omega)]
  simp only [Nat.reduceDiv, Nat.reduceMod, c0, c1, d1, d2, d3, d4, zero_mul, zero_add, add_zero,
    mul_one, Nat.mod_one, Nat.div_one, one_mul]

theorem volume_select (I : Nat → Nat → ℚ) (N : Nat) (x : List ℚ) (hN : 2 ≤ N)
    (hI : ∀ j, j < 2 → ∀ n, n < N → I j n = if n = corner N j then 1 else 0) :
    interpolateVolumeHex3D I x N 2 =
      [x.getD 0 0, x.getD (N - 1) 0, x.getD ((N - 1) * N) 0, x.getD ((N - 1) * N + (N - 1)) 0,
        x.getD ((N - 1) * N * N) 0, x.getD ((N - 1) * N * N + (N - 1)) 0,
        x.getD (((N - 1) * N + (N - 1)) * N) 0,
        x.getD (((N - 1) * N + (N - 1)) * N + (N - 1)) 0] := by
  have hc : ∀ j, j < 2 → corner N j < N := by
    intro j _; unfold corner; split_ifs <;> omega
  unfold interpolateVolumeHex3D
  rw [interpolateAxis_select I N 2 1 (2 * 2) _ (corner N) (by omega) hI hc,
    interpolateAxis_select I N 2 N 2 _ (corner N) (by omega) hI hc,
    interpolateAxis_select I N 2 (N * N) 1 _ (corner N) (by omega) hI hc]
  have h8 : 1 * 2 * (2 * 2) = 8 := rfl
  rw [h8]
  simp only [List.range_succ, List.range_zero, List.nil_append, List.map_append, List.map_cons,
    List.map_nil, List.cons_append]
  have c0 : corner N 0 = 0 := by simp [corner]
  have c1 : corner N 1 = N - 1 := by simp [corner]
  have hNN : (N - 1) * N + N = N * N := by
    obtain ⟨m, rfl⟩ : ∃ m, N = m + 1 := ⟨N - 1, by omega⟩
    simp; ring
  have t0 : ∀ t : Nat, (t * 2) / 2 = t := fun t => by omega
  have t1 : ∀ t : Nat, (t * 2 + 1) / 2 = t := fun t => by omega
  have t2 : ∀ t : Nat, (t * 2) % 2 = 0 := fun t => by omega
  have t3 : ∀ t : Nat, (t * 2 + 1) % 2 = 1 := fun t => by omega
  have f0 : ∀ t : Nat, (t * 4) / 4 = t := fun t => by omega
  have f1 : ∀ t : Nat, (t * 4 + 1) / 4 = t := fun t => by omega
  have f2 : ∀ t : Nat, (t * 4 + 2) / 4 = t := fun t => by omega
  have f3 : ∀ t : Nat, (t * 4 + 3) / 4 = t := fun t => by omega
  have g0 : ∀ t : Nat, (t * 4) / 2 % 2 = 0 := fun t => by omega
  have g1 : ∀ t : Nat, (t * 4 + 1) / 2 % 2 = 0 := fun t => by omega
  have g2 : ∀ t : Nat, (t * 4 + 2) / 2 % 2 = 1 := fun t => by omega
  have g3 : ∀ t : Nat, (t * 4 + 3) / 2 % 2 = 1 := fun t => by omega
  have m0 : ∀ t : Nat, (t * 4) % 2 = 0 := fun t => by omega
  have m1 : ∀ t : Nat, (t * 4 + 1) % 2 = 1 := fun t => by omega
  have m2 : ∀ t : Nat, (t * 4 + 2) % 2 = 0 := fun t => by omega
  have m3 : ∀ t : Nat, (t * 4 + 3) % 2 = 1 := fun t => by omega
  simp only [Nat.reduceDiv, Nat.reduceMod, Nat.reduceMul, c0, c1, zero_mul, zero_add, add_zero,
    mul_one, Nat.mod_one, Nat.div_one, one_mul]
  simp (disch := omega) only [getD_map_range, Nat.reduceDiv, Nat.reduceMod, Nat.reduceMul, c0, c1,
    zero_mul, zero_add, add_zero, mul_one, Nat.mod_one, Nat.div_one, one_mul,
    t0, t1, t2, t3, f0, f1, f2, f3, g0, g1, g2, g3, m0, m1, m2, m3]

/-! ## Fast path against the general interpolation -/

theorem pred_mul_add (N : Nat) (hN : 2 ≤ N) : (N - 1) * N + N = N * N := by
  obtain ⟨m, rfl⟩ : ∃ m, N = m + 1 := ⟨N - 1, by omega⟩
  simp; ring

theorem cast_corner (N : Nat) (hN : 2 ≤ N) :
    ((N - 1 : Nat) : Int) = (N : Int) - 1 ∧
    (((N - 1) * N : Nat) : Int) = (N : Int) * N - N := by
  obtain ⟨m, rfl⟩ : ∃ m, N = m + 1 := ⟨N - 1, by omega⟩
  constructor
  · simp
  · simp only [Nat.add_sub_cancel]; push_cast; ring

/-- C8: with two mirror points per dimension (`order = 0`) and at least two
solver points per dimension, the values the no-interpolation branch of
`boundarySolution` (`volumeSolution`) stores for a face (an element) are, in the
same order, the 4 (8) values the interpolation branch stores when the outgoing
matrix is the Lagrange matrix `(i, j) = L_j(x_i)` of distinct source nodes whose
targets are the first and the last source node. -/
theorem fast_path_eq_endpoint_interpolation (pb : NekRSProblemBase) (nek : NekInterface)
    (field : NekFieldEnum) (k : Nat) (nodes : List ℚ)
    (hN : 2 ≤ nek.entireMesh.Nq) (hlen : nodes.length = nek.entireMesh.Nq)
    (hnd : nodes.Nodup) (horder : pb.nek_mesh.order = 0) :
    ({ pb with needs_interpolation := false }).boundarySolution_face nek field k =
      ({ pb with
          needs_interpolation := true
          interpolation_outgoing :=
            interpolationMatrix nodes
              [nodes.getD 0 0, nodes.getD (nek.entireMesh.Nq - 1) 0] }).boundarySolution_face
        nek field k ∧
    (({ pb with needs_interpolation := false }).boundarySolution_face nek field k).length = 4 ∧
    ({ pb with needs_interpolation := false }).volumeSolution_element nek field k =
      ({ pb with
          needs_interpolation := true
          interpolation_outgoing :=
            interpolationMatrix nodes
              [nodes.getD 0 0, nodes.getD (nek.entireMesh.Nq - 1) 0] }).volumeSolution_element
        nek field k ∧
    (({ pb with needs_interpolation := false }).volumeSolution_element nek field k).length = 8 := by
  have hI := endpoint_matrix nodes hnd nek.entireMesh.Nq hlen hN
  obtain ⟨k1, k2⟩ := cast_corner nek.entireMesh.Nq hN
  have hNN := pred_mul_add nek.entireMesh.Nq hN
  refine ⟨?_, ?_, ?_, ?_⟩
  · simp only [NekRSProblemBase.boundarySolution_face, horder, if_true, Bool.false_eq_true,
      if_false]
    rw [surface_select _ _ _ hN hI]
    simp (disch := omega) only [getD_map_range]
    simp only [Nat.reduceAdd, Nat.reduceMul, List.range_succ, List.range_zero, List.nil_append,
      List.cons_append, List.map_cons, List.map_nil, List.map_append, boundarySolution_indices,
      List.getD_cons_zero, List.getD_cons_succ, Nat.cast_add, k1, k2, Nat.cast_zero,
      List.cons.injEq, and_true]
    refine ⟨?_, ?_, ?_, ?_⟩ <;> congr 2 <;> first | rfl | ring1 | push_cast
  · simp [NekRSProblemBase.boundarySolution_face, horder]
  · simp only [NekRSProblemBase.volumeSolution_element, horder, if_true, Bool.false_eq_true,
      if_false]
    rw [volume_select _ _ _ hN hI]
    have b1 : (nek.entireMesh.Nq - 1) * nek.entireMesh.Nq * nek.entireMesh.Nq +
        nek.entireMesh.Nq * nek.entireMesh.Nq =
        nek.entireMesh.Nq * nek.entireMesh.Nq * nek.entireMesh.Nq := by
      rw [← Nat.add_mul, hNN]
    have b2 : ((nek.entireMesh.Nq - 1) * nek.entireMesh.Nq + (nek.entireMesh.Nq - 1)) *
        nek.entireMesh.Nq + nek.entireMesh.Nq =
        nek.entireMesh.Nq * nek.entireMesh.Nq * nek.entireMesh.Nq := by
      rw [← b1, ← hNN]; ring
    simp (disch := omega) only [getD_map_range]
    simp only [Nat.reduceAdd, Nat.reduceMul, List.range_succ, List.range_zero, List.nil_append,
      List.cons_append, List.map_cons, List.map_nil, List.map_append, volumeSolution_indices,
      List.getD_cons_zero, List.getD_cons_succ, Nat.cast_add, Nat.cast_mul, k1, k2, Nat.cast_zero,
      List.cons.injEq, and_true]
    refine ⟨?_, ?_, ?_, ?_, ?_, ?_, ?_, ?_⟩ <;> congr 1 <;> first | rfl | ring1 | push_cast
  · simp [NekRSProblemBase.volumeSolution_element, horder]

/-! ## Buffers: consecutive stores and the rescaling loop -/

theorem writeAt_length (vals : List ℚ) : ∀ (buf : List ℚ) (c : Nat),
    (writeAt buf c vals).length = buf.length := by
  induction vals with
  | nil => intro buf c; rfl
  | cons v vs ih => intro buf c; simp [writeAt, ih]

theorem writeAt_append (vals : List ℚ) : ∀ (done rest : List ℚ),
    vals.length ≤ rest.length →
    writeAt (done ++ rest) done.length vals = done ++ vals ++ rest.drop vals.length := by
  induction vals with
  | nil => intro done rest _; simp [writeAt]
  | cons v vs ih =>
    intro done rest h
    cases rest with
    | nil => simp at h
    | cons r rs =>
      have h1 : vs.length ≤ rs.length := by simpa using h
      have h2 : (done ++ r :: rs).set done.length v = (done ++ [v]) ++ rs := by
        simp [List.set_append]
      have h3 : done.length + 1 = (done ++ [v]).length := by simp
      rw [writeAt, h2, h3, ih (done ++ [v]) rs h1]
      simp

theorem foldl_set_range' (g : ℚ → ℚ) : ∀ (buf pre : List ℚ),
    (List.range' pre.length buf.length).foldl
      (fun b v => b.set v (g (b.getD v 0))) (pre ++ buf) = pre ++ buf.map g := by
  intro buf
  induction buf with
  | nil => intro pre; simp
  | cons a t ih =>
    intro pre
    have h1 : (pre ++ a :: t).getD pre.length 0 = a := by
      rw [List.getD_eq_getElem _ _ (by simp), List.getElem_append_right (le_refl _)]
      simp
    have h2 : (pre ++ a :: t).set pre.length (g a) = (pre ++ [g a]) ++ t := by
      simp [List.set_append]
    have h3 : pre.length + 1 = (pre ++ [g a]).length := by simp
    simp only [List.length_cons, List.range'_succ, List.foldl_cons, h1, h2]
    rw [h3, ih (pre ++ [g a])]
    simp

theorem dimensionalizeLoop_eq_map (pb : NekRSProblemBase) (nek : NekInterface)
    (field : NekFieldEnum) (Ttmp : List ℚ) :
    pb.dimensionalizeLoop nek field Ttmp.length Ttmp =
      Ttmp.map fun x =>
        if field = NekFieldEnum.temperature then nek.dimensionalize field x + pb.T_ref
        else nek.dimensionalize field x := by
  unfold NekRSProblemBase.dimensionalizeLoop
  rw [List.range_eq_range']
  simpa using foldl_set_range'
    (fun x => if field = NekFieldEnum.temperature then nek.dimensionalize field x + pb.T_ref
      else nek.dimensionalize field x) Ttmp []

theorem foldl_fst_length {α : Type} (step : List ℚ × Nat → α → List ℚ × Nat)
    (hstep : ∀ st a, (step st a).1.length = st.1.length) :
    ∀ (l : List α) (st : List ℚ × Nat), (l.foldl step st).1.length = st.1.length := by
  intro l
  induction l with
  | nil => intro st; rfl
  | cons a t ih => intro st; rw [List.foldl_cons, ih, hstep]

theorem boundarySolution_extract_length (pb : NekRSProblemBase) (nek : NekInterface)
    (field : NekFieldEnum) :
    (pb.boundarySolution_extract nek field).1.length =
      pb.nek_mesh.boundaryCoupling.n_faces *
        ((pb.nek_mesh.order + 2) * (pb.nek_mesh.order + 2)) := by
  unfold NekRSProblemBase.boundarySolution_extract
  simp only []
  rw [foldl_fst_length]
  · simp
  · intro st k
    split_ifs
    · simp [writeAt_length]
    · rfl

theorem volumeSolution_extract_length (pb : NekRSProblemBase) (nek : NekInterface)
    (field : NekFieldEnum) :
    (pb.volumeSolution_extract nek field).1.length =
      pb.nek_mesh.volumeCoupling.n_elems *
        ((pb.nek_mesh.order + 2) * (pb.nek_mesh.order + 2) * (pb.nek_mesh.order + 2)) := by
  unfold NekRSProblemBase.volumeSolution_extract
  simp only []
  rw [foldl_fst_length]
  · simp
  · intro st k
    simp [writeAt_length]

theorem boundarySolution_local_eq_map (pb : NekRSProblemBase) (nek : NekInterface)
    (field : NekFieldEnum) :
    pb.boundarySolution_local nek field =
      (pb.boundarySolution_extract nek field).1.map (fun x =>
        if field = NekFieldEnum.temperature then nek.dimensionalize field x + pb.T_ref
        else nek.dimensionalize field x) := by
  unfold NekRSProblemBase.boundarySolution_local
  simp only []
  rw [← boundarySolution_extract_length pb nek field, dimensionalizeLoop_eq_map]

theorem volumeSolution_local_eq_map (pb : NekRSProblemBase) (nek : NekInterface)
    (field : NekFieldEnum) :
    pb.volumeSolution_local nek field =
      (pb.volumeSolution_extract nek field).1.map (fun x =>
        if field = NekFieldEnum.temperature then nek.dimensionalize field x + pb.T_ref
        else nek.dimensionalize field x) := by
  unfold NekRSProblemBase.volumeSolution_local
  simp only []
  rw [← volumeSolution_extract_length pb nek field, dimensionalizeLoop_eq_map]

/-- C2: in `boundarySolution` and in `volumeSolution`, the buffer handed to the
gather holds, entry by entry, `dimensionalize(field, x) + T_ref` for the
temperature and `dimensionalize(field, x)`, with nothing added, for the
pressure and the three velocity components, where `x` is the extracted value at
that entry: the offset is added after the rescaling and once per entry. -/
theorem outgoing_buffer_dimensionalized (pb : NekRSProblemBase) (nek : NekInterface) :
    (pb.boundarySolution_local nek NekFieldEnum.temperature =
        (pb.boundarySolution_extract nek NekFieldEnum.temperature).1.map
          (fun x => nek.dimensionalize NekFieldEnum.temperature x + pb.T_ref) ∧
      pb.boundarySolution_local nek NekFieldEnum.pressure =
        (pb.boundarySolution_extract nek NekFieldEnum.pressure).1.map
          (fun x => nek.dimensionalize NekFieldEnum.pressure x) ∧
      pb.boundarySolution_local nek NekFieldEnum.velocity_x =
        (pb.boundarySolution_extract nek NekFieldEnum.velocity_x).1.map
          (fun x => nek.dimensionalize NekFieldEnum.velocity_x x) ∧
      pb.boundarySolution_local nek NekFieldEnum.velocity_y =
        (pb.boundarySolution_extract nek NekFieldEnum.velocity_y).1.map
          (fun x => nek.dimensionalize NekFieldEnum.velocity_y x) ∧
      pb.boundarySolution_local nek NekFieldEnum.velocity_z =
        (pb.boundarySolution_extract nek NekFieldEnum.velocity_z).1.map
          (fun x => nek.dimensionalize NekFieldEnum.velocity_z x)) ∧
    (pb.volumeSolution_local nek NekFieldEnum.temperature =
        (pb.volumeSolution_extract nek NekFieldEnum.temperature).1.map
          (fun x => nek.dimensionalize NekFieldEnum.temperature x + pb.T_ref) ∧
      pb.volumeSolution_local nek NekFieldEnum.pressure =
        (pb.volumeSolution_extract nek NekFieldEnum.pressure).1.map
          (fun x => nek.dimensionalize NekFieldEnum.pressure x) ∧
      pb.volumeSolution_local nek NekFieldEnum.velocity_x =
        (pb.volumeSolution_extract nek NekFieldEnum.velocity_x).1.map
          (fun x => nek.dimensionalize NekFieldEnum.velocity_x x) ∧
      pb.volumeSolution_local nek NekFieldEnum.velocity_y =
        (pb.volumeSolution_extract nek NekFieldEnum.velocity_y).1.map
          (fun x => nek.dimensionalize NekFieldEnum.velocity_y x) ∧
      pb.volumeSolution_local nek NekFieldEnum.velocity_z =
        (pb.volumeSolution_extract nek NekFieldEnum.velocity_z).1.map
          (fun x => nek.dimensionalize NekFieldEnum.velocity_z x)) := by
  refine ⟨⟨?_, ?_, ?_, ?_, ?_⟩, ⟨?_, ?_, ?_, ?_, ?_⟩⟩
  all_goals first
    | (rw [boundarySolution_local_eq_map]; simp)
    | (rw [volumeSolution_local_eq_map]; simp)

/-! ## The face loop and the gather -/

theorem extract_foldl (owned : Nat → Prop) [DecidablePred owned] (vals : Nat → List ℚ) (P : Nat)
    (hP : ∀ k, (vals k).length = P) :
    ∀ (l : List Nat) (done : List ℚ) (rest : Nat),
      P * (l.filter fun k => decide (owned k)).length ≤ rest →
      l.foldl
          (fun (st : List ℚ × Nat) k =>
            if owned k then (writeAt st.1 st.2 (vals k), st.2 + P) else st)
          (done ++ List.replicate rest 0, done.length) =
        (done ++ (l.filter fun k => decide (owned k)).flatMap vals ++
            List.replicate (rest - P * (l.filter fun k => decide (owned k)).length) 0,
          done.length + P * (l.filter fun k => decide (owned k)).length) := by
  intro l
  induction l with
  | nil => intro done rest _; simp
  | cons a t ih =>
    intro done rest h
    by_cases ha : owned a
    · simp only [List.filter_cons, ha, decide_True, if_true, List.length_cons,
        List.foldl_cons] at h ⊢
      have h' : P * (t.filter fun k => decide (owned k)).length + P ≤ rest := by
        rw [Nat.mul_add, Nat.mul_one] at h; exact h
      have hle : (vals a).length ≤ (List.replicate rest (0 : ℚ)).length := by
        rw [hP, List.length_replicate]; omega
      rw [writeAt_append (vals a) done _ hle, hP, List.drop_replicate]
      have hlen : done.length + P = (done ++ vals a).length := by simp [hP]
      rw [hlen, ih (done ++ vals a) (rest - P) (by omega)]
      simp only [List.flatMap_cons, List.append_assoc, List.length_append, hP, Prod.mk.injEq]
      refine ⟨?_, by ring⟩
      have e : rest - P - P * (t.filter fun k => decide (owned k)).length =
          rest - P * ((t.filter fun k => decide (owned k)).length + 1) := by
        rw [Nat.mul_add, Nat.mul_one]; omega
      rw [e]
    · simp only [List.filter_cons, ha, decide_False, if_false, List.foldl_cons] at h ⊢
      simpa using ih done rest h

theorem filter_lt_append_eq {β : Type} (key : β → Nat) (n : Nat) :
    ∀ (l : List β), (l.map key).Pairwise (· ≤ ·) →
      (l.filter fun b => decide (key b < n)) ++ (l.filter fun b => decide (key b = n)) =
        l.filter fun b => decide (key b < n + 1) := by
  intro l
  induction l with
  | nil => intro _; rfl
  | cons a t ih =>
    intro h
    rw [List.map_cons, List.pairwise_cons] at h
    obtain ⟨ha, ht⟩ := h
    rcases Nat.lt_trichotomy (key a) n with hlt | heq | hgt
    · have h1 : key a < n + 1 := by omega
      have h2 : key a ≠ n := by omega
      simp only [List.filter_cons, hlt, h1, h2, decide_True, decide_False, if_true,
        Bool.false_eq_true, if_false, List.cons_append, ih ht]
    · have h1 : key a < n + 1 := by omega
      have h2 : ¬ key a < n := by omega
      have h3 : (t.filter fun b => decide (key b < n)) = [] := by
        rw [List.filter_eq_nil_iff]
        intro b hb
        have := ha (key b) (List.mem_map_of_mem key hb)
        simp; omega
      have := ih ht
      rw [h3, List.nil_append] at this
      simp only [List.filter_cons, heq, h1, h2, h3, decide_True, decide_False, if_true,
        Bool.false_eq_true, if_false, List.nil_append, this]
      simp [heq ▸ h1, this]
    · have h1 : ¬ key a < n + 1 := by omega
      have h2 : ¬ key a < n := by omega
      have h3 : key a ≠ n := by omega
      simp only [List.filter_cons, h1, h2, h3, decide_False, Bool.false_eq_true, if_false,
        ih ht]

theorem flatMap_filter_key_eq {β : Type} (key : β → Nat) (l : List β)
    (hs : (l.map key).Pairwise (· ≤ ·)) :
    ∀ n : Nat, ((List.range n).flatMap fun r => l.filter fun b => decide (key b = r)) =
      l.filter fun b => decide (key b < n) := by
  intro n
  induction n with
  | zero => simp
  | succ n ih =>
    rw [List.range_succ, List.flatMap_append, ih]
    simp only [List.flatMap_cons, List.flatMap_nil, List.append_nil]
    exact filter_lt_append_eq key n l hs

theorem flatMap_length_const {β : Type} (G : β → List ℚ) (P : Nat) :
    ∀ l : List β, (∀ b, b ∈ l → (G b).length = P) → (l.flatMap G).length = l.length * P := by
  intro l
  induction l with
  | nil => simp
  | cons a t ih =>
    intro hG
    have h1 := hG a (List.mem_cons_self a t)
    have h2 := ih fun b hb => hG b (List.mem_cons_of_mem a hb)
    simp [List.flatMap_cons, h1, h2, Nat.succ_mul, Nat.add_comm]

theorem flatMap_range_getElem? (G : Nat → List ℚ) (P : Nat) :
    ∀ (n : Nat), (∀ k, k < n → (G k).length = P) → ∀ (k v : Nat), k < n → v < P →
      ((List.range n).flatMap G)[k * P + v]? = (G k)[v]? := by
  intro n
  induction n with
  | zero => intro _ k v hk _; omega
  | succ n ih =>
    intro hG k v hk hv
    have hlen : ((List.range n).flatMap G).length = n * P := by
      simpa using flatMap_length_const G P (List.range n)
        (fun b hb => hG b (by have := List.mem_range.1 hb; omega))
    rw [List.range_succ, List.flatMap_append]
    by_cases hkn : k < n
    · have hlt : k * P + v < ((List.range n).flatMap G).length := by
        rw [hlen]
        calc k * P + v < k * P + P := by omega
          _ = (k + 1) * P := by ring
          _ ≤ n * P := Nat.mul_le_mul_right P hkn
      rw [List.getElem?_append_left hlt]
      exact ih (fun j hj => hG j (by omega)) k v hkn hv
    · have hk' : k = n := by omega
      subst hk'
      rw [List.getElem?_append_right (by rw [hlen]; omega), hlen]
      simp

theorem map_getD_range (l : List ℕ) : (List.range l.length).map (fun k => l.getD k 0) = l := by
  apply List.ext_getElem
  · simp
  · intro n h1 h2
    simp only [List.getElem_map, List.getElem_range]
    exact List.getD_eq_getElem _ _ (by simpa using h1)

theorem map_getD_range_rat (l : List ℚ) :
    (List.range l.length).map (fun k => l.getD k 0) = l := by
  apply List.ext_getElem
  · simp
  · intro n h1 h2
    simp only [List.getElem_map, List.getElem_range]
    exact List.getD_eq_getElem _ _ (by simpa using h1)

theorem filter_range_length_eq_count (l : List ℕ) (r : Nat) :
    ((List.range l.length).filter fun k => decide (l.getD k 0 = r)).length = l.count r := by
  have h := map_getD_range l
  have h2 : ((List.range l.length).filter fun k => decide (l.getD k 0 = r)).length =
      (((List.range l.length).map (fun k => l.getD k 0)).filter fun p => decide (p = r)).length := by
    rw [List.filter_map, List.length_map]
    rfl
  rw [h2, h, List.count_eq_countP, List.countP_eq_length_filter]
  congr 1

theorem boundarySolution_face_length (pb : NekRSProblemBase) (nek : NekInterface)
    (field : NekFieldEnum) (k : Nat) :
    (pb.boundarySolution_face nek field k).length =
      (pb.nek_mesh.order + 2) * (pb.nek_mesh.order + 2) := by
  unfold NekRSProblemBase.boundarySolution_face
  simp only []
  split_ifs
  · simp [interpolateSurfaceFaceHex3D, interpolateAxis]
  · simp

theorem boundarySolution_local_eq_flatMap (pb : NekRSProblemBase) (nek : NekInterface)
    (field : NekFieldEnum)
    (hn : pb.nek_mesh.boundaryCoupling.n_faces =
      ((List.range pb.nek_mesh.boundaryCoupling.total_n_faces).filter fun k =>
        decide (pb.nek_mesh.boundaryCoupling.process.getD k 0 = nek.commRank)).length) :
    pb.boundarySolution_local nek field =
      (((List.range pb.nek_mesh.boundaryCoupling.total_n_faces).filter fun k =>
          decide (pb.nek_mesh.boundaryCoupling.process.getD k 0 = nek.commRank)).flatMap
        fun k => pb.boundarySolution_face nek field k).map fun x =>
          if field = NekFieldEnum.temperature then nek.dimensionalize field x + pb.T_ref
          else nek.dimensionalize field x := by
  rw [boundarySolution_local_eq_map]
  congr 1
  unfold NekRSProblemBase.boundarySolution_extract
  simp only []
  have h := extract_foldl
    (fun k => pb.nek_mesh.boundaryCoupling.process.getD k 0 = nek.commRank)
    (fun k => pb.boundarySolution_face nek field k)
    ((pb.nek_mesh.order + 2) * (pb.nek_mesh.order + 2))
    (fun k => boundarySolution_face_length pb nek field k)
    (List.range pb.nek_mesh.boundaryCoupling.total_n_faces) []
    (pb.nek_mesh.boundaryCoupling.n_faces * ((pb.nek_mesh.order + 2) * (pb.nek_mesh.order + 2)))
    (by rw [hn, Nat.mul_comm])
  simp only [List.nil_append, List.length_nil] at h
  rw [h]
  simp [hn, Nat.mul_comm]

/-- C1: in a collective run of `boundarySolution` over a coupling table `tbl`
(shared by the ranks) whose `process` array is non-decreasing, holds ranks below
the number of ranks, is as long as `total_n_faces`, and whose `counts[r]` is the
number of entries owned by `r`, with `n_faces = counts[r]` on rank `r`: entry
`k * P + v` of the gathered array `T` (`P = (order + 2)²`) is the value that the
owner `process[k]` stored for mirror point `v` of table entry `k`, rescaled on
that rank (the gather being the concatenation, in rank order, of the first
`counts[r] * P` entries of each rank). -/
theorem boundarySolution_gather_order (pb : Nat → NekRSProblemBase) (nek : Nat → NekInterface)
    (self : Nat) (field : NekFieldEnum) (tbl : NekBoundaryCoupling) (P : Nat)
    (htbl : (pb self).nek_mesh.boundaryCoupling = tbl)
    (hP : P = ((pb self).nek_mesh.order + 2) * ((pb self).nek_mesh.order + 2))
    (hrank : ∀ r, r < tbl.counts.length → (nek r).commRank = r)
    (hshared : ∀ r, r < tbl.counts.length →
      (pb r).nek_mesh.boundaryCoupling.process = tbl.process ∧
      (pb r).nek_mesh.boundaryCoupling.total_n_faces = tbl.total_n_faces ∧
      (pb r).nek_mesh.order = (pb self).nek_mesh.order)
    (hlen : tbl.process.length = tbl.total_n_faces)
    (hsorted : tbl.process.Pairwise (· ≤ ·))
    (hranks : ∀ p, p ∈ tbl.process → p < tbl.counts.length)
    (hcounts : ∀ r, r < tbl.counts.length → tbl.counts.getD r 0 = tbl.process.count r)
    (hn : ∀ r, r < tbl.counts.length →
      (pb r).nek_mesh.boundaryCoupling.n_faces = tbl.counts.getD r 0)
    (k v owner : Nat) (hk : k < tbl.total_n_faces) (hv : v < P)
    (howner : tbl.process[k]? = some owner) :
    (boundarySolution pb nek self field)[k * P + v]? =
      some
        (if field = NekFieldEnum.temperature then
          (nek owner).dimensionalize field
            (((pb owner).boundarySolution_face (nek owner) field k).getD v 0) + (pb owner).T_ref
        else
          (nek owner).dimensionalize field
            (((pb owner).boundarySolution_face (nek owner) field k).getD v 0)) := by
  subst htbl hP
  -- the values stored for table entry `k`, on the rank that owns it
  let key : Nat → Nat := fun k => (pb self).nek_mesh.boundaryCoupling.process.getD k 0
  let G : Nat → List ℚ := fun k =>
    ((pb (key k)).boundarySolution_face (nek (key k)) field k).map fun x =>
      if field = NekFieldEnum.temperature then
        (nek (key k)).dimensionalize field x + (pb (key k)).T_ref
      else (nek (key k)).dimensionalize field x
  have hkeys : (List.range (pb self).nek_mesh.boundaryCoupling.total_n_faces).map key =
      (pb self).nek_mesh.boundaryCoupling.process := by
    rw [← hlen]; exact map_getD_range _
  have hkey_lt : ∀ k, k < (pb self).nek_mesh.boundaryCoupling.total_n_faces →
      key k < (pb self).nek_mesh.boundaryCoupling.counts.length := by
    intro k hk
    apply hranks
    show (pb self).nek_mesh.boundaryCoupling.process.getD k 0 ∈ _
    rw [List.getD_eq_getElem _ _ (by omega)]
    exact List.getElem_mem _
  have hGlen : ∀ k, k < (pb self).nek_mesh.boundaryCoupling.total_n_faces → (G k).length =
      ((pb self).nek_mesh.order + 2) * ((pb self).nek_mesh.order + 2) := by
    intro k hk
    simp only [G, List.length_map, boundarySolution_face_length,
      (hshared _ (hkey_lt k hk)).2.2]
  have hloc : ∀ r, r ∈ List.range (pb self).nek_mesh.boundaryCoupling.counts.length →
      ((List.range ((pb self).nek_mesh.boundaryCoupling.counts.getD r 0 *
          (((pb self).nek_mesh.order + 2) * ((pb self).nek_mesh.order + 2)))).map fun i =>
        ((pb r).boundarySolution_local (nek r) field).getD i 0) =
      ((List.range (pb self).nek_mesh.boundaryCoupling.total_n_faces).filter fun k =>
        decide (key k = r)).flatMap G := by
    intro r hr
    have hr' := List.mem_range.1 hr
    obtain ⟨hp, ht, ho⟩ := hshared r hr'
    have hcnt : ((List.range (pb self).nek_mesh.boundaryCoupling.total_n_faces).filter fun k =>
        decide (key k = r)).length = (pb self).nek_mesh.boundaryCoupling.counts.getD r 0 := by
      rw [hcounts r hr', ← hlen]
      exact filter_range_length_eq_count _ r
    have hl := boundarySolution_local_eq_flatMap (pb r) (nek r) field
      (by rw [hn r hr', hp, ht, hrank r hr']; exact hcnt.symm)
    rw [hp, ht, hrank r hr'] at hl
    have hlen2 : ((pb r).boundarySolution_local (nek r) field).length =
        (pb self).nek_mesh.boundaryCoupling.counts.getD r 0 *
          (((pb self).nek_mesh.order + 2) * ((pb self).nek_mesh.order + 2)) := by
      rw [hl, List.length_map, flatMap_length_const _
        (((pb self).nek_mesh.order + 2) * ((pb self).nek_mesh.order + 2)) _
        (fun b _ => by rw [boundarySolution_face_length, ho]), hcnt]
    rw [← hlen2, map_getD_range_rat, hl, List.map_flatMap]
    apply List.flatMap_congr
    intro k hk
    have hkr : key k = r := of_decide_eq_true (List.mem_filter.1 hk).2
    simp only [G, hkr]
  unfold boundarySolution allgatherv
  simp only []
  rw [List.flatMap_congr hloc, ← List.flatMap_assoc,
    flatMap_filter_key_eq key _ (by rw [hkeys]; exact hsorted),
    List.filter_eq_self.2 (fun a ha => by simpa using hkey_lt a (List.mem_range.1 ha)),
    flatMap_range_getElem? G _ _ hGlen k v hk hv]
  have hko : key k = owner := by
    simp only [key]
    rw [List.getD_eq_getElem?_getD, howner]; rfl
  simp only [G, hko, List.getElem?_map]
  have hvlt : v < ((pb owner).boundarySolution_face (nek owner) field k).length := by
    rw [boundarySolution_face_length, (hshared _ (hko ▸ hkey_lt k hk)).2.2]; exact hv
  rw [List.getElem?_eq_getElem hvlt, List.getD_eq_getElem _ _ hvlt]
  split_ifs <;> rfl

theorem boundarySolution_gather_order_witness :
    (sampleProblem 0).nek_mesh.boundaryCoupling = sampleBoundary ∧
    4 = ((sampleProblem 0).nek_mesh.order + 2) * ((sampleProblem 0).nek_mesh.order + 2) ∧
    (∀ r, r < sampleBoundary.counts.length → (sampleNek r).commRank = r) ∧
    (∀ r, r < sampleBoundary.counts.length →
      (sampleProblem r).nek_mesh.boundaryCoupling.process = sampleBoundary.process ∧
      (sampleProblem r).nek_mesh.boundaryCoupling.total_n_faces = sampleBoundary.total_n_faces ∧
      (sampleProblem r).nek_mesh.order = (sampleProblem 0).nek_mesh.order) ∧
    sampleBoundary.process.length = sampleBoundary.total_n_faces ∧
    sampleBoundary.process.Pairwise (· ≤ ·) ∧
    (∀ p, p ∈ sampleBoundary.process → p < sampleBoundary.counts.length) ∧
    (∀ r, r < sampleBoundary.counts.length →
      sampleBoundary.counts.getD r 0 = sampleBoundary.process.count r) ∧
    (∀ r, r < sampleBoundary.counts.length →
      (sampleProblem r).nek_mesh.boundaryCoupling.n_faces = sampleBoundary.counts.getD r 0) ∧
    1 < sampleBoundary.total_n_faces ∧ 2 < 4 ∧ sampleBoundary.process[1]? = some 1 ∧
    (boundarySolution sampleProblem sampleNek 0 NekFieldEnum.temperature)[1 * 4 + 2]? =
      some
        (if NekFieldEnum.temperature = NekFieldEnum.temperature then
          (sampleNek 1).dimensionalize NekFieldEnum.temperature
            (((sampleProblem 1).boundarySolution_face (sampleNek 1)
              NekFieldEnum.temperature 1).getD 2 0) + (sampleProblem 1).T_ref
        else
          (sampleNek 1).dimensionalize NekFieldEnum.temperature
            (((sampleProblem 1).boundarySolution_face (sampleNek 1)
              NekFieldEnum.temperature 1).getD 2 0)) :=
  have h1 : ∀ r, r < sampleBoundary.counts.length → (sampleNek r).commRank = r :=
    fun _ _ => rfl
  have h2 : ∀ r, r < sampleBoundary.counts.length →
      (sampleProblem r).nek_mesh.boundaryCoupling.process = sampleBoundary.process ∧
      (sampleProblem r).nek_mesh.boundaryCoupling.total_n_faces = sampleBoundary.total_n_faces ∧
      (sampleProblem r).nek_mesh.order = (sampleProblem 0).nek_mesh.order :=
    fun _ _ => ⟨rfl, rfl, rfl⟩
  have h3 : sampleBoundary.process.Pairwise (· ≤ ·) := by decide
  have h4 : ∀ p, p ∈ sampleBoundary.process → p < sampleBoundary.counts.length := by decide
  have h5 : ∀ r, r < sampleBoundary.counts.length →
      sampleBoundary.counts.getD r 0 = sampleBoundary.process.count r := by decide
  have h6 : ∀ r, r < sampleBoundary.counts.length →
      (sampleProblem r).nek_mesh.boundaryCoupling.n_faces = sampleBoundary.counts.getD r 0 := by
    decide
  ⟨rfl, rfl, h1, h2, rfl, h3, h4, h5, h6, by decide, by decide, rfl,
    boundarySolution_gather_order sampleProblem sampleNek 0 NekFieldEnum.temperature
      sampleBoundary 4 rfl rfl h1 h2 rfl h3 h4 h5 h6 1 2 1 (by decide) (by decide) rfl⟩

theorem fast_path_eq_endpoint_interpolation_witness :
    2 ≤ (sampleNek 0).entireMesh.Nq ∧
    ([-1, 1] : List ℚ).length = (sampleNek 0).entireMesh.Nq ∧
    ([-1, 1] : List ℚ).Nodup ∧
    (sampleProblem 0).nek_mesh.order = 0 ∧
    (({ sampleProblem 0 with needs_interpolation := false }).boundarySolution_face
        (sampleNek 0) NekFieldEnum.pressure 1 =
      ({ sampleProblem 0 with
          needs_interpolation := true
          interpolation_outgoing :=
            interpolationMatrix [-1, 1]
              [([-1, 1] : List ℚ).getD 0 0,
                ([-1, 1] : List ℚ).getD ((sampleNek 0).entireMesh.Nq - 1) 0] }).boundarySolution_face
        (sampleNek 0) NekFieldEnum.pressure 1 ∧
    (({ sampleProblem 0 with needs_interpolation := false }).boundarySolution_face
        (sampleNek 0) NekFieldEnum.pressure 1).length = 4 ∧
    ({ sampleProblem 0 with needs_interpolation := false }).volumeSolution_element
        (sampleNek 0) NekFieldEnum.pressure 1 =
      ({ sampleProblem 0 with
          needs_interpolation := true
          interpolation_outgoing :=
            interpolationMatrix [-1, 1]
              [([-1, 1] : List ℚ).getD 0 0,
                ([-1, 1] : List ℚ).getD ((sampleNek 0).entireMesh.Nq - 1) 0] }).volumeSolution_element
        (sampleNek 0) NekFieldEnum.pressure 1 ∧
    (({ sampleProblem 0 with needs_interpolation := false }).volumeSolution_element
        (sampleNek 0) NekFieldEnum.pressure 1).length = 8) :=
  have hnd : ([-1, 1] : List ℚ).Nodup := by norm_num
  ⟨by decide, rfl, hnd, rfl,
    fast_path_eq_endpoint_interpolation (sampleProblem 0) (sampleNek 0) NekFieldEnum.pressure 1
      [-1, 1] (by decide) rfl hnd rfl⟩

/-! ## Incoming transfer: ownership and offsets -/

theorem interpolateVolumeHex3D_length (I : Nat → Nat → ℚ) (x : List ℚ) (N M : Nat) :
    (interpolateVolumeHex3D I x N M).length = 1 * M * (M * M) := by
  simp [interpolateVolumeHex3D, interpolateAxis]

theorem writeAt_zero_full (vals : List ℚ) (n : Nat) (h : vals.length = n) :
    writeAt (List.replicate n 0) 0 vals = vals := by
  have := writeAt_append vals [] (List.replicate n 0) (by simp [h])
  simpa [h] using this

/-- C3: when every rank `r < nranks` calls `writeVolumeSolution` for the same
global element `elem_id` of a volume table shared by the ranks, whose owner
`process[elem_id]` is one of these ranks, the owner calls the write accessor and
no other rank makes any call: exactly one rank writes (the solver mesh of every
rank has at least one point per element). -/
theorem writeVolumeSolution_owner_only {W : Type} (pb : Nat → NekRSProblemBase)
    (nek : Nat → NekInterface) (nranks : Nat) (vc : NekVolumeCoupling) (elem_id : Nat)
    (field : W) (T : Nat → List ℚ) (add : Nat → Option (List ℚ))
    (hrank : ∀ r, r < nranks → (nek r).commRank = r)
    (hvc : ∀ r, r < nranks → (pb r).nek_mesh.volumeCoupling.process = vc.process)
    (hNp : ∀ r, r < nranks → 0 < (nek r).entireMesh.Np)
    (howner : vc.processor_id elem_id < nranks) :
    (pb (vc.processor_id elem_id)).writeVolumeSolution (nek (vc.processor_id elem_id))
        elem_id field (T (vc.processor_id elem_id)) (add (vc.processor_id elem_id)) ≠ [] ∧
    (∀ r, r < nranks → r ≠ vc.processor_id elem_id →
      (pb r).writeVolumeSolution (nek r) elem_id field (T r) (add r) = []) ∧
    (∃! r, r < nranks ∧
      (pb r).writeVolumeSolution (nek r) elem_id field (T r) (add r) ≠ []) := by
  have hpid : ∀ r, r < nranks →
      (pb r).nek_mesh.volumeCoupling.processor_id elem_id = vc.processor_id elem_id := by
    intro r hr
    simp only [NekVolumeCoupling.processor_id, hvc r hr]
  have hown : (pb (vc.processor_id elem_id)).writeVolumeSolution
      (nek (vc.processor_id elem_id)) elem_id field (T (vc.processor_id elem_id))
      (add (vc.processor_id elem_id)) ≠ [] := by
    unfold NekRSProblemBase.writeVolumeSolution
    simp only []
    rw [if_pos (by rw [hrank _ howner, hpid _ howner])]
    intro h
    have := congrArg List.length h
    simp only [List.length_map, List.length_range, List.length_nil] at this
    have := hNp _ howner
    omega
  have hother : ∀ r, r < nranks → r ≠ vc.processor_id elem_id →
      (pb r).writeVolumeSolution (nek r) elem_id field (T r) (add r) = [] := by
    intro r hr hne
    unfold NekRSProblemBase.writeVolumeSolution
    simp only []
    rw [if_neg (by rw [hrank r hr, hpid r hr]; exact hne)]
  refine ⟨hown, hother, ⟨vc.processor_id elem_id, ⟨howner, hown⟩, ?_⟩⟩
  rintro r ⟨hr, hw⟩
  by_contra hne
  exact hw (hother r hr hne)

/-- C4: on the owning rank, with `Np = Nq³` points per element,
`writeVolumeSolution(elem_id, field, T, add)` calls the write accessor at the
`Np` consecutive offsets `e * Np, ..., e * Np + Np - 1` (`e = element[elem_id]`),
in this order, once each and nowhere else; the call at offset `e * Np + v`
passes `interp(T)[v] + add[e * Np + v]` when `add` is supplied and
`interp(T)[v] + 0` when it is absent, `interp` being the 3-D application of the
incoming matrix from `order + 2` to `Nq` points per dimension. -/
theorem writeVolumeSolution_offsets {W : Type} (pb : NekRSProblemBase) (nek : NekInterface)
    (elem_id : Nat) (field : W) (T : List ℚ) (add : Option (List ℚ))
    (hown : nek.commRank = pb.nek_mesh.volumeCoupling.processor_id elem_id)
    (hNp : nek.entireMesh.Np = nek.entireMesh.Nq ^ 3) :
    (pb.writeVolumeSolution nek elem_id field T add).map (fun w => w.id) =
      (List.range nek.entireMesh.Np).map
        (fun v => pb.nek_mesh.volumeCoupling.element.getD elem_id 0 * nek.entireMesh.Np + v) ∧
    ((pb.writeVolumeSolution nek elem_id field T add).map (fun w => w.id)).Nodup ∧
    (∀ v, v < nek.entireMesh.Np →
      ((pb.writeVolumeSolution nek elem_id field T add).map (fun w => w.value))[v]? =
        some ((interpolateVolumeHex3D pb.interpolation_incoming T (pb.nek_mesh.order + 2)
            nek.entireMesh.Nq).getD v 0 +
          (match add with
            | none => 0
            | some a =>
              a.getD (pb.nek_mesh.volumeCoupling.element.getD elem_id 0 * nek.entireMesh.Np + v)
                0))) := by
  have htmp : writeAt (List.replicate nek.entireMesh.Np 0) 0
      (interpolateVolumeHex3D pb.interpolation_incoming T (pb.nek_mesh.order + 2)
        nek.entireMesh.Nq) =
      interpolateVolumeHex3D pb.interpolation_incoming T (pb.nek_mesh.order + 2)
        nek.entireMesh.Nq := by
    apply writeAt_zero_full
    rw [interpolateVolumeHex3D_length, hNp]; ring
  have hids : (pb.writeVolumeSolution nek elem_id field T add).map (fun w => w.id) =
      (List.range nek.entireMesh.Np).map
        (fun v => pb.nek_mesh.volumeCoupling.element.getD elem_id 0 * nek.entireMesh.Np + v) := by
    unfold NekRSProblemBase.writeVolumeSolution
    simp only []
    rw [if_pos hown, List.map_map]
    rfl
  refine ⟨hids, ?_, ?_⟩
  · rw [hids]
    apply List.Nodup.map _ (List.nodup_range _)
    intro a b h
    simpa using h
  · intro v hv
    unfold NekRSProblemBase.writeVolumeSolution
    simp only []
    rw [if_pos hown, List.map_map, htmp, List.getElem?_map,
      List.getElem?_range hv]
    cases add <;> rfl

/-! ## Scatter into the mirror mesh -/

theorem nodup_flatMap_of_tag {α β : Type} (l : List α) (f : α → List β) (tag : β → α)
    (hl : l.Nodup) (hf : ∀ x, x ∈ l → (f x).Nodup)
    (ht : ∀ x, x ∈ l → ∀ w, w ∈ f x → tag w = x) : (l.flatMap f).Nodup := by
  rw [List.nodup_flatMap]
  refine ⟨hf, ?_⟩
  refine List.Pairwise.imp_of_mem ?_ hl
  intro a b ha hb hab
  show List.Disjoint (f a) (f b)
  intro w hwa hwb
  exact hab ((ht a ha w hwa).symm.trans (ht b hb w hwb))

/-- C5: `fillAuxVariable(var, value)` calls `solution.set` for vertex `n` of
element `e` exactly when `e < n_elems`, the element is present on the calling
rank, `n < n_vertices_per_elem` and the owner of the vertex is the calling rank;
the call stores `value[e * n_vertices_per_elem + nodeIndex(n)]` into the degree
of freedom of that vertex, and is made once. If `nodeIndex` maps
`[0, n_vertices_per_elem)` into itself, every index read from `value` is below
`n_elems * n_vertices_per_elem`. -/
theorem fillAuxVariable_sets (pb : NekRSProblemBase) (var_number : Nat) (value : Nat → ℚ) :
    (∀ w : AuxSet, w ∈ pb.fillAuxVariable var_number value ↔
      ∃ elem, w.e < pb.n_elems ∧ w.n < pb.n_vertices_per_elem ∧
        pb.nek_mesh.queryElemPtr w.e = some elem ∧
        (elem.node_ptr w.n).processor_id = pb.pid ∧
        w.node_offset = w.e * pb.n_vertices_per_elem + pb.nek_mesh.nodeIndex w.n ∧
        w.dof_idx = (elem.node_ptr w.n).dof_number pb.aux_number var_number 0 ∧
        w.val = value (w.e * pb.n_vertices_per_elem + pb.nek_mesh.nodeIndex w.n)) ∧
    (pb.fillAuxVariable var_number value).Nodup ∧
    ((∀ n, n < pb.n_vertices_per_elem → pb.nek_mesh.nodeIndex n < pb.n_vertices_per_elem) →
      ∀ w : AuxSet, w ∈ pb.fillAuxVariable var_number value →
        w.node_offset < pb.n_elems * pb.n_vertices_per_elem) := by
  have hmem : ∀ w : AuxSet, w ∈ pb.fillAuxVariable var_number value ↔
      ∃ elem, w.e < pb.n_elems ∧ w.n < pb.n_vertices_per_elem ∧
        pb.nek_mesh.queryElemPtr w.e = some elem ∧
        (elem.node_ptr w.n).processor_id = pb.pid ∧
        w.node_offset = w.e * pb.n_vertices_per_elem + pb.nek_mesh.nodeIndex w.n ∧
        w.dof_idx = (elem.node_ptr w.n).dof_number pb.aux_number var_number 0 ∧
        w.val = value (w.e * pb.n_vertices_per_elem + pb.nek_mesh.nodeIndex w.n) := by
    intro w
    unfold NekRSProblemBase.fillAuxVariable
    simp only [List.mem_flatMap, List.mem_range]
    constructor
    · rintro ⟨e, he, hw⟩
      cases hq : pb.nek_mesh.queryElemPtr e with
      | none => rw [hq] at hw; simp at hw
      | some elem =>
        rw [hq] at hw
        simp only [List.mem_flatMap, List.mem_range] at hw
        obtain ⟨n, hn, hw⟩ := hw
        split_ifs at hw with hp
        · simp only [List.mem_singleton] at hw
          subst hw
          exact ⟨elem, he, hn, hq, hp, rfl, rfl, rfl⟩
        · simp at hw
    · rintro ⟨elem, he, hn, hq, hp, h1, h2, h3⟩
      refine ⟨w.e, he, ?_⟩
      rw [hq]
      simp only [List.mem_flatMap, List.mem_range]
      refine ⟨w.n, hn, ?_⟩
      rw [if_pos hp]
      simp only [List.mem_singleton]
      cases w
      simp only [AuxSet.mk.injEq] at *
      exact ⟨trivial, trivial, h1, h2, h3⟩
  refine ⟨hmem, ?_, ?_⟩
  · unfold NekRSProblemBase.fillAuxVariable
    simp only []
    apply nodup_flatMap_of_tag _ _ AuxSet.e (List.nodup_range _)
    · intro e _
      cases pb.nek_mesh.queryElemPtr e with
      | none => exact List.nodup_nil
      | some elem =>
        apply nodup_flatMap_of_tag _ _ AuxSet.n (List.nodup_range _)
        · intro n _
          split_ifs
          · exact List.nodup_singleton _
          · exact List.nodup_nil
        · intro n _ w hw
          split_ifs at hw
          · rw [List.mem_singleton.1 hw]
          · simp at hw
    · intro e _ w hw
      cases hq : pb.nek_mesh.queryElemPtr e with
      | none => rw [hq] at hw; simp at hw
      | some elem =>
        rw [hq] at hw
        simp only [List.mem_flatMap, List.mem_range] at hw
        obtain ⟨n, _, hw⟩ := hw
        split_ifs at hw
        · rw [List.mem_singleton.1 hw]
        · simp at hw
  · intro hidx w hw
    obtain ⟨elem, he, hn, _, _, h1, _, _⟩ := (hmem w).1 hw
    rw [h1]
    have := hidx w.n hn
    calc w.e * pb.n_vertices_per_elem + pb.nek_mesh.nodeIndex w.n
        < w.e * pb.n_vertices_per_elem + pb.n_vertices_per_elem := by omega
      _ = (w.e + 1) * pb.n_vertices_per_elem := by ring
      _ ≤ pb.n_elems * pb.n_vertices_per_elem := Nat.mul_le_mul_right _ he

/-! ## The interpolation threshold -/

theorem construct_ok_fields (params : InputParameters) (env : ConstructorEnv)
    (pb : NekRSProblemBase) (warnings : List String)
    (h : NekRSProblemBase.construct params env = Except.ok (pb, warnings)) :
    ∃ mesh, env.mesh = some mesh ∧ pb.nek_mesh = mesh ∧
      pb.needs_interpolation = decide (mesh.numQuadraturePoints1D > 2) := by
  unfold NekRSProblemBase.construct at h
  simp only [] at h
  split at h
  · cases h
  split at h
  · cases h
  split at h
  · cases h
  split at h
  · cases h
  split at h
  · cases h
  rename_i mesh hm
  split at h
  · cases h
  split at h
  · cases h
  injection h with h
  injection h with h1 h2
  subst h1
  exact ⟨mesh, hm, rfl, rfl⟩

/-- C6: the constructor sets `needs_interpolation` to true exactly when the
mirror mesh has more than two quadrature points per dimension; so
`boundarySolution` and `volumeSolution` store the directly selected corner
values when that count is at most 2, and the interpolated values otherwise. -/
theorem needs_interpolation_threshold (params : InputParameters) (env : ConstructorEnv)
    (pb : NekRSProblemBase) (warnings : List String)
    (h : NekRSProblemBase.construct params env = Except.ok (pb, warnings)) :
    (pb.needs_interpolation = true ↔ 2 < pb.nek_mesh.numQuadraturePoints1D) ∧
    env.mesh = some pb.nek_mesh ∧
    (∀ (nek : NekInterface) (field : NekFieldEnum) (k : Nat),
      pb.nek_mesh.numQuadraturePoints1D ≤ 2 →
        pb.boundarySolution_face nek field k =
          (List.range ((pb.nek_mesh.order + 2) * (pb.nek_mesh.order + 2))).map
            (fun (v : Nat) => nek.solutionPointer field (nek.entireMesh.vmapM
              ((pb.nek_mesh.boundaryCoupling.element.getD k 0 : Int) * nek.entireMesh.Nfaces *
                  ((nek.entireMesh.Nq * nek.entireMesh.Nq : Nat) : Int) +
                (pb.nek_mesh.boundaryCoupling.face.getD k 0 : Int) *
                  ((nek.entireMesh.Nq * nek.entireMesh.Nq : Nat) : Int) +
                (boundarySolution_indices nek.entireMesh.Nq).getD v 0))) ∧
        pb.volumeSolution_element nek field k =
          (List.range
              ((pb.nek_mesh.order + 2) * (pb.nek_mesh.order + 2) * (pb.nek_mesh.order + 2))).map
            (fun (v : Nat) => nek.solutionPointer field
              ((k : Int) *
                  ((nek.entireMesh.Nq * nek.entireMesh.Nq * nek.entireMesh.Nq : Nat) : Int) +
                (volumeSolution_indices nek.entireMesh.Nq).getD v 0))) ∧
    (∀ (nek : NekInterface) (field : NekFieldEnum) (k : Nat),
      2 < pb.nek_mesh.numQuadraturePoints1D →
        pb.boundarySolution_face nek field k =
          interpolateSurfaceFaceHex3D pb.interpolation_outgoing
            ((List.range (nek.entireMesh.Nq * nek.entireMesh.Nq)).map
              (fun (v : Nat) => nek.solutionPointer field (nek.entireMesh.vmapM
                ((pb.nek_mesh.boundaryCoupling.element.getD k 0 : Int) * nek.entireMesh.Nfaces *
                    ((nek.entireMesh.Nq * nek.entireMesh.Nq : Nat) : Int) +
                  (pb.nek_mesh.boundaryCoupling.face.getD k 0 : Int) *
                    ((nek.entireMesh.Nq * nek.entireMesh.Nq : Nat) : Int) +
                  (v : Int)))))
            nek.entireMesh.Nq (pb.nek_mesh.order + 2) ∧
        pb.volumeSolution_element nek field k =
          interpolateVolumeHex3D pb.interpolation_outgoing
            ((List.range (nek.entireMesh.Nq * nek.entireMesh.Nq * nek.entireMesh.Nq)).map
              (fun (v : Nat) => nek.solutionPointer field
                ((k : Int) *
                    ((nek.entireMesh.Nq * nek.entireMesh.Nq * nek.entireMesh.Nq : Nat) : Int) +
                  (v : Int))))
            nek.entireMesh.Nq (pb.nek_mesh.order + 2)) := by
  obtain ⟨mesh, hm, hpm, hni⟩ := construct_ok_fields params env pb warnings h
  subst hpm
  have hiff : pb.needs_interpolation = true ↔ 2 < pb.nek_mesh.numQuadraturePoints1D := by
    rw [hni]; simp
  refine ⟨hiff, hm, ?_, ?_⟩
  · intro nek field k hle
    have hf : pb.needs_interpolation = false := by
      cases hb : pb.needs_interpolation with
      | false => rfl
      | true => have := hiff.1 hb; omega
    simp [NekRSProblemBase.boundarySolution_face, NekRSProblemBase.volumeSolution_element, hf]
  · intro nek field k hlt
    have ht : pb.needs_interpolation = true := hiff.2 hlt
    simp [NekRSProblemBase.boundarySolution_face, NekRSProblemBase.volumeSolution_element, ht]

/-! ## Reference scales in non-dimensional mode -/

/-- C9 (the code at the failing input): with `nondimensional = true` and only
`U_ref`, `T_ref`, `dT_ref`, `L_ref` set by the input, `rho_0` and `Cp_0` are not
set by the user, yet every `checkRequiredParam` of the scale loop passes (the
declared defaults make all six parameters valid) and the constructor succeeds
without an error and without a warning. -/
theorem partial_scales_construct_ok :
    partialScaleParams.getBool "nondimensional" = true ∧
    partialScaleParams.isParamSetByUser "rho_0" = false ∧
    partialScaleParams.isParamSetByUser "Cp_0" = false ∧
    checkRequiredParam partialScaleParams "rho_0" "solving in non-dimensional form" =
      Except.ok () ∧
    checkRequiredParam partialScaleParams "Cp_0" "solving in non-dimensional form" =
      Except.ok () ∧
    checkScales partialScaleParams true scales = Except.ok [] ∧
    (NekRSProblemBase.construct partialScaleParams sampleEnv).isOk = true ∧
    (NekRSProblemBase.construct partialScaleParams sampleEnv).map Prod.snd = Except.ok [] := by
  have e1 : sampleEnv.isUltimateMaster = false := rfl
  have e2 : sampleEnv.hasCHT = false := rfl
  have e3 : sampleEnv.mesh = some sampleMirror := rfl
  have e4 : partialScaleParams.getBool "write_fld_files" = false := rfl
  have e5 : partialScaleParams.getBool "disable_fld_file_output" = false := rfl
  have e6 : partialScaleParams.getBool "nondimensional" = true := rfl
  have e7 : checkScales partialScaleParams true scales = Except.ok [] := rfl
  have e8 : absoluteFuzzyEqual sampleMirror.scaling (partialScaleParams.getReal "L_ref")
      sampleEnv.fuzzy_tol = true := by
    have a1 : sampleMirror.scaling = 1 := rfl
    have a2 : partialScaleParams.getReal "L_ref" = 1 := rfl
    have a3 : sampleEnv.fuzzy_tol = 1 / 1000000000000 := rfl
    rw [a1, a2, a3]
    unfold absoluteFuzzyEqual
    norm_num
  refine ⟨rfl, rfl, rfl, rfl, rfl, rfl, ?_, ?_⟩
  · simp [NekRSProblemBase.construct, e1, e2, e3, e4, e5, e6, e7, e8, Except.isOk, Except.toBool]
  · simp [NekRSProblemBase.construct, e1, e2, e3, e4, e5, e6, e7, e8, Except.map]

/-! ## Registration of the auxiliary variables -/

theorem addOutputNames_eq (outputs : List String) :
    ∀ (pb : NekRSProblemBase),
      (∀ o, o ∈ outputs → o = "temperature" ∨ o = "pressure" ∨ o = "velocity") →
      NekRSProblemBase.addOutputNames true pb outputs =
        Except.ok { pb with
          var_names := pb.var_names ++ outputs.flatMap fun o =>
            if o = "temperature" then ["temp"]
            else if o = "velocity" then ["vel_x", "vel_y", "vel_z"]
            else ["P"] } := by
  induction outputs with
  | nil => intro pb _; simp [NekRSProblemBase.addOutputNames]
  | cons o rest ih =>
    intro pb h
    have hrest : ∀ o, o ∈ rest → o = "temperature" ∨ o = "pressure" ∨ o = "velocity" :=
      fun x hx => h x (List.mem_cons_of_mem o hx)
    rcases h o (List.mem_cons_self o rest) with ho | ho | ho
    · subst ho
      simp [NekRSProblemBase.addOutputNames, NekRSProblemBase.addTemperatureVariable,
        ih _ hrest]
    · subst ho
      simp [NekRSProblemBase.addOutputNames, ih _ hrest]
    · subst ho
      simp [NekRSProblemBase.addOutputNames, ih _ hrest]

/-- C10: on a freshly constructed problem (no name registered yet) whose
requested outputs are a list over `temperature`, `pressure`, `velocity`, with a
solver that has a temperature field, `addExternalVariables` succeeds and the
names passed to `addAuxVariable` (which are also `_var_names`) are the in-order
concatenation of `temperature -> [temp]`, `velocity -> [vel_x, vel_y, vel_z]`,
`pressure -> [P]`; none is named `velocity`, and `_external_vars` is as long as
`_var_names`. -/
theorem addExternalVariables_names (pb : NekRSProblemBase) (outputs : List String)
    (number : String → Nat)
    (hout : pb.outputs = some outputs)
    (hfresh : pb.var_names = [] ∧ pb.external_vars = [])
    (hfields : ∀ o, o ∈ outputs → o = "temperature" ∨ o = "pressure" ∨ o = "velocity") :
    ∃ res, pb.addExternalVariables true number = Except.ok res ∧
      res.aux_variables = outputs.flatMap (fun o =>
        if o = "temperature" then ["temp"]
        else if o = "velocity" then ["vel_x", "vel_y", "vel_z"]
        else ["P"]) ∧
      res.problem.var_names = res.aux_variables ∧
      "velocity" ∉ res.aux_variables ∧
      res.problem.external_vars.length = res.problem.var_names.length ∧
      res.problem.external_vars = res.problem.var_names.map number := by
  obtain ⟨hv, he⟩ := hfresh
  have h := addOutputNames_eq outputs pb hfields
  rw [hv, List.nil_append] at h
  unfold NekRSProblemBase.addExternalVariables
  simp only [hout, h]
  refine ⟨_, rfl, rfl, rfl, ?_, ?_, ?_⟩
  · simp only [List.mem_flatMap, not_exists, not_and]
    intro o _ hmem
    split_ifs at hmem <;> simp at hmem
  · simp [he]
  · simp [he]


/-! ## The theorems at the sample configuration -/

theorem sample_construct :
    NekRSProblemBase.construct sampleParams sampleEnv =
      Except.ok (sampleProblem 0,
        ["When solving in dimensional form, the \x27T_ref\x27 parameter is unused!"]) :=
  rfl

theorem writeVolumeSolution_owner_only_witness :
    (∀ r, r < 2 → (sampleNek r).commRank = r) ∧
    (∀ r, r < 2 → (sampleProblem r).nek_mesh.volumeCoupling.process = sampleVolume.process) ∧
    (∀ r, r < 2 → 0 < (sampleNek r).entireMesh.Np) ∧
    sampleVolume.processor_id 1 < 2 ∧
    ((sampleProblem (sampleVolume.processor_id 1)).writeVolumeSolution
        (sampleNek (sampleVolume.processor_id 1)) 1 () (List.replicate 8 (1 : ℚ)) none ≠ [] ∧
    (∀ r, r < 2 → r ≠ sampleVolume.processor_id 1 →
      (sampleProblem r).writeVolumeSolution (sampleNek r) 1 () (List.replicate 8 (1 : ℚ)) none
        = []) ∧
    (∃! r, r < 2 ∧
      (sampleProblem r).writeVolumeSolution (sampleNek r) 1 () (List.replicate 8 (1 : ℚ)) none
        ≠ [])) :=
  have h1 : ∀ r, r < 2 → (sampleNek r).commRank = r := fun _ _ => rfl
  have h2 : ∀ r, r < 2 →
      (sampleProblem r).nek_mesh.volumeCoupling.process = sampleVolume.process :=
    fun _ _ => rfl
  have h3 : ∀ r, r < 2 → 0 < (sampleNek r).entireMesh.Np :=
    fun _ _ => (by decide : 0 < 8)
  ⟨h1, h2, h3, by decide,
    writeVolumeSolution_owner_only sampleProblem sampleNek 2 sampleVolume 1 ()
      (fun _ => List.replicate 8 (1 : ℚ)) (fun _ => none) h1 h2 h3 (by decide)⟩

theorem writeVolumeSolution_offsets_witness :
    (sampleNek 1).commRank = (sampleProblem 1).nek_mesh.volumeCoupling.processor_id 1 ∧
    (sampleNek 1).entireMesh.Np = (sampleNek 1).entireMesh.Nq ^ 3 ∧
    (((sampleProblem 1).writeVolumeSolution (sampleNek 1) 1 () (List.replicate 8 (1 : ℚ))
        (some (List.replicate 8 (3 : ℚ)))).map (fun w => w.id) =
      (List.range (sampleNek 1).entireMesh.Np).map
        (fun v => (sampleProblem 1).nek_mesh.volumeCoupling.element.getD 1 0 *
          (sampleNek 1).entireMesh.Np + v) ∧
    (((sampleProblem 1).writeVolumeSolution (sampleNek 1) 1 () (List.replicate 8 (1 : ℚ))
        (some (List.replicate 8 (3 : ℚ)))).map (fun w => w.id)).Nodup ∧
    (∀ v, v < (sampleNek 1).entireMesh.Np →
      (((sampleProblem 1).writeVolumeSolution (sampleNek 1) 1 () (List.replicate 8 (1 : ℚ))
          (some (List.replicate 8 (3 : ℚ)))).map (fun w => w.value))[v]? =
        some ((interpolateVolumeHex3D (sampleProblem 1).interpolation_incoming
            (List.replicate 8 (1 : ℚ)) ((sampleProblem 1).nek_mesh.order + 2)
            (sampleNek 1).entireMesh.Nq).getD v 0 +
          (match some (List.replicate 8 (3 : ℚ)) with
            | none => 0
            | some a =>
              a.getD ((sampleProblem 1).nek_mesh.volumeCoupling.element.getD 1 0 *
                (sampleNek 1).entireMesh.Np + v) 0)))) :=
  ⟨rfl, rfl,
    writeVolumeSolution_offsets (sampleProblem 1) (sampleNek 1) 1 () (List.replicate 8 (1 : ℚ))
      (some (List.replicate 8 (3 : ℚ))) rfl rfl⟩

theorem fillAuxVariable_sets_witness :
    (∀ n, n < (sampleProblem 0).n_vertices_per_elem →
      (sampleProblem 0).nek_mesh.nodeIndex n < (sampleProblem 0).n_vertices_per_elem) ∧
    (∀ w : AuxSet, w ∈ (sampleProblem 0).fillAuxVariable 0 (fun i => (i : ℚ)) →
      w.node_offset < (sampleProblem 0).n_elems * (sampleProblem 0).n_vertices_per_elem) :=
  have h : ∀ n, n < (sampleProblem 0).n_vertices_per_elem →
      (sampleProblem 0).nek_mesh.nodeIndex n < (sampleProblem 0).n_vertices_per_elem := by
    decide
  ⟨h, (fillAuxVariable_sets (sampleProblem 0) 0 (fun i => (i : ℚ))).2.2 h⟩

theorem needs_interpolation_threshold_witness :
    NekRSProblemBase.construct sampleParams sampleEnv =
      Except.ok (sampleProblem 0,
        ["When solving in dimensional form, the \x27T_ref\x27 parameter is unused!"]) ∧
    ((sampleProblem 0).needs_interpolation = true ↔
      2 < (sampleProblem 0).nek_mesh.numQuadraturePoints1D) ∧
    sampleEnv.mesh = some (sampleProblem 0).nek_mesh :=
  ⟨sample_construct,
    (needs_interpolation_threshold sampleParams sampleEnv (sampleProblem 0) _
      sample_construct).1,
    (needs_interpolation_threshold sampleParams sampleEnv (sampleProblem 0) _
      sample_construct).2.1⟩

theorem addExternalVariables_names_witness :
    (sampleProblem 0).outputs = some ["temperature", "velocity"] ∧
    ((sampleProblem 0).var_names = [] ∧ (sampleProblem 0).external_vars = []) ∧
    (∀ o, o ∈ ["temperature", "velocity"] →
      o = "temperature" ∨ o = "pressure" ∨ o = "velocity") ∧
    (∃ res, (sampleProblem 0).addExternalVariables true String.length = Except.ok res ∧
      res.aux_variables = ["temperature", "velocity"].flatMap (fun o =>
        if o = "temperature" then ["temp"]
        else if o = "velocity" then ["vel_x", "vel_y", "vel_z"]
        else ["P"]) ∧
      res.problem.var_names = res.aux_variables ∧
      "velocity" ∉ res.aux_variables ∧
      res.problem.external_vars.length = res.problem.var_names.length ∧
      res.problem.external_vars = res.problem.var_names.map String.length) :=
  have h : ∀ o, o ∈ ["temperature", "velocity"] →
      o = "temperature" ∨ o = "pressure" ∨ o = "velocity" := by
    intro o ho
    simp only [List.mem_cons, List.mem_singleton, List.not_mem_nil, or_false] at ho
    rcases ho with ho | ho
    · exact Or.inl ho
    · exact Or.inr (Or.inr ho)
  ⟨rfl, ⟨rfl, rfl⟩, h,
    addExternalVariables_names (sampleProblem 0) ["temperature", "velocity"] String.length rfl
      ⟨rfl, rfl⟩ h⟩

/-! ## Field-file prefixes -/

theorem alphabet_letter (q : Nat) (hq : q < 26) :
    ("abcdefghijklmnopqrstuvwxyz".toList.getD q (Char.ofNat 0)) = Char.ofNat (97 + q) := by
  interval_cases q <;> rfl

theorem two_digits (r : Nat) (hr : r < 100) :
    (if r < 10 then "0" else "") ++ toString r =
      String.mk [Char.ofNat (48 + r / 10), Char.ofNat (48 + r % 10)] := by
  interval_cases r <;> rfl

/-- C15: for every sub-application index `n < 2600`, `fieldFilePrefix(n)` is the
three-character string made of the `(n / 100)`-th lowercase letter followed by
the two decimal digits of `n % 100`, zero-padded; so the indices 1 and 99 give
`a01` and `a99`, the indices 101 and 199 give `b01` and `b99`. -/
theorem fieldFilePrefix_format (n : Nat) (hn : n < 2600) :
    fieldFilePrefix n =
      String.mk [Char.ofNat (97 + n / 100), Char.ofNat (48 + n % 100 / 10),
        Char.ofNat (48 + n % 100 % 10)] ∧
    (fieldFilePrefix n).length = 3 ∧
    fieldFilePrefix 1 = "a01" ∧ fieldFilePrefix 99 = "a99" ∧
    fieldFilePrefix 101 = "b01" ∧ fieldFilePrefix 199 = "b99" := by
  have h : fieldFilePrefix n =
      String.mk [Char.ofNat (97 + n / 100), Char.ofNat (48 + n % 100 / 10),
        Char.ofNat (48 + n % 100 % 10)] := by
    unfold fieldFilePrefix
    simp only []
    rw [String.append_assoc, two_digits (n % 100) (Nat.mod_lt _ (by decide)),
      alphabet_letter (n / 100) (by omega)]
    rfl
  refine ⟨h, ?_, rfl, rfl, rfl, rfl⟩
  rw [h]
  rfl

/-! ## Extraction of the outputs -/

theorem extractOutputs_loop_transfers (pb : Nat → NekRSProblemBase) (nek : Nat → NekInterface)
    (self : Nat) :
    ∀ (l : List Nat) (data : List ℚ) (done : List OutputTransfer),
      (∀ i, i ∈ l → i < (pb self).var_names.length) →
      (∀ t, t ∈ done → t.name ∈ (pb self).var_names ∧
        (t.name = "temp" ∧ t.field = NekFieldEnum.temperature ∨
          t.name = "P" ∧ t.field = NekFieldEnum.pressure ∨
          t.name = "vel_x" ∧ t.field = NekFieldEnum.velocity_x ∨
          t.name = "vel_y" ∧ t.field = NekFieldEnum.velocity_y ∨
          t.name = "vel_z" ∧ t.field = NekFieldEnum.velocity_z)) →
      ∀ t, t ∈ (extractOutputs_loop pb nek self l data done).transfers →
        t.name ∈ (pb self).var_names ∧
        (t.name = "temp" ∧ t.field = NekFieldEnum.temperature ∨
          t.name = "P" ∧ t.field = NekFieldEnum.pressure ∨
          t.name = "vel_x" ∧ t.field = NekFieldEnum.velocity_x ∨
          t.name = "vel_y" ∧ t.field = NekFieldEnum.velocity_y ∨
          t.name = "vel_z" ∧ t.field = NekFieldEnum.velocity_z) := by
  intro l
  induction l with
  | nil => intro data done _ hdone t ht; exact hdone t ht
  | cons i rest ih =>
    intro data done hl hdone t ht
    have hi : i < (pb self).var_names.length := hl i (List.mem_cons_self i rest)
    have hrest : ∀ j, j ∈ rest → j < (pb self).var_names.length :=
      fun j hj => hl j (List.mem_cons_of_mem i hj)
    have hmem : (pb self).var_names.getD i "" ∈ (pb self).var_names := by
      rw [List.getD_eq_getElem _ _ hi]; exact List.getElem_mem _
    unfold extractOutputs_loop at ht
    simp only [] at ht
    split at ht
    · exact hdone t ht
    · rename_i field hfield
      refine ih _ _ hrest ?_ t ht
      intro u hu
      rcases List.mem_append.1 hu with hu | hu
      · exact hdone u hu
      · rw [List.mem_singleton] at hu
        subst hu
        refine ⟨hmem, ?_⟩
        simp only []
        split_ifs at hfield with h1 h2 h3 h4 h5
        · injection hfield with hf; exact Or.inl ⟨h1, hf.symm⟩
        · injection hfield with hf; exact Or.inr (Or.inl ⟨h2, hf.symm⟩)
        · injection hfield with hf; exact Or.inr (Or.inr (Or.inl ⟨h3, hf.symm⟩))
        · injection hfield with hf; exact Or.inr (Or.inr (Or.inr (Or.inl ⟨h4, hf.symm⟩)))
        · injection hfield with hf; exact Or.inr (Or.inr (Or.inr (Or.inr ⟨h5, hf.symm⟩)))

theorem extractOutputs_loop_error (pb : Nat → NekRSProblemBase) (nek : Nat → NekInterface)
    (self : Nat) :
    ∀ (l : List Nat) (data : List ℚ) (done : List OutputTransfer),
      (∃ i, i ∈ l ∧ (pb self).var_names.getD i "" ∉ ["temp", "P", "vel_x", "vel_y", "vel_z"]) →
      (extractOutputs_loop pb nek self l data done).error =
        some "Unhandled NekFieldEnum in NekRSProblemBase!" := by
  intro l
  induction l with
  | nil => intro data done h; obtain ⟨i, hi, _⟩ := h; cases hi
  | cons i rest ih =>
    intro data done h
    unfold extractOutputs_loop
    simp only []
    split
    · rfl
    · rename_i field hfield
      apply ih
      obtain ⟨j, hj, hbad⟩ := h
      rcases List.mem_cons.1 hj with hji | hjr
      · subst hji
        simp only [List.mem_cons, List.mem_singleton, List.not_mem_nil, or_false, not_or] at hbad
        obtain ⟨b1, b2, b3, b4, b5⟩ := hbad
        rw [if_neg b1, if_neg b2, if_neg b3, if_neg b4, if_neg b5] at hfield
        cases hfield
      · exact ⟨j, hjr, hbad⟩

/-- C11: when outputs are requested (`_outputs` is set) and a registered
variable name is none of `temp`, `P`, `vel_x`, `vel_y`, `vel_z`,
`extractOutputs` stops on the fatal error `Unhandled NekFieldEnum`, and the
passes it completed (field extraction followed by the writes of
`fillAuxVariable`) are all for supported names: none is made for that name. -/
theorem extractOutputs_unhandled (pb : Nat → NekRSProblemBase) (nek : Nat → NekInterface)
    (self : Nat) (name : String)
    (hout : (pb self).outputs.isSome = true)
    (hmem : name ∈ (pb self).var_names)
    (hbad : name ∉ ["temp", "P", "vel_x", "vel_y", "vel_z"]) :
    (extractOutputs pb nek self).error = some "Unhandled NekFieldEnum in NekRSProblemBase!" ∧
    (∀ t, t ∈ (extractOutputs pb nek self).transfers →
      t.name ∈ ["temp", "P", "vel_x", "vel_y", "vel_z"] ∧ t.name ≠ name) := by
  have hlen : (pb self).var_names.length ≠ 0 := by
    intro h0
    rw [List.length_eq_zero] at h0
    rw [h0] at hmem
    cases hmem
  have hdef : extractOutputs pb nek self =
      extractOutputs_loop pb nek self (List.range (pb self).var_names.length)
        (pb self).external_data [] := by
    unfold extractOutputs
    rw [if_pos (by simp [hout, hlen])]
  rw [hdef]
  constructor
  · apply extractOutputs_loop_error
    obtain ⟨i, hi, hget⟩ := List.getElem_of_mem hmem
    refine ⟨i, List.mem_range.2 hi, ?_⟩
    rw [List.getD_eq_getElem _ _ hi, hget]
    exact hbad
  · intro t ht
    have h := extractOutputs_loop_transfers pb nek self _ _ []
      (fun i hi => List.mem_range.1 hi) (fun t ht => by cases ht) t ht
    have hsup : t.name ∈ ["temp", "P", "vel_x", "vel_y", "vel_z"] := by
      rcases h.2 with h | h | h | h | h <;> simp [h.1]
    exact ⟨hsup, fun he => hbad (he ▸ hsup)⟩

/-! ## Temperature output without a temperature field -/

theorem addOutputNames_no_temperature (outputs : List String) :
    ∀ (pb : NekRSProblemBase), "temperature" ∈ outputs →
      NekRSProblemBase.addOutputNames false pb outputs =
        Except.error ("Cannot set \x27output = temperature\x27 for \x27" ++ pb.type ++
          "\x27 because your Nek case files do not have a temperature variable!") := by
  induction outputs with
  | nil => intro pb h; cases h
  | cons o rest ih =>
    intro pb h
    unfold NekRSProblemBase.addOutputNames
    by_cases h1 : o = "temperature"
    · rw [if_pos h1]
      rfl
    · have hrest : "temperature" ∈ rest := by
        rcases List.mem_cons.1 h with h | h
        · exact absurd h.symm h1
        · exact h
      rw [if_neg h1]
      split_ifs
      · exact ih _ hrest
      · exact ih _ hrest
      · exact ih _ hrest

theorem addOutputNames_names (outputs : List String) :
    ∀ (pb pb1 : NekRSProblemBase),
      NekRSProblemBase.addOutputNames false pb outputs = Except.ok pb1 →
      ∀ x, x ∈ pb1.var_names → x ∈ pb.var_names ∨ x ∈ ["vel_x", "vel_y", "vel_z", "P"] := by
  induction outputs with
  | nil =>
    intro pb pb1 h x hx
    simp only [NekRSProblemBase.addOutputNames] at h
    injection h with h
    rw [← h] at hx
    exact Or.inl hx
  | cons o rest ih =>
    intro pb pb1 h x hx
    unfold NekRSProblemBase.addOutputNames at h
    split_ifs at h with h1 h2 h3
    · simp [NekRSProblemBase.addTemperatureVariable] at h
    · rcases ih _ _ h x hx with hx | hx
      · simp only [List.mem_append] at hx
        rcases hx with hx | hx
        · exact Or.inl hx
        · right
          simp only [List.mem_cons, List.mem_singleton, List.not_mem_nil, or_false] at hx ⊢
          rcases hx with hx | hx | hx <;> simp [hx]
      · exact Or.inr hx
    · rcases ih _ _ h x hx with hx | hx
      · simp only [List.mem_append] at hx
        rcases hx with hx | hx
        · exact Or.inl hx
        · right
          simp only [List.mem_singleton] at hx
          simp [hx]
      · exact Or.inr hx
    · exact ih _ _ h x hx

/-- C12: with a solver that has no temperature variable and `temperature` among
the requested outputs, the first loop of `addExternalVariables` (hence
`addExternalVariables`) stops on the fatal error of `addTemperatureVariable`,
before the loop that registers the names; and whenever `addExternalVariables`
succeeds on a fresh problem for such a solver, `temp` is neither registered nor
in `_var_names`, so no pass of `extractOutputs` reads the temperature. -/
theorem temperature_requires_solver_field (pb : NekRSProblemBase) (outputs : List String)
    (number : String → Nat)
    (hout : pb.outputs = some outputs) (htemp : "temperature" ∈ outputs) :
    NekRSProblemBase.addOutputNames false pb outputs =
      Except.error ("Cannot set \x27output = temperature\x27 for \x27" ++ pb.type ++
        "\x27 because your Nek case files do not have a temperature variable!") ∧
    pb.addExternalVariables false number =
      Except.error ("Cannot set \x27output = temperature\x27 for \x27" ++ pb.type ++
        "\x27 because your Nek case files do not have a temperature variable!") ∧
    (∀ (pb2 : NekRSProblemBase) (number2 : String → Nat) (res : ExternalVariables),
      pb2.var_names = [] → pb2.addExternalVariables false number2 = Except.ok res →
        "temp" ∉ res.aux_variables ∧ "temp" ∉ res.problem.var_names ∧
        ∀ (pbs : Nat → NekRSProblemBase) (nek : Nat → NekInterface) (self : Nat),
          (pbs self).var_names = res.problem.var_names →
          ∀ t, t ∈ (extractOutputs pbs nek self).transfers →
            t.name ≠ "temp" ∧ t.field ≠ NekFieldEnum.temperature) := by
  have h1 := addOutputNames_no_temperature outputs pb htemp
  refine ⟨h1, ?_, ?_⟩
  · unfold NekRSProblemBase.addExternalVariables
    simp only [hout, h1]
  · intro pb2 number2 res hfresh hok
    have hnames : "temp" ∉ res.aux_variables ∧ "temp" ∉ res.problem.var_names := by
      unfold NekRSProblemBase.addExternalVariables at hok
      simp only [] at hok
      cases ho : pb2.outputs with
      | none =>
        rw [ho] at hok
        injection hok with hok
        rw [← hok]
        simp [hfresh]
      | some outs =>
        rw [ho] at hok
        simp only [] at hok
        cases hn : NekRSProblemBase.addOutputNames false pb2 outs with
        | error e => rw [hn] at hok; cases hok
        | ok pb1 =>
          rw [hn] at hok
          injection hok with hok
          rw [← hok]
          simp only []
          have hno : "temp" ∉ pb1.var_names := by
            intro hin
            rcases addOutputNames_names outs pb2 pb1 hn "temp" hin with h | h
            · rw [hfresh] at h; cases h
            · revert h; decide
          exact ⟨hno, hno⟩
    refine ⟨hnames.1, hnames.2, ?_⟩
    intro pbs nek self hvar t ht
    have hgood : t.name ∈ (pbs self).var_names ∧
        (t.name = "temp" ∧ t.field = NekFieldEnum.temperature ∨
          t.name = "P" ∧ t.field = NekFieldEnum.pressure ∨
          t.name = "vel_x" ∧ t.field = NekFieldEnum.velocity_x ∨
          t.name = "vel_y" ∧ t.field = NekFieldEnum.velocity_y ∨
          t.name = "vel_z" ∧ t.field = NekFieldEnum.velocity_z) := by
      unfold extractOutputs at ht
      split_ifs at ht
      · exact extractOutputs_loop_transfers pbs nek self _ _ []
          (fun i hi => List.mem_range.1 hi) (fun t ht => by cases ht) t ht
      · cases ht
    have hne : t.name ≠ "temp" := by
      intro he
      apply hnames.2
      rw [← hvar, ← he]
      exact hgood.1
    refine ⟨hne, ?_⟩
    rcases hgood.2 with h | h | h | h | h
    · exact absurd h.1 hne
    all_goals rw [h.2]; decide

/-! ## The coupled time step -/

theorem fieldFileWrite_isFieldFileWrite (pb : NekRSProblemBase) (time : ℚ) :
    (pb.fieldFileWrite time).isFieldFileWrite = true := by
  unfold NekRSProblemBase.fieldFileWrite
  split_ifs <;> rfl

theorem externalSolve_eq (pb : NekRSProblemBase) (env : RunEnv) (s : RunState)
    (hrun : env.buildOnly = false) (hdt : ¬ s.dt < env.minDT) :
    pb.externalSolve env s =
      ⟨{ s with
          is_output_step := NekRSProblemBase.isOutputStep env s
          time := roundDouble (s.time + s.dt) },
        [NekCall.runStep (env.nondimensionalDT (roundDouble (s.time - s.dt)))
            (env.nondimensionalDT s.dt) s.t_step,
          NekCall.adjustNekSolution,
          NekCall.ocopyToNek (env.nondimensionalDT s.time) s.t_step] ++
          (if NekRSProblemBase.isOutputStep env s && !pb.disable_fld_file_output then
            [pb.fieldFileWrite (env.nondimensionalDT s.time)]
          else []),
        none⟩ := by
  unfold NekRSProblemBase.externalSolve
  simp only [hrun, Bool.false_eq_true, if_false, if_neg hdt]

/-- C13: for an `externalSolve` that takes its step (outside build-only mode,
`dt` not below the minimum) followed by the destructor: `externalSolve` writes
a field file exactly when the step is an output step and output is not
disabled, the destructor writes one exactly when the step was not an output
step and output is not disabled; together they write one field file when
`disable_fld_file_output` is unset and none when it is set. The write of
`externalSolve` carries the step end time `t`, the one of the destructor the
driver time `t + dt` (the `double` sum) that `externalSolve` left. -/
theorem field_file_written_once (pb : NekRSProblemBase) (env : RunEnv) (s : RunState)
    (hrun : env.buildOnly = false) (hdt : ¬ s.dt < env.minDT) :
    (pb.externalSolve env s).calls.filter NekCall.isFieldFileWrite =
      (if NekRSProblemBase.isOutputStep env s = true ∧ pb.disable_fld_file_output = false then
        [pb.fieldFileWrite (env.nondimensionalDT s.time)]
      else []) ∧
    pb.destructor env (pb.externalSolve env s).state =
      (if NekRSProblemBase.isOutputStep env s = false ∧ pb.disable_fld_file_output = false then
        [pb.fieldFileWrite (env.nondimensionalDT (roundDouble (s.time + s.dt)))]
      else []) ∧
    (((pb.externalSolve env s).calls ++
        pb.destructor env (pb.externalSolve env s).state).filter
      NekCall.isFieldFileWrite).length =
      (if pb.disable_fld_file_output = true then 0 else 1) := by
  rw [externalSolve_eq pb env s hrun hdt]
  have hw := fieldFileWrite_isFieldFileWrite pb
  have h1 : ∀ a b c, (NekCall.runStep a b c).isFieldFileWrite = false := fun _ _ _ => rfl
  have h2 : NekCall.adjustNekSolution.isFieldFileWrite = false := rfl
  have h3 : ∀ a b, (NekCall.ocopyToNek a b).isFieldFileWrite = false := fun _ _ => rfl
  unfold NekRSProblemBase.destructor
  cases ho : NekRSProblemBase.isOutputStep env s <;>
    cases hd : pb.disable_fld_file_output <;>
    simp [List.filter_cons, h1, h2, h3, hw]

/-- C18: an `externalSolve` outside build-only mode whose step `dt` is not
below the minimum, entered at driver time `t`, raises no error and makes, in
this order, the calls `runStep` (start `t - dt`, length `dt`),
`adjustNekSolution`, `ocopyToNek` (time `t`), then at most one field-file write
(at time `t`, exactly when the step is an output step and output is not
disabled); it records the output-step decision taken at time `t` and leaves the
driver time at `t + dt`, the step and the step index unchanged. The difference
`t - dt` and the sum `t + dt` are the `double` ones. -/
theorem externalSolve_order (pb : NekRSProblemBase) (env : RunEnv) (s : RunState)
    (hrun : env.buildOnly = false) (hdt : ¬ s.dt < env.minDT) :
    (pb.externalSolve env s).error = none ∧
    (∃ writes : List NekCall,
      (pb.externalSolve env s).calls =
        [NekCall.runStep (env.nondimensionalDT (roundDouble (s.time - s.dt)))
            (env.nondimensionalDT s.dt) s.t_step,
          NekCall.adjustNekSolution,
          NekCall.ocopyToNek (env.nondimensionalDT s.time) s.t_step] ++ writes ∧
      writes.length ≤ 1 ∧
      (∀ c, c ∈ writes → c = pb.fieldFileWrite (env.nondimensionalDT s.time)) ∧
      (writes ≠ [] ↔
        NekRSProblemBase.isOutputStep env s = true ∧ pb.disable_fld_file_output = false)) ∧
    (pb.externalSolve env s).state.is_output_step = NekRSProblemBase.isOutputStep env s ∧
    (pb.externalSolve env s).state.time = roundDouble (s.time + s.dt) ∧
    (pb.externalSolve env s).state.dt = s.dt ∧
    (pb.externalSolve env s).state.t_step = s.t_step := by
  rw [externalSolve_eq pb env s hrun hdt]
  refine ⟨rfl, ⟨_, rfl, ?_, ?_, ?_⟩, rfl, rfl, rfl, rfl⟩
  · split_ifs <;> simp
  · intro c hc
    split_ifs at hc
    · exact List.mem_singleton.1 hc
    · cases hc
  · cases ho : NekRSProblemBase.isOutputStep env s <;>
      cases hd : pb.disable_fld_file_output <;> simp

/-! ## Status codes of the transport backend -/

/-- C14 (the code at the failing input): with a backend whose material lookup
reports a nonzero status for index 7, `materialID(7)` raises nothing and returns
the content of `id`, whereas `cellID(7)` raises the fatal error carrying the
backend message; `materialID` raises for no backend and no index. -/
theorem materialID_swallows_status :
    (sampleBackend.openmc_material_get_id 7).err ≠ 0 ∧
    OpenMCProblemBase.materialID sampleBackend 7 = Except.ok 0 ∧
    (sampleBackend.openmc_cell_get_id 7).err ≠ 0 ∧
    OpenMCProblemBase.cellID sampleBackend 7 =
      Except.error ("In attempting to get ID for cell with index 7 , OpenMC reported:\n\n" ++
        "Index in cells array is out of bounds.") ∧
    (∀ (backend : OpenMCBackend) (index : Int),
      OpenMCProblemBase.materialID backend index =
        Except.ok (backend.openmc_material_get_id index).id) ∧
    (∀ (backend : OpenMCBackend) (index : Int),
      (backend.openmc_cell_get_id index).err ≠ 0 →
        OpenMCProblemBase.cellID backend index =
          Except.error ("In attempting to get ID for cell with index " ++ toString index ++
            " , OpenMC reported:\n\n" ++ (backend.openmc_cell_get_id index).err_msg)) := by
  refine ⟨by decide, rfl, by decide, rfl, fun _ _ => rfl, ?_⟩
  intro backend index h
  unfold OpenMCProblemBase.cellID
  simp only []
  rw [if_pos h]

/-! ## The checks of the constructor on the toggles -/

theorem data_head_append (a b : String) (c : Char) (h : a.data.head? = some c) :
    (a ++ b).data.head? = some c := by
  rw [String.data_append]
  cases hd : a.data with
  | nil => rw [hd] at h; cases h
  | cons x xs => rw [hd] at h; simpa using h

theorem ne_of_head (a b : String) (c d : Char) (ha : a.data.head? = some c)
    (hb : b.data.head? = some d) (hcd : c ≠ d) : a ≠ b := by
  intro h
  rw [h, hb] at ha
  injection ha with ha
  exact hcd ha.symm

theorem checkScales_error_head (p : InputParameters) (nd : Bool) :
    ∀ (l : List String) (e : String), checkScales p nd l = Except.error e →
      e.data.head? = some 'W' := by
  intro l
  induction l with
  | nil => intro e h; simp [checkScales] at h
  | cons s rest ih =>
    intro e h
    unfold checkScales at h
    split_ifs at h
    · unfold checkRequiredParam at h
      split_ifs at h
      · simp only [] at h
        injection h with h
        rw [← h]
        exact data_head_append _ _ _ (data_head_append _ _ _ (data_head_append _ _ _
          (data_head_append _ _ _ rfl)))
      · exact ih e h
    · split at h
      · rename_i e1 he1
        injection h with h
        rw [← h]
        exact ih e1 he1
      · cases h

theorem construct_later_error (params : InputParameters) (env : ConstructorEnv) (e : String)
    (h1 : (env.isUltimateMaster && (params.getBool "minimize_transfers_in" ||
      params.getBool "minimize_transfers_out")) = false)
    (h2 : (params.getBool "disable_fld_file_output" && params.getBool "write_fld_files") = false)
    (h3 : (env.isUltimateMaster && params.getBool "write_fld_files") = false)
    (h : NekRSProblemBase.construct params env = Except.error e) :
    e ≠ minimizeTransfersMessage ∧ e ≠ disableAndWriteMessage ∧ e ≠ masterWriteMessage := by
  have hT : minimizeTransfersMessage.data.head? = some 'T' := rfl
  have hC : disableAndWriteMessage.data.head? = some 'C' := rfl
  have hT2 : masterWriteMessage.data.head? = some 'T' := rfl
  unfold NekRSProblemBase.construct at h
  simp only [h1, h2, h3, Bool.false_eq_true, if_false] at h
  split at h
  · injection h with h
    rw [← h]
    refine ⟨?_, ?_, ?_⟩ <;> decide
  split at h
  · injection h with h
    have hM : e.data.head? = some 'M' := by
      rw [← h]
      exact data_head_append _ _ _ (data_head_append _ _ _ (data_head_append _ _ _
        (data_head_append _ _ _ (data_head_append _ _ _ rfl))))
    exact ⟨ne_of_head _ _ _ _ hM hT (by decide), ne_of_head _ _ _ _ hM hC (by decide),
      ne_of_head _ _ _ _ hM hT2 (by decide)⟩
  split at h
  · rename_i e1 he1
    injection h with h
    have hW : e.data.head? = some 'W' := by
      rw [← h]; exact checkScales_error_head _ _ _ _ he1
    exact ⟨ne_of_head _ _ _ _ hW hT (by decide), ne_of_head _ _ _ _ hW hC (by decide),
      ne_of_head _ _ _ _ hW hT2 (by decide)⟩
  split at h
  · injection h with h
    rw [← h]
    refine ⟨?_, ?_, ?_⟩ <;> decide
  · cases h

theorem construct_first_check (params : InputParameters) (env : ConstructorEnv) :
    NekRSProblemBase.construct params env = Except.error minimizeTransfersMessage ↔
      (env.isUltimateMaster && (params.getBool "minimize_transfers_in" ||
        params.getBool "minimize_transfers_out")) = true := by
  constructor
  · intro h
    by_contra hc
    simp only [Bool.not_eq_true] at hc
    by_cases h2 : (params.getBool "disable_fld_file_output" &&
        params.getBool "write_fld_files") = true
    · unfold NekRSProblemBase.construct at h
      simp only [hc, h2, Bool.false_eq_true, if_false, if_true] at h
      injection h with h
      revert h; decide
    · simp only [Bool.not_eq_true] at h2
      by_cases h3 : (env.isUltimateMaster && params.getBool "write_fld_files") = true
      · unfold NekRSProblemBase.construct at h
        simp only [hc, h2, h3, Bool.false_eq_true, if_false, if_true] at h
        injection h with h
        revert h; decide
      · simp only [Bool.not_eq_true] at h3
        exact (construct_later_error params env _ hc h2 h3 h).1 rfl
  · intro h
    unfold NekRSProblemBase.construct
    simp only [h, if_true]
    rfl

/-- C16: the constructor stops on the fatal error of its transfer-minimization
check if and only if Nek is the top-level driver and at least one of
`minimize_transfers_in`, `minimize_transfers_out` is set; as a sub-application
no combination of the two toggles raises it. -/
theorem minimize_transfers_check (params : InputParameters) (env : ConstructorEnv) :
    (NekRSProblemBase.construct params env = Except.error minimizeTransfersMessage ↔
      env.isUltimateMaster = true ∧
        (params.getBool "minimize_transfers_in" = true ∨
          params.getBool "minimize_transfers_out" = true)) ∧
    (env.isUltimateMaster = false →
      NekRSProblemBase.construct params env ≠ Except.error minimizeTransfersMessage) := by
  have h := construct_first_check params env
  simp only [Bool.and_eq_true, Bool.or_eq_true] at h
  refine ⟨h, ?_⟩
  intro hm hc
  have := (h.1 hc).1
  rw [hm] at this
  cases this

/-- C17: a successful construction with `write_fld_files` set has
`disable_fld_file_output` unset and is not the top-level driver. Once the
transfer-minimization check has passed, the constructor stops on the error
`Cannot both disable ...` exactly when both `disable_fld_file_output` and
`write_fld_files` are set, and on the error `The 'write_fld_files' setting ...`
exactly when the former does not apply, Nek is the top-level driver and
`write_fld_files` is set; with `write_fld_files` unset neither is raised, and
with `write_fld_files` set together with `disable_fld_file_output` or as the
top-level driver the constructor always ends in a fatal error. -/
theorem write_fld_files_checks (params : InputParameters) (env : ConstructorEnv) :
    (∀ (pb : NekRSProblemBase) (warnings : List String),
      NekRSProblemBase.construct params env = Except.ok (pb, warnings) →
      params.getBool "write_fld_files" = true →
        params.getBool "disable_fld_file_output" = false ∧ env.isUltimateMaster = false) ∧
    (NekRSProblemBase.construct params env = Except.error disableAndWriteMessage ↔
      (env.isUltimateMaster && (params.getBool "minimize_transfers_in" ||
        params.getBool "minimize_transfers_out")) = false ∧
      params.getBool "disable_fld_file_output" = true ∧
      params.getBool "write_fld_files" = true) ∧
    (NekRSProblemBase.construct params env = Except.error masterWriteMessage ↔
      (env.isUltimateMaster && (params.getBool "minimize_transfers_in" ||
        params.getBool "minimize_transfers_out")) = false ∧
      params.getBool "disable_fld_file_output" = false ∧
      env.isUltimateMaster = true ∧ params.getBool "write_fld_files" = true) ∧
    (params.getBool "write_fld_files" = false →
      NekRSProblemBase.construct params env ≠ Except.error disableAndWriteMessage ∧
      NekRSProblemBase.construct params env ≠ Except.error masterWriteMessage) ∧
    (params.getBool "write_fld_files" = true →
      params.getBool "disable_fld_file_output" = true ∨ env.isUltimateMaster = true →
        ∃ e, NekRSProblemBase.construct params env = Except.error e) := by
  have hok : ∀ (pb : NekRSProblemBase) (warnings : List String),
      NekRSProblemBase.construct params env = Except.ok (pb, warnings) →
      params.getBool "write_fld_files" = true →
        params.getBool "disable_fld_file_output" = false ∧ env.isUltimateMaster = false := by
    intro pb warnings h hw
    unfold NekRSProblemBase.construct at h
    simp only [] at h
    split at h
    · cases h
    split at h
    · cases h
    split at h
    · cases h
    rename_i c1 c2 c3
    simp only [hw, Bool.and_true, Bool.not_eq_true] at c2 c3
    exact ⟨c2, c3⟩
  have hboth : NekRSProblemBase.construct params env = Except.error disableAndWriteMessage ↔
      (env.isUltimateMaster && (params.getBool "minimize_transfers_in" ||
        params.getBool "minimize_transfers_out")) = false ∧
      params.getBool "disable_fld_file_output" = true ∧
      params.getBool "write_fld_files" = true := by
    constructor
    · intro h
      cases h1 : (env.isUltimateMaster && (params.getBool "minimize_transfers_in" ||
          params.getBool "minimize_transfers_out"))
      · by_cases h2 : (params.getBool "disable_fld_file_output" &&
            params.getBool "write_fld_files") = true
        · simp only [Bool.and_eq_true] at h2
          exact ⟨rfl, h2⟩
        · simp only [Bool.not_eq_true] at h2
          by_cases h3 : (env.isUltimateMaster && params.getBool "write_fld_files") = true
          · unfold NekRSProblemBase.construct at h
            simp only [h1, h2, h3, Bool.false_eq_true, if_false, if_true] at h
            injection h with h
            exact absurd h (by decide)
          · simp only [Bool.not_eq_true] at h3
            exact absurd rfl (construct_later_error params env _ h1 h2 h3 h).2.1
      · rw [(construct_first_check params env).2 h1] at h
        injection h with h
        exact absurd h (by decide)
    · rintro ⟨h1, h2, h3⟩
      unfold NekRSProblemBase.construct
      simp only []
      rw [if_neg (by simp [h1]), if_pos (by simp [h2, h3])]
      rfl
  have hmaster : NekRSProblemBase.construct params env = Except.error masterWriteMessage ↔
      (env.isUltimateMaster && (params.getBool "minimize_transfers_in" ||
        params.getBool "minimize_transfers_out")) = false ∧
      params.getBool "disable_fld_file_output" = false ∧
      env.isUltimateMaster = true ∧ params.getBool "write_fld_files" = true := by
    constructor
    · intro h
      cases h1 : (env.isUltimateMaster && (params.getBool "minimize_transfers_in" ||
          params.getBool "minimize_transfers_out"))
      · by_cases h2 : (params.getBool "disable_fld_file_output" &&
            params.getBool "write_fld_files") = true
        · unfold NekRSProblemBase.construct at h
          simp only [h1, h2, Bool.false_eq_true, if_false, if_true] at h
          injection h with h
          exact absurd h (by decide)
        · simp only [Bool.not_eq_true] at h2
          by_cases h3 : (env.isUltimateMaster && params.getBool "write_fld_files") = true
          · simp only [Bool.and_eq_true] at h3
            refine ⟨rfl, ?_, h3⟩
            rw [h3.2, Bool.and_true] at h2
            exact h2
          · simp only [Bool.not_eq_true] at h3
            exact absurd rfl (construct_later_error params env _ h1 h2 h3 h).2.2
      · rw [(construct_first_check params env).2 h1] at h
        injection h with h
        exact absurd h (by decide)
    · rintro ⟨h1, h2, h3, h4⟩
      unfold NekRSProblemBase.construct
      simp only []
      rw [if_neg (by simp [h1]), if_neg (by simp [h2]), if_pos (by simp [h3, h4])]
      rfl
  refine ⟨hok, hboth, hmaster, ?_, ?_⟩
  · intro hw
    constructor
    · intro h
      have := (hboth.1 h).2.2
      rw [hw] at this
      cases this
    · intro h
      have := (hmaster.1 h).2.2.2
      rw [hw] at this
      cases this
  · intro hw hor
    cases hc : NekRSProblemBase.construct params env with
    | error e => exact ⟨e, rfl⟩
    | ok r =>
      obtain ⟨pb, warnings⟩ := r
      obtain ⟨hd, hm⟩ := hok pb warnings hc hw
      rcases hor with h | h
      · rw [hd] at h; cases h
      · rw [hm] at h; cases h

/-! ## Synchronization -/

/-- C19: in build-only mode `syncSolutions` returns at once for every
direction: no transfer, no error, run state and `_external_data` unchanged.
Outside build-only mode: for `FROM_EXTERNAL_APP` it does what `extractOutputs`
does when `synchronizeOut` returns true and nothing otherwise; for
`TO_EXTERNAL_APP` it only runs `synchronizeIn` (no output extraction, no write
to the mirror fields, whatever `synchronizeIn` returns); any other direction
value is the fatal error `Unhandled Transfer::DIRECTION enum`. -/
theorem syncSolutions_dispatch (pb : Nat → NekRSProblemBase) (nek : Nat → NekInterface)
    (self : Nat) (env : RunEnv) (s : RunState) :
    (env.buildOnly = true → ∀ direction : Direction,
      syncSolutions pb nek self env s direction = ⟨s, (pb self).external_data, [], none⟩) ∧
    (env.buildOnly = false →
      ((pb self).synchronizeOut env s = true →
        syncSolutions pb nek self env s Direction.FROM_EXTERNAL_APP =
          ⟨s, (extractOutputs pb nek self).external_data,
            (extractOutputs pb nek self).transfers, (extractOutputs pb nek self).error⟩) ∧
      ((pb self).synchronizeOut env s = false →
        syncSolutions pb nek self env s Direction.FROM_EXTERNAL_APP =
          ⟨s, (pb self).external_data, [], none⟩) ∧
      syncSolutions pb nek self env s Direction.TO_EXTERNAL_APP =
        ⟨((pb self).synchronizeIn s).2.1, (pb self).external_data, [],
          ((pb self).synchronizeIn s).2.2⟩ ∧
      (∀ raw : Int, syncSolutions pb nek self env s (Direction.other raw) =
        ⟨s, (pb self).external_data, [], some "Unhandled Transfer::DIRECTION enum!"⟩)) := by
  constructor
  · intro h direction
    unfold syncSolutions
    rw [if_pos h]
  · intro h
    refine ⟨?_, ?_, ?_, ?_⟩
    · intro hs
      unfold syncSolutions
      simp [h, hs]
    · intro hs
      unfold syncSolutions
      simp [h, hs]
    · unfold syncSolutions
      simp [h]
    · intro raw
      unfold syncSolutions
      simp [h]

/-! ## Initial setup -/

/-- C20: `initialSetup` stops on a fatal error, before any call to the stepper
or the solver, whenever the start time of the executioner is nonzero. With a
start time of zero and a `NekTimeStepper`, a solver start time that is not
fuzzy-equal to it gives one warning, no error, and the stored start time becomes
the executioner's (with another time stepper the setup has already stopped on
the error of the stepper check). After every `initialSetup` without error the
executioner is transient with start time zero and, the tolerance being
non-negative, the stored start time is within the tolerance of it. -/
theorem initialSetup_start_time (pb : NekRSProblemBase) (env : SetupEnv) (s : RunState)
    (htol : 0 ≤ env.fuzzy_tol) :
    (∀ t0 : ℚ, env.transient = some t0 → t0 ≠ 0 →
      (pb.initialSetup env s).error =
        some ("You specified a start time of " ++ env.stringify t0 ++
          ", but a non-zero start time is not yet supported for \x27" ++ pb.type ++ "\x27!") ∧
      (pb.initialSetup env s).calls = [] ∧ (pb.initialSetup env s).warnings = [] ∧
      (pb.initialSetup env s).problem.start_time = pb.start_time) ∧
    (env.transient = some 0 → env.isNekTimeStepper = true →
      absoluteFuzzyEqual 0 pb.start_time env.fuzzy_tol = false →
        (pb.initialSetup env s).error = none ∧
        (pb.initialSetup env s).warnings.length = 1 ∧
        (pb.initialSetup env s).problem.start_time = 0) ∧
    (env.transient = some 0 → env.isNekTimeStepper = false →
      (pb.initialSetup env s).error =
        some ("The \x27NekTimeStepper\x27 stepper must be used with \x27" ++ pb.type ++
          "\x27, but you have specified the \x27" ++ env.stepper_type ++ "\x27 time stepper!") ∧
      (pb.initialSetup env s).warnings = []) ∧
    ((pb.initialSetup env s).error = none →
      env.transient = some 0 ∧
      |(0 : ℚ) - (pb.initialSetup env s).problem.start_time| ≤ env.fuzzy_tol ∧
      absoluteFuzzyEqual 0 (pb.initialSetup env s).problem.start_time env.fuzzy_tol = true) := by
  refine ⟨?_, ?_, ?_, ?_⟩
  · intro t0 ht h0
    unfold NekRSProblemBase.initialSetup
    simp [ht, h0]
  · intro ht hst hfz
    unfold NekRSProblemBase.initialSetup
    simp [ht, hst, hfz]
  · intro ht hst
    unfold NekRSProblemBase.initialSetup
    simp [ht, hst]
  · intro herr
    unfold NekRSProblemBase.initialSetup at herr ⊢
    cases ht : env.transient with
    | none => rw [ht] at herr; simp at herr
    | some t0 =>
      rw [ht] at herr
      simp only [] at herr ⊢
      by_cases h0 : t0 = 0
      · subst h0
        by_cases hst : env.isNekTimeStepper = true
        · by_cases hfz : absoluteFuzzyEqual 0 pb.start_time env.fuzzy_tol = true
          · have hfz' := hfz
            unfold absoluteFuzzyEqual at hfz'
            simp only [decide_eq_true_eq] at hfz'
            have hfz'' : |pb.start_time| ≤ env.fuzzy_tol := by simpa using hfz'
            simp [hst, hfz, hfz'']
          · simp only [Bool.not_eq_true] at hfz
            rw [if_neg (by simp), if_neg (by simp [hst]), if_pos (by simp [hfz])]
            simp [absoluteFuzzyEqual, htol]
        · simp only [Bool.not_eq_true] at hst
          simp [hst] at herr
      · simp [h0] at herr

/-! ## The later theorems at the sample configuration -/

theorem extractOutputs_unhandled_witness :
    (sampleUnhandled 0).outputs.isSome = true ∧
    "flux" ∈ (sampleUnhandled 0).var_names ∧
    "flux" ∉ ["temp", "P", "vel_x", "vel_y", "vel_z"] ∧
    (extractOutputs sampleUnhandled sampleNek 0).error =
      some "Unhandled NekFieldEnum in NekRSProblemBase!" ∧
    (∀ t, t ∈ (extractOutputs sampleUnhandled sampleNek 0).transfers →
      t.name ∈ ["temp", "P", "vel_x", "vel_y", "vel_z"] ∧ t.name ≠ "flux") :=
  have h1 : "flux" ∈ (sampleUnhandled 0).var_names := by decide
  have h2 : "flux" ∉ ["temp", "P", "vel_x", "vel_y", "vel_z"] := by decide
  ⟨rfl, h1, h2, extractOutputs_unhandled sampleUnhandled sampleNek 0 "flux" rfl h1 h2⟩

theorem temperature_requires_solver_field_witness :
    (sampleProblem 0).outputs = some ["temperature", "velocity"] ∧
    "temperature" ∈ ["temperature", "velocity"] ∧
    (sampleProblem 0).addExternalVariables false String.length =
      Except.error ("Cannot set \x27output = temperature\x27 for \x27" ++ (sampleProblem 0).type ++
        "\x27 because your Nek case files do not have a temperature variable!") :=
  have h : "temperature" ∈ ["temperature", "velocity"] := by decide
  ⟨rfl, h,
    (temperature_requires_solver_field (sampleProblem 0) ["temperature", "velocity"]
      String.length rfl h).2.1⟩

theorem sample_step_accepted : ¬ sampleRunState.dt < sampleRunEnv.minDT := by
  have h1 : sampleRunState.dt = 1 / 2 := rfl
  have h2 : sampleRunEnv.minDT = 1 / 100 := rfl
  rw [h1, h2]
  norm_num

theorem field_file_written_once_witness :
    sampleRunEnv.buildOnly = false ∧ ¬ sampleRunState.dt < sampleRunEnv.minDT ∧
    ((((sampleProblem 0).externalSolve sampleRunEnv sampleRunState).calls ++
        (sampleProblem 0).destructor sampleRunEnv
          ((sampleProblem 0).externalSolve sampleRunEnv sampleRunState).state).filter
      NekCall.isFieldFileWrite).length =
      (if (sampleProblem 0).disable_fld_file_output = true then 0 else 1) :=
  ⟨rfl, sample_step_accepted,
    (field_file_written_once (sampleProblem 0) sampleRunEnv sampleRunState rfl
      sample_step_accepted).2.2⟩

theorem fieldFilePrefix_format_witness :
    1234 < 2600 ∧
    (fieldFilePrefix 1234 =
      String.mk [Char.ofNat (97 + 1234 / 100), Char.ofNat (48 + 1234 % 100 / 10),
        Char.ofNat (48 + 1234 % 100 % 10)] ∧
    (fieldFilePrefix 1234).length = 3 ∧
    fieldFilePrefix 1 = "a01" ∧ fieldFilePrefix 99 = "a99" ∧
    fieldFilePrefix 101 = "b01" ∧ fieldFilePrefix 199 = "b99") :=
  ⟨by decide, fieldFilePrefix_format 1234 (by decide)⟩

theorem externalSolve_order_witness :
    sampleRunEnv.buildOnly = false ∧ ¬ sampleRunState.dt < sampleRunEnv.minDT ∧
    ((sampleProblem 0).externalSolve sampleRunEnv sampleRunState).error = none ∧
    ((sampleProblem 0).externalSolve sampleRunEnv sampleRunState).state.time =
      roundDouble (sampleRunState.time + sampleRunState.dt) :=
  ⟨rfl, sample_step_accepted,
    (externalSolve_order (sampleProblem 0) sampleRunEnv sampleRunState rfl
      sample_step_accepted).1,
    (externalSolve_order (sampleProblem 0) sampleRunEnv sampleRunState rfl
      sample_step_accepted).2.2.2.1⟩

theorem sample_tolerance : 0 ≤ sampleSetupEnv.fuzzy_tol := by
  have h : sampleSetupEnv.fuzzy_tol = 1 / 1000000000000 := rfl
  rw [h]
  norm_num

theorem initialSetup_start_time_witness :
    0 ≤ sampleSetupEnv.fuzzy_tol ∧
    (((sampleProblem 0).initialSetup sampleSetupEnv sampleRunState).error = none →
      sampleSetupEnv.transient = some 0 ∧
      |(0 : ℚ) - ((sampleProblem 0).initialSetup sampleSetupEnv sampleRunState).problem.start_time|
        ≤ sampleSetupEnv.fuzzy_tol ∧
      absoluteFuzzyEqual 0
        ((sampleProblem 0).initialSetup sampleSetupEnv sampleRunState).problem.start_time
        sampleSetupEnv.fuzzy_tol = true) :=
  ⟨sample_tolerance,
    (initialSetup_start_time (sampleProblem 0) sampleSetupEnv sampleRunState
      sample_tolerance).2.2.2⟩

/-! ## Joint parameters -/

theorem foldl_append_data (q : String → String) :
    ∀ (l : List String) (acc : String),
      (l.foldl (fun s x => s ++ q x) acc).data = acc.data ++ l.flatMap fun x => (q x).data := by
  intro l
  induction l with
  | nil => intro acc; simp
  | cons a t ih => intro acc; simp [ih, List.append_assoc]

theorem intercalate_go_data (sep : String) :
    ∀ (l : List String) (acc : String),
      (String.intercalate.go acc sep l).data =
        acc.data ++ l.flatMap fun x => sep.data ++ x.data := by
  intro l
  induction l with
  | nil => intro acc; simp [String.intercalate.go]
  | cons a t ih => intro acc; simp [String.intercalate.go, ih, List.append_assoc]

theorem flatMap_shift_sep {β : Type} (Y : β → List Char) (c : Char) :
    ∀ (t : List β) (X : List Char),
      X ++ [c] ++ t.flatMap (fun x => Y x ++ [c]) =
        (X ++ t.flatMap fun x => [c] ++ Y x) ++ [c] := by
  intro t
  induction t with
  | nil => intro X; simp
  | cons a t ih =>
    intro X
    have h := ih (X ++ [c] ++ Y a)
    simp only [List.flatMap_cons, List.append_assoc] at h ⊢
    exact h

theorem checkJointParams_loop_eq (p : InputParameters) :
    ∀ (l : List String) (acc : String) (a b : Bool),
      l.foldl
          (fun (st : String × Bool × Bool) s =>
            let name_list := st.1 ++ (" \x27" ++ s ++ "\x27,")
            if p.isParamValid s then (name_list, true, st.2.2) else (name_list, st.2.1, true))
          (acc, a, b) =
        (l.foldl (fun s x => s ++ (" \x27" ++ x ++ "\x27,")) acc,
          a || l.any fun s => p.isParamValid s,
          b || l.any fun s => !p.isParamValid s) := by
  intro l
  induction l with
  | nil => intro acc a b; simp
  | cons x t ih =>
    intro acc a b
    simp only [List.foldl_cons, List.any_cons]
    by_cases hx : p.isParamValid x = true
    · simp only [hx, if_true, ih]
      simp
    · simp only [hx, if_false, ih]
      simp [hx]

theorem pop_back_name_list (l : List String) (hl : l ≠ []) :
    pop_back (l.foldl (fun s x => s ++ (" \x27" ++ x ++ "\x27,")) "") =
      ",".intercalate (l.map fun s => " \x27" ++ s ++ "\x27") := by
  cases l with
  | nil => exact absurd rfl hl
  | cons a t =>
    apply String.ext
    unfold pop_back
    simp only [List.map_cons, String.intercalate]
    rw [foldl_append_data (fun x => " \x27" ++ x ++ "\x27,"), intercalate_go_data]
    have e1 : ∀ x : String, (" \x27" ++ x ++ "\x27,").data = (" \x27" ++ x ++ "\x27").data ++ [','] := by
      intro x; simp [String.data_append]
    simp only [e1]
    have h := flatMap_shift_sep (fun x : String => (" \x27" ++ x ++ "\x27").data) ','
      t (" \x27" ++ a ++ "\x27").data
    simp only [List.flatMap_cons, String.data_append, List.nil_append] at h ⊢
    rw [h, List.dropLast_concat, List.flatMap_map]
    rfl

/-- C21: the function `checkJointParams` stops on a fatal error exactly when
one of the names is a valid parameter and another is not; it returns normally
when all names are valid, when none is, and for the empty list; the message of
the error is `When <explanation>, the` followed by the names, each preceded by
a blank and put between quotes, joined by commas with no comma after the last,
followed by the fixed tail. -/
theorem checkJointParams_mixed (p : InputParameters) (names : List String)
    (explanation : String) :
    (((∃ s, s ∈ names ∧ p.isParamValid s = true) ∧
        (∃ s, s ∈ names ∧ p.isParamValid s = false)) →
      checkJointParams p names explanation =
        Except.error ("When " ++ explanation ++ ", the" ++
          ",".intercalate (names.map fun s => " \x27" ++ s ++ "\x27") ++
          " parameters\nmust either ALL " ++
          "be specified or ALL omitted; you have only provided a subset of parameters!")) ∧
    (¬ ((∃ s, s ∈ names ∧ p.isParamValid s = true) ∧
        (∃ s, s ∈ names ∧ p.isParamValid s = false)) →
      checkJointParams p names explanation = Except.ok ()) ∧
    ((∀ s, s ∈ names → p.isParamValid s = true) →
      checkJointParams p names explanation = Except.ok ()) ∧
    ((∀ s, s ∈ names → p.isParamValid s = false) →
      checkJointParams p names explanation = Except.ok ()) ∧
    checkJointParams p [] explanation = Except.ok () := by
  have hloop : checkJointParams_loop p names =
      (names.foldl (fun s x => s ++ (" \x27" ++ x ++ "\x27,")) "",
        names.any fun s => p.isParamValid s, names.any fun s => !p.isParamValid s) := by
    unfold checkJointParams_loop
    rw [checkJointParams_loop_eq]
    simp
  have hok : ¬ ((∃ s, s ∈ names ∧ p.isParamValid s = true) ∧
        (∃ s, s ∈ names ∧ p.isParamValid s = false)) →
      checkJointParams p names explanation = Except.ok () := by
    intro h
    unfold checkJointParams
    simp only [hloop]
    rw [if_neg]
    intro hb
    apply h
    simp only [Bool.and_eq_true, List.any_eq_true, Bool.not_eq_true'] at hb
    exact hb
  refine ⟨?_, hok, ?_, ?_, ?_⟩
  · intro h
    have hne : names ≠ [] := by
      obtain ⟨⟨s, hs, _⟩, _⟩ := h
      intro h0
      rw [h0] at hs
      cases hs
    unfold checkJointParams
    simp only [hloop]
    rw [if_pos, pop_back_name_list names hne]
    simp only [Bool.and_eq_true, List.any_eq_true, Bool.not_eq_true']
    exact h
  · intro h
    apply hok
    rintro ⟨_, s, hs, hv⟩
    rw [h s hs] at hv
    cases hv
  · intro h
    apply hok
    rintro ⟨⟨s, hs, hv⟩, _⟩
    rw [h s hs] at hv
    cases hv
  · rfl

theorem sample_joint_message :
    checkJointParams jointParams ["a", "b"] "testing" =
      Except.error ("When testing, the \x27a\x27, \x27b\x27 parameters\nmust either ALL " ++
        "be specified or ALL omitted; you have only provided a subset of parameters!") := rfl

theorem checkJointParams_mixed_witness :
    ((∃ s, s ∈ ["a", "b"] ∧ jointParams.isParamValid s = true) ∧
        (∃ s, s ∈ ["a", "b"] ∧ jointParams.isParamValid s = false)) ∧
      checkJointParams jointParams ["a", "b"] "testing" =
        Except.error ("When " ++ "testing" ++ ", the" ++
          ",".intercalate (["a", "b"].map fun s => " \x27" ++ s ++ "\x27") ++
          " parameters\nmust either ALL " ++
          "be specified or ALL omitted; you have only provided a subset of parameters!") :=
  ⟨⟨⟨"a", by simp, rfl⟩, ⟨"b", by simp, rfl⟩⟩,
    (checkJointParams_mixed jointParams ["a", "b"] "testing").1
      ⟨⟨"a", by simp, rfl⟩, ⟨"b", by simp, rfl⟩⟩⟩

/-! ## The time step: minimum step, synchronization, output steps -/

/-- C22: outside build-only mode, an `externalSolve` whose `_dt` is strictly
below the minimum step of the time stepper stops on the fatal error before
anything else: no call into the solver is made (no step, no hook, no copy, no
field file) and the run state, driver time included, is the one it was entered
with; with `_dt` at or above the minimum, `externalSolve` raises no error. -/
theorem externalSolve_min_dt (pb : NekRSProblemBase) (env : RunEnv) (s : RunState) :
    (env.buildOnly = false → s.dt < env.minDT →
      pb.externalSolve env s =
        ⟨s, [], some ("Requested time step of " ++ env.to_string s.dt ++
          " is smaller than the minimum time step of " ++ env.stringify env.minDT ++
          " allowed in NekRS!\n\nYou can control this behavior with the \x27min_dt\x27 " ++
          "parameter on \x27NekTimeStepper\x27.")⟩ ∧
      (pb.externalSolve env s).calls = [] ∧
      (pb.externalSolve env s).state.time = s.time) ∧
    (env.minDT ≤ s.dt → (pb.externalSolve env s).error = none) := by
  constructor
  · intro hrun hlt
    have h : pb.externalSolve env s =
        ⟨s, [], some ("Requested time step of " ++ env.to_string s.dt ++
          " is smaller than the minimum time step of " ++ env.stringify env.minDT ++
          " allowed in NekRS!\n\nYou can control this behavior with the \x27min_dt\x27 " ++
          "parameter on \x27NekTimeStepper\x27.")⟩ := by
      unfold NekRSProblemBase.externalSolve
      simp only [hrun, Bool.false_eq_true, if_false, if_pos hlt]
    exact ⟨h, by rw [h], by rw [h]⟩
  · intro hge
    unfold NekRSProblemBase.externalSolve
    by_cases hb : env.buildOnly = true
    · simp only [hb, if_true]
    · simp only [hb, if_false, if_neg (not_lt.2 hge), Bool.false_eq_true]

/-- C23: the member function `synchronizeIn`. With `minimize_transfers_in`
unset it returns true, raises nothing and leaves the postprocessor value as it
was. With it set, a call that does not raise returns true exactly when the
value is nonzero, leaves the value at zero in either case, and the call that
follows it on the state it left neither raises nor returns true when the first
one returned true; the call made while `first` holds with the value zero raises
the fatal error and leaves the state alone; a call made once `first` is cleared
with the value zero returns false without raising. -/
theorem synchronizeIn_consumes_flag (pb : NekRSProblemBase) (s : RunState) :
    (pb.minimize_transfers_in = false →
      (pb.synchronizeIn s).1 = true ∧ (pb.synchronizeIn s).2.2 = none ∧
      (pb.synchronizeIn s).2.1.transfer_in = s.transfer_in) ∧
    (pb.minimize_transfers_in = true → (pb.synchronizeIn s).2.2 = none →
      ((pb.synchronizeIn s).1 = true ↔ s.transfer_in ≠ 0) ∧
      (pb.synchronizeIn s).2.1.transfer_in = 0 ∧
      (pb.synchronizeIn s).2.1.first = false ∧
      (pb.synchronizeIn (pb.synchronizeIn s).2.1).2.2 = none ∧
      ¬ ((pb.synchronizeIn s).1 = true ∧
        (pb.synchronizeIn (pb.synchronizeIn s).2.1).1 = true)) ∧
    (pb.minimize_transfers_in = true → s.first = true → s.transfer_in = 0 →
      (pb.synchronizeIn s).2.2 =
        some ("The default value for the \x27transfer_in\x27 postprocessor received " ++
          "by nekRS must not be false! Make sure that the master application\x27s " ++
          "postprocessor is not zero.") ∧
      (pb.synchronizeIn s).2.1 = s) ∧
    (pb.minimize_transfers_in = true → s.first = false → s.transfer_in = 0 →
      pb.synchronizeIn s = (false, s, none)) := by
  refine ⟨?_, ?_, ?_, ?_⟩
  · intro h
    simp [NekRSProblemBase.synchronizeIn, h]
  · intro h herr
    by_cases hz : s.transfer_in = 0
    · by_cases hf : s.first = true
      · simp [NekRSProblemBase.synchronizeIn, h, hz, hf] at herr
      · simp [NekRSProblemBase.synchronizeIn, h, hz, hf]
    · simp [NekRSProblemBase.synchronizeIn, h, hz]
  · intro h hf hz
    simp [NekRSProblemBase.synchronizeIn, h, hz, hf]
  · intro h hf hz
    cases s
    simp only at hf hz
    subst hf hz
    simp [NekRSProblemBase.synchronizeIn, h]

/-- C25: the member function `isOutputStep` returns
`(isUltimateMaster and lastStep) or outputStep`; when the application is not the
ultimate master its result is the output-interval test of the solver alone,
whatever the last-step test says. -/
theorem isOutputStep_formula (env : RunEnv) (s : RunState) :
    NekRSProblemBase.isOutputStep env s =
      ((env.isUltimateMaster && env.lastStep (env.nondimensionalDT s.time) s.t_step) ||
        env.outputStep (env.nondimensionalDT s.time) s.t_step) ∧
    (env.isUltimateMaster = false →
      NekRSProblemBase.isOutputStep env s =
        env.outputStep (env.nondimensionalDT s.time) s.t_step) ∧
    (env.isUltimateMaster = true →
      env.lastStep (env.nondimensionalDT s.time) s.t_step = true →
      NekRSProblemBase.isOutputStep env s = true) := by
  unfold NekRSProblemBase.isOutputStep
  refine ⟨?_, ?_, ?_⟩
  · by_cases h : (env.isUltimateMaster && env.lastStep (env.nondimensionalDT s.time) s.t_step) = true
    · simp [h]
    · rw [if_neg h]
      simp only [Bool.not_eq_true] at h
      rw [h, Bool.false_or]
  · intro h
    simp [h]
  · intro h1 h2
    simp [h1, h2]

theorem small_step_rejected : smallStepState.dt < sampleRunEnv.minDT := by
  have h1 : smallStepState.dt = 1 / 1000 := rfl
  have h2 : sampleRunEnv.minDT = 1 / 100 := rfl
  rw [h1, h2]
  norm_num

theorem sample_flag_nonzero : sampleRunState.transfer_in ≠ 0 := by
  have h1 : sampleRunState.transfer_in = 1 := rfl
  rw [h1]
  norm_num

theorem sample_first_sync : (minimizingProblem.synchronizeIn sampleRunState).2.2 = none := by
  unfold NekRSProblemBase.synchronizeIn
  have h : minimizingProblem.minimize_transfers_in = true := rfl
  simp only [h, if_true, sample_flag_nonzero, decide_False, Bool.and_false, Bool.false_eq_true,
    if_false]

theorem sample_at_target : |sampleRunState.time - sampleRunEnv.targetTime| ≤ sampleRunEnv.timestepTol := by
  have h1 : sampleRunState.time = 1 := rfl
  have h2 : sampleRunEnv.targetTime = 1 := rfl
  have h3 : sampleRunEnv.timestepTol = 1 / 1000000 := rfl
  rw [h1, h2, h3]
  norm_num

theorem externalSolve_min_dt_witness :
    sampleRunEnv.buildOnly = false ∧ smallStepState.dt < sampleRunEnv.minDT ∧
    ((sampleProblem 0).externalSolve sampleRunEnv smallStepState).calls = [] ∧
    ((sampleProblem 0).externalSolve sampleRunEnv smallStepState).state.time =
      smallStepState.time :=
  ⟨rfl, small_step_rejected,
    ((externalSolve_min_dt (sampleProblem 0) sampleRunEnv smallStepState).1 rfl
      small_step_rejected).2⟩

theorem synchronizeIn_consumes_flag_witness :
    minimizingProblem.minimize_transfers_in = true ∧
    (minimizingProblem.synchronizeIn sampleRunState).2.2 = none ∧
    ¬ ((minimizingProblem.synchronizeIn sampleRunState).1 = true ∧
      (minimizingProblem.synchronizeIn
        (minimizingProblem.synchronizeIn sampleRunState).2.1).1 = true) :=
  ⟨rfl, sample_first_sync,
    ((synchronizeIn_consumes_flag minimizingProblem sampleRunState).2.1 rfl
      sample_first_sync).2.2.2.2⟩

theorem isOutputStep_formula_witness :
    sampleRunEnv.isUltimateMaster = false ∧
    NekRSProblemBase.isOutputStep sampleRunEnv sampleRunState =
      sampleRunEnv.outputStep (sampleRunEnv.nondimensionalDT sampleRunState.time)
        sampleRunState.t_step :=
  ⟨rfl, (isOutputStep_formula sampleRunEnv sampleRunState).2.1 rfl⟩

/-! ## The write cursor of the face loop -/

theorem storesAt_append : ∀ (a b : List ℚ) (c : Nat),
    storesAt c (a ++ b) = storesAt c a ++ storesAt (c + a.length) b := by
  intro a
  induction a with
  | nil => intro b c; simp [storesAt]
  | cons x t ih =>
    intro b c
    have e : c + 1 + t.length = c + (t.length + 1) := by omega
    rw [List.cons_append, storesAt, storesAt, ih, List.length_cons, e, List.cons_append]

theorem storesAt_positions : ∀ (vs : List ℚ) (c : Nat),
    (storesAt c vs).map Prod.fst = List.range' c vs.length := by
  intro vs
  induction vs with
  | nil => intro c; rfl
  | cons x t ih => intro c; simp [storesAt, ih, List.range'_succ]

theorem writeAt_eq_stores : ∀ (vs : List ℚ) (buf : List ℚ) (c : Nat),
    writeAt buf c vs = (storesAt c vs).foldl (fun b pv => b.set pv.1 pv.2) buf := by
  intro vs
  induction vs with
  | nil => intro buf c; rfl
  | cons x t ih => intro buf c; simp [writeAt, storesAt, ih]

theorem stores_foldl (owned : Nat → Prop) [DecidablePred owned] (vals : Nat → List ℚ) (P : Nat)
    (hP : ∀ k, (vals k).length = P) :
    ∀ (l : List Nat) (acc : List (Nat × ℚ)) (c : Nat),
      l.foldl
          (fun (st : List (Nat × ℚ) × Nat) k =>
            if owned k then (st.1 ++ storesAt st.2 (vals k), st.2 + P) else st)
          (acc, c) =
        (acc ++ storesAt c ((l.filter fun k => decide (owned k)).flatMap vals),
          c + P * (l.filter fun k => decide (owned k)).length) := by
  intro l
  induction l with
  | nil => intro acc c; simp [storesAt]
  | cons a t ih =>
    intro acc c
    by_cases ha : owned a
    · simp only [List.foldl_cons, ha, if_true, List.filter_cons, decide_True, List.flatMap_cons,
        List.length_cons, ih, storesAt_append, hP, List.append_assoc, Prod.mk.injEq, true_and]
      ring
    · simp only [List.foldl_cons, ha, if_false, List.filter_cons, decide_False, ih,
        Bool.false_eq_true]

theorem extract_eq_stores (owned : Nat → Prop) [DecidablePred owned] (vals : Nat → List ℚ)
    (P : Nat) :
    ∀ (l : List Nat) (buf : List ℚ) (acc : List (Nat × ℚ)) (c : Nat),
      l.foldl
          (fun (st : List ℚ × Nat) k =>
            if owned k then (writeAt st.1 st.2 (vals k), st.2 + P) else st)
          (acc.foldl (fun b pv => b.set pv.1 pv.2) buf, c) =
        (((l.foldl
            (fun (st : List (Nat × ℚ) × Nat) k =>
              if owned k then (st.1 ++ storesAt st.2 (vals k), st.2 + P) else st)
            (acc, c)).1).foldl (fun b pv => b.set pv.1 pv.2) buf,
          (l.foldl
            (fun (st : List (Nat × ℚ) × Nat) k =>
              if owned k then (st.1 ++ storesAt st.2 (vals k), st.2 + P) else st)
            (acc, c)).2) := by
  intro l
  induction l with
  | nil => intro buf acc c; rfl
  | cons a t ih =>
    intro buf acc c
    by_cases ha : owned a
    · simp only [List.foldl_cons, ha, if_true]
      rw [writeAt_eq_stores, ← List.foldl_append]
      exact ih buf _ _
    · simp only [List.foldl_cons, ha, if_false]
      exact ih buf acc c

theorem flatMap_getD_block (G : Nat → List ℚ) (P : Nat) (hG : ∀ k, (G k).length = P)
    (l : List Nat) (j v : Nat) (hj : j < l.length) (hv : v < P) :
    (l.flatMap G).getD (j * P + v) 0 = (G (l.getD j 0)).getD v 0 := by
  have h1 : l.flatMap G = (List.range l.length).flatMap fun i => G (l.getD i 0) := by
    conv_lhs => rw [← map_getD_range l]
    rw [List.flatMap_map]
  rw [h1, List.getD_eq_getElem?_getD, List.getD_eq_getElem?_getD,
    flatMap_range_getElem? (fun i => G (l.getD i 0)) P l.length (fun k _ => hG _) j v hj hv]

/-- C26: in the face loop of `boundarySolution`, when `n_faces` is the number
of table entries owned by the calling rank (and, without interpolation, the
mirror face has `(order + 2)² = 4` points), with `P = (order + 2)²`: the stores
into the buffer of `n_faces * P` entries go, in program order, to the positions
`0, 1, ..., n_faces * P - 1`, so every store is below `n_faces * P` and every
entry is stored to exactly once; the cursor ends at `n_faces * P`; the buffer
is the result of these stores and entry `j * P + v` holds value `v` of the
`j`-th owned table entry; without interpolation every read of the index table
is inside its four entries; a rank owning no face has an empty buffer and makes
no store. -/
theorem boundarySolution_cursor (pb : NekRSProblemBase) (nek : NekInterface)
    (field : NekFieldEnum)
    (hn : pb.nek_mesh.boundaryCoupling.n_faces =
      ((List.range pb.nek_mesh.boundaryCoupling.total_n_faces).filter fun k =>
        decide (pb.nek_mesh.boundaryCoupling.process.getD k 0 = nek.commRank)).length)
    (hfast : pb.needs_interpolation = false →
      (pb.nek_mesh.order + 2) * (pb.nek_mesh.order + 2) = 4) :
    (pb.boundarySolution_stores nek field).1.map Prod.fst =
      List.range (pb.nek_mesh.boundaryCoupling.n_faces *
        ((pb.nek_mesh.order + 2) * (pb.nek_mesh.order + 2))) ∧
    (∀ p, p ∈ (pb.boundarySolution_stores nek field).1.map Prod.fst →
      p < pb.nek_mesh.boundaryCoupling.n_faces *
        ((pb.nek_mesh.order + 2) * (pb.nek_mesh.order + 2))) ∧
    (pb.boundarySolution_stores nek field).2 =
      pb.nek_mesh.boundaryCoupling.n_faces *
        ((pb.nek_mesh.order + 2) * (pb.nek_mesh.order + 2)) ∧
    (pb.boundarySolution_extract nek field).2 =
      pb.nek_mesh.boundaryCoupling.n_faces *
        ((pb.nek_mesh.order + 2) * (pb.nek_mesh.order + 2)) ∧
    (pb.boundarySolution_extract nek field).1 =
      (pb.boundarySolution_stores nek field).1.foldl (fun b pv => b.set pv.1 pv.2)
        (List.replicate (pb.nek_mesh.boundaryCoupling.n_faces *
          ((pb.nek_mesh.order + 2) * (pb.nek_mesh.order + 2))) 0) ∧
    (pb.boundarySolution_extract nek field).1.length =
      pb.nek_mesh.boundaryCoupling.n_faces *
        ((pb.nek_mesh.order + 2) * (pb.nek_mesh.order + 2)) ∧
    (∀ j v, j < pb.nek_mesh.boundaryCoupling.n_faces →
      v < (pb.nek_mesh.order + 2) * (pb.nek_mesh.order + 2) →
      (pb.boundarySolution_extract nek field).1.getD
          (j * ((pb.nek_mesh.order + 2) * (pb.nek_mesh.order + 2)) + v) 0 =
        (pb.boundarySolution_face nek field
          (((List.range pb.nek_mesh.boundaryCoupling.total_n_faces).filter fun k =>
            decide (pb.nek_mesh.boundaryCoupling.process.getD k 0 = nek.commRank)).getD j 0)).getD
          v 0) ∧
    (pb.needs_interpolation = false →
      ∀ v, v < (pb.nek_mesh.order + 2) * (pb.nek_mesh.order + 2) →
        v < (boundarySolution_indices (nek.entireMesh.Nq : Int)).length) ∧
    (pb.nek_mesh.boundaryCoupling.n_faces = 0 →
      pb.boundarySolution_extract nek field = ([], 0) ∧
      pb.boundarySolution_stores nek field = ([], 0)) := by
  have hP := fun k => boundarySolution_face_length pb nek field k
  have hs := stores_foldl
    (fun k => pb.nek_mesh.boundaryCoupling.process.getD k 0 = nek.commRank)
    (fun k => pb.boundarySolution_face nek field k)
    ((pb.nek_mesh.order + 2) * (pb.nek_mesh.order + 2)) hP
    (List.range pb.nek_mesh.boundaryCoupling.total_n_faces) [] 0
  have he := extract_foldl
    (fun k => pb.nek_mesh.boundaryCoupling.process.getD k 0 = nek.commRank)
    (fun k => pb.boundarySolution_face nek field k)
    ((pb.nek_mesh.order + 2) * (pb.nek_mesh.order + 2)) hP
    (List.range pb.nek_mesh.boundaryCoupling.total_n_faces) []
    (pb.nek_mesh.boundaryCoupling.n_faces * ((pb.nek_mesh.order + 2) * (pb.nek_mesh.order + 2)))
    (by rw [hn, Nat.mul_comm])
  have hl := extract_eq_stores
    (fun k => pb.nek_mesh.boundaryCoupling.process.getD k 0 = nek.commRank)
    (fun k => pb.boundarySolution_face nek field k)
    ((pb.nek_mesh.order + 2) * (pb.nek_mesh.order + 2))
    (List.range pb.nek_mesh.boundaryCoupling.total_n_faces)
    (List.replicate (pb.nek_mesh.boundaryCoupling.n_faces *
      ((pb.nek_mesh.order + 2) * (pb.nek_mesh.order + 2))) 0) [] 0
  have hflat := flatMap_length_const (fun k => pb.boundarySolution_face nek field k)
    ((pb.nek_mesh.order + 2) * (pb.nek_mesh.order + 2))
    ((List.range pb.nek_mesh.boundaryCoupling.total_n_faces).filter fun k =>
      decide (pb.nek_mesh.boundaryCoupling.process.getD k 0 = nek.commRank))
    (fun b _ => hP b)
  have hs' : pb.boundarySolution_stores nek field =
      (storesAt 0 (((List.range pb.nek_mesh.boundaryCoupling.total_n_faces).filter fun k =>
          decide (pb.nek_mesh.boundaryCoupling.process.getD k 0 = nek.commRank)).flatMap
          fun k => pb.boundarySolution_face nek field k),
        pb.nek_mesh.boundaryCoupling.n_faces *
          ((pb.nek_mesh.order + 2) * (pb.nek_mesh.order + 2))) := by
    unfold NekRSProblemBase.boundarySolution_stores
    simp only []
    rw [hs, hn]
    simp [Nat.mul_comm]
  have he' : pb.boundarySolution_extract nek field =
      (((List.range pb.nek_mesh.boundaryCoupling.total_n_faces).filter fun k =>
          decide (pb.nek_mesh.boundaryCoupling.process.getD k 0 = nek.commRank)).flatMap
          fun k => pb.boundarySolution_face nek field k,
        pb.nek_mesh.boundaryCoupling.n_faces *
          ((pb.nek_mesh.order + 2) * (pb.nek_mesh.order + 2))) := by
    unfold NekRSProblemBase.boundarySolution_extract
    simp only []
    simp only [List.nil_append, List.length_nil] at he
    rw [he, hn]
    simp [Nat.mul_comm]
  have hpos : (pb.boundarySolution_stores nek field).1.map Prod.fst =
      List.range (pb.nek_mesh.boundaryCoupling.n_faces *
        ((pb.nek_mesh.order + 2) * (pb.nek_mesh.order + 2))) := by
    rw [hs', storesAt_positions, hflat, ← hn, List.range_eq_range']
  refine ⟨hpos, ?_, ?_, ?_, ?_, ?_, ?_, ?_, ?_⟩
  · intro p hp
    rw [hpos] at hp
    exact List.mem_range.1 hp
  · rw [hs']
  · rw [he']
  · have h := hl
    simp only [List.foldl_nil] at h
    unfold NekRSProblemBase.boundarySolution_extract NekRSProblemBase.boundarySolution_stores
    simp only []
    rw [h]
  · rw [he', hflat, ← hn]
  · intro j v hj hv
    rw [he']
    exact flatMap_getD_block (fun k => pb.boundarySolution_face nek field k) _ hP _ j v
      (by rw [← hn]; exact hj) hv
  · intro hni v hv
    rw [hfast hni] at hv
    exact hv
  · intro h0
    rw [he', hs']
    have hnil : ((List.range pb.nek_mesh.boundaryCoupling.total_n_faces).filter fun k =>
        decide (pb.nek_mesh.boundaryCoupling.process.getD k 0 = nek.commRank)) = [] := by
      apply List.eq_nil_of_length_eq_zero
      rw [← hn, h0]
    rw [hnil, h0]
    simp [storesAt]

theorem sample_owned_faces :
    (sampleProblem 0).nek_mesh.boundaryCoupling.n_faces =
      ((List.range (sampleProblem 0).nek_mesh.boundaryCoupling.total_n_faces).filter fun k =>
        decide ((sampleProblem 0).nek_mesh.boundaryCoupling.process.getD k 0 =
          (sampleNek 0).commRank)).length := by
  decide

theorem boundarySolution_cursor_witness :
    (sampleProblem 0).nek_mesh.boundaryCoupling.n_faces =
      ((List.range (sampleProblem 0).nek_mesh.boundaryCoupling.total_n_faces).filter fun k =>
        decide ((sampleProblem 0).nek_mesh.boundaryCoupling.process.getD k 0 =
          (sampleNek 0).commRank)).length ∧
    ((sampleProblem 0).needs_interpolation = false →
      ((sampleProblem 0).nek_mesh.order + 2) * ((sampleProblem 0).nek_mesh.order + 2) = 4) ∧
    ((sampleProblem 0).boundarySolution_stores (sampleNek 0) NekFieldEnum.pressure).1.map
        Prod.fst =
      List.range ((sampleProblem 0).nek_mesh.boundaryCoupling.n_faces *
        (((sampleProblem 0).nek_mesh.order + 2) * ((sampleProblem 0).nek_mesh.order + 2))) ∧
    ((sampleProblem 0).boundarySolution_extract (sampleNek 0) NekFieldEnum.pressure).2 =
      (sampleProblem 0).nek_mesh.boundaryCoupling.n_faces *
        (((sampleProblem 0).nek_mesh.order + 2) * ((sampleProblem 0).nek_mesh.order + 2)) :=
  ⟨sample_owned_faces, fun _ => rfl,
    (boundarySolution_cursor (sampleProblem 0) (sampleNek 0) NekFieldEnum.pressure
      sample_owned_faces (fun _ => rfl)).1,
    (boundarySolution_cursor (sampleProblem 0) (sampleNek 0) NekFieldEnum.pressure
      sample_owned_faces (fun _ => rfl)).2.2.2.1⟩

/-! ## Injectivity of the field-file prefix -/

theorem fieldFilePrefix_chars (n : Nat) (hn : n < 2600) :
    fieldFilePrefix n =
      String.mk [Char.ofNat (97 + n / 100), Char.ofNat (48 + n % 100 / 10),
        Char.ofNat (48 + n % 100 % 10)] := by
  unfold fieldFilePrefix
  simp only []
  rw [String.append_assoc, two_digits (n % 100) (Nat.mod_lt _ (by decide)),
    alphabet_letter (n / 100) (by omega)]
  rfl

theorem letter_toNat (q : Nat) (hq : q < 26) : (Char.ofNat (97 + q)).toNat - 97 = q := by
  interval_cases q <;> rfl

theorem digit_toNat (d : Nat) (hd : d < 10) : (Char.ofNat (48 + d)).toNat - 48 = d := by
  interval_cases d <;> rfl

theorem prefixNumber_fieldFilePrefix (n : Nat) (hn : n < 2600) :
    prefixNumber (fieldFilePrefix n) = n := by
  rw [fieldFilePrefix_chars n hn]
  unfold prefixNumber
  simp only [String.toList, List.getD_cons_zero, List.getD_cons_succ]
  rw [letter_toNat (n / 100) (by omega), digit_toNat (n % 100 / 10) (by omega),
    digit_toNat (n % 100 % 10) (by omega)]
  omega

/-- C27: on the sub-application indices below 2600 the function
`fieldFilePrefix` is injective, the index is read back from the prefix as 100
times the position of the letter in `a..z` plus the value of the two digits,
and the letter lookup index `n / 100` is inside the 26-letter alphabet. -/
theorem fieldFilePrefix_injective :
    (∀ n m, n < 2600 → m < 2600 → fieldFilePrefix n = fieldFilePrefix m → n = m) ∧
    (∀ n, n < 2600 → prefixNumber (fieldFilePrefix n) = n) ∧
    (∀ n, n < 2600 → n / 100 < "abcdefghijklmnopqrstuvwxyz".length) := by
  refine ⟨?_, prefixNumber_fieldFilePrefix, ?_⟩
  · intro n m hn hm h
    rw [← prefixNumber_fieldFilePrefix n hn, ← prefixNumber_fieldFilePrefix m hm, h]
  · intro n hn
    have h : "abcdefghijklmnopqrstuvwxyz".length = 26 := rfl
    rw [h]
    omega

theorem fieldFilePrefix_injective_witness :
    (1234 < 2600 ∧ 1243 < 2600) ∧ fieldFilePrefix 1234 ≠ fieldFilePrefix 1243 ∧
    prefixNumber (fieldFilePrefix 1234) = 1234 :=
  ⟨⟨by decide, by decide⟩,
    fun h => absurd (fieldFilePrefix_injective.1 1234 1243 (by decide) (by decide) h) (by decide),
    fieldFilePrefix_injective.2.1 1234 (by decide)⟩

/-! ## Registered names are extractable -/

theorem extractOutputs_loop_ok (pb : Nat → NekRSProblemBase) (nek : Nat → NekInterface)
    (self : Nat) :
    ∀ (l : List Nat) (data : List ℚ) (done : List OutputTransfer),
      (∀ i, i ∈ l → (pb self).var_names.getD i "" ∈ ["temp", "P", "vel_x", "vel_y", "vel_z"]) →
      (extractOutputs_loop pb nek self l data done).error = none ∧
      (extractOutputs_loop pb nek self l data done).transfers.map (fun t => t.name) =
        done.map (fun t => t.name) ++ l.map fun i => (pb self).var_names.getD i "" := by
  intro l
  induction l with
  | nil => intro data done _; simp [extractOutputs_loop]
  | cons i rest ih =>
    intro data done h
    have hi := h i (List.mem_cons_self i rest)
    have hrest : ∀ j, j ∈ rest →
        (pb self).var_names.getD j "" ∈ ["temp", "P", "vel_x", "vel_y", "vel_z"] :=
      fun j hj => h j (List.mem_cons_of_mem i hj)
    unfold extractOutputs_loop
    simp only []
    split
    · rename_i hnone
      simp only [List.mem_cons, List.mem_singleton, List.not_mem_nil, or_false] at hi
      rcases hi with h1 | h1 | h1 | h1 | h1 <;> rw [h1] at hnone <;> simp at hnone
    · refine ⟨(ih _ _ hrest).1, ?_⟩
      rw [(ih _ _ hrest).2]
      simp

theorem foldl_names_length (l : List String) :
    ∀ acc : String, acc.length ≤ (l.foldl (fun s name => s ++ " " ++ name ++ ",") acc).length := by
  induction l with
  | nil => intro acc; exact Nat.le_refl _
  | cons a t ih =>
    intro acc
    have h := ih (acc ++ " " ++ a ++ ",")
    simp only [String.length_append] at h
    simp only [List.foldl_cons]
    omega

theorem foldl_names_ne_empty (l : List String) (hl : l ≠ []) :
    l.foldl (fun s name => s ++ " " ++ name ++ ",") "" ≠ "" := by
  cases l with
  | nil => exact absurd rfl hl
  | cons a t =>
    intro h
    have h1 := foldl_names_length t ("" ++ " " ++ a ++ ",")
    simp only [List.foldl_cons] at h
    rw [h] at h1
    simp only [String.length_append] at h1
    have h2 : " ".length = 1 := rfl
    have h3 : "".length = 0 := rfl
    rw [h2, h3] at h1
    omega

/-- C28: on a freshly constructed problem whose requested outputs are a
non-empty list over `temperature`, `pressure`, `velocity`, with a solver that
has a temperature field, `addExternalVariables` succeeds; every name it passes
to `addAuxVariable` (these are `_var_names`) is one of `temp`, `P`, `vel_x`,
`vel_y`, `vel_z`; the list of names is non-empty and so is the joined string
`_var_string` before its last character is erased; and `extractOutputs` run on
the problem it leaves raises no error, makes one pass per registered name, in
order, each for the solver field of that name. -/
theorem addExternalVariables_extractable (pb : NekRSProblemBase) (outputs : List String)
    (number : String → Nat)
    (hout : pb.outputs = some outputs)
    (hne : outputs ≠ [])
    (hfresh : pb.var_names = [])
    (hfields : ∀ o, o ∈ outputs → o = "temperature" ∨ o = "pressure" ∨ o = "velocity") :
    ∃ res, pb.addExternalVariables true number = Except.ok res ∧
      (∀ name, name ∈ res.aux_variables → name ∈ ["temp", "P", "vel_x", "vel_y", "vel_z"]) ∧
      res.problem.var_names = res.aux_variables ∧
      res.aux_variables ≠ [] ∧
      res.problem.var_names.foldl (fun s name => s ++ " " ++ name ++ ",") "" ≠ "" ∧
      res.problem.var_string =
        (res.problem.var_names.foldl (fun s name => s ++ " " ++ name ++ ",") "").dropRight 1 ∧
      (∀ (pbs : Nat → NekRSProblemBase) (nek : Nat → NekInterface) (self : Nat),
        pbs self = res.problem →
        (extractOutputs pbs nek self).error = none ∧
        (extractOutputs pbs nek self).transfers.map (fun t => t.name) = res.aux_variables ∧
        (∀ t, t ∈ (extractOutputs pbs nek self).transfers →
          (t.name = "temp" ∧ t.field = NekFieldEnum.temperature ∨
            t.name = "P" ∧ t.field = NekFieldEnum.pressure ∨
            t.name = "vel_x" ∧ t.field = NekFieldEnum.velocity_x ∨
            t.name = "vel_y" ∧ t.field = NekFieldEnum.velocity_y ∨
            t.name = "vel_z" ∧ t.field = NekFieldEnum.velocity_z))) := by
  have h := addOutputNames_eq outputs pb hfields
  rw [hfresh, List.nil_append] at h
  have hsup : ∀ name, name ∈ (outputs.flatMap fun o =>
        if o = "temperature" then ["temp"]
        else if o = "velocity" then ["vel_x", "vel_y", "vel_z"]
        else ["P"]) → name ∈ ["temp", "P", "vel_x", "vel_y", "vel_z"] := by
    intro name hmem
    simp only [List.mem_flatMap] at hmem
    obtain ⟨o, _, ho⟩ := hmem
    split_ifs at ho
    · simp at ho; simp [ho]
    · simp at ho; rcases ho with ho | ho | ho <;> simp [ho]
    · simp at ho; simp [ho]
  have hnames : (outputs.flatMap fun o =>
        if o = "temperature" then ["temp"]
        else if o = "velocity" then ["vel_x", "vel_y", "vel_z"]
        else ["P"]) ≠ [] := by
    cases outputs with
    | nil => exact absurd rfl hne
    | cons o rest =>
      simp only [List.flatMap_cons]
      split_ifs <;> simp
  unfold NekRSProblemBase.addExternalVariables
  simp only [hout, h]
  refine ⟨_, rfl, hsup, rfl, hnames, foldl_names_ne_empty _ hnames, rfl, ?_⟩
  intro pbs nek self hself
  have hv : (pbs self).var_names = outputs.flatMap fun o =>
        if o = "temperature" then ["temp"]
        else if o = "velocity" then ["vel_x", "vel_y", "vel_z"]
        else ["P"] := by rw [hself]
  have ho : (pbs self).outputs = some outputs := by rw [hself]
  have hlen : (pbs self).var_names.length ≠ 0 := by
    rw [hv]
    intro h0
    exact hnames (List.eq_nil_of_length_eq_zero h0)
  have hdef : extractOutputs pbs nek self =
      extractOutputs_loop pbs nek self (List.range (pbs self).var_names.length)
        (pbs self).external_data [] := by
    unfold extractOutputs
    rw [if_pos (by simp [ho, hlen])]
  have hall : ∀ i, i ∈ List.range (pbs self).var_names.length →
      (pbs self).var_names.getD i "" ∈ ["temp", "P", "vel_x", "vel_y", "vel_z"] := by
    intro i hi
    have hi' := List.mem_range.1 hi
    rw [List.getD_eq_getElem _ _ hi']
    apply hsup
    rw [← hv]
    exact List.getElem_mem _
  have hok := extractOutputs_loop_ok pbs nek self _ (pbs self).external_data [] hall
  rw [hdef]
  refine ⟨hok.1, ?_, ?_⟩
  · rw [hok.2, List.map_nil, List.nil_append, ← hv]
    apply List.ext_getElem
    · simp
    · intro n h1 h2
      simp only [List.getElem_map, List.getElem_range]
      exact List.getD_eq_getElem _ _ h2
  · intro t ht
    exact (extractOutputs_loop_transfers pbs nek self _ _ []
      (fun i hi => List.mem_range.1 hi) (fun t ht => by cases ht) t ht).2

theorem sample_outputs_fields : ∀ o, o ∈ ["temperature", "velocity"] →
    o = "temperature" ∨ o = "pressure" ∨ o = "velocity" := by
  intro o ho
  simp only [List.mem_cons, List.mem_singleton, List.not_mem_nil, or_false] at ho
  rcases ho with ho | ho
  · exact Or.inl ho
  · exact Or.inr (Or.inr ho)

theorem addExternalVariables_extractable_witness :
    (sampleProblem 0).outputs = some ["temperature", "velocity"] ∧
    ["temperature", "velocity"] ≠ [] ∧
    (sampleProblem 0).var_names = [] ∧
    (∀ o, o ∈ ["temperature", "velocity"] →
      o = "temperature" ∨ o = "pressure" ∨ o = "velocity") ∧
    (∃ res, (sampleProblem 0).addExternalVariables true String.length = Except.ok res ∧
      (∀ name, name ∈ res.aux_variables → name ∈ ["temp", "P", "vel_x", "vel_y", "vel_z"]) ∧
      res.problem.var_names = res.aux_variables ∧
      res.aux_variables ≠ [] ∧
      res.problem.var_names.foldl (fun s name => s ++ " " ++ name ++ ",") "" ≠ "" ∧
      res.problem.var_string =
        (res.problem.var_names.foldl (fun s name => s ++ " " ++ name ++ ",") "").dropRight 1 ∧
      (∀ (pbs : Nat → NekRSProblemBase) (nek : Nat → NekInterface) (self : Nat),
        pbs self = res.problem →
        (extractOutputs pbs nek self).error = none ∧
        (extractOutputs pbs nek self).transfers.map (fun t => t.name) = res.aux_variables ∧
        (∀ t, t ∈ (extractOutputs pbs nek self).transfers →
          (t.name = "temp" ∧ t.field = NekFieldEnum.temperature ∨
            t.name = "P" ∧ t.field = NekFieldEnum.pressure ∨
            t.name = "vel_x" ∧ t.field = NekFieldEnum.velocity_x ∨
            t.name = "vel_y" ∧ t.field = NekFieldEnum.velocity_y ∨
            t.name = "vel_z" ∧ t.field = NekFieldEnum.velocity_z)))) :=
  ⟨rfl, by simp, rfl, sample_outputs_fields,
    addExternalVariables_extractable (sampleProblem 0) ["temperature", "velocity"]
      String.length rfl (by simp) rfl sample_outputs_fields⟩

theorem sample_var_string :
    ((sampleProblem 0).addExternalVariables true String.length).map
        (fun res => (res.aux_variables, res.problem.var_string)) =
      Except.ok (["temp", "vel_x", "vel_y", "vel_z"], " temp, vel_x, vel_y, vel_z") := rfl

/-! ## Rounding to `double` -/

theorem floorLog2_bracket : ∀ (fuel n : Nat), n ≤ fuel → 0 < n →
    2 ^ floorLog2 fuel n ≤ n ∧ n < 2 ^ (floorLog2 fuel n + 1) := by
  intro fuel
  induction fuel with
  | zero => intro n h1 h2; omega
  | succ f ih =>
    intro n h1 h2
    unfold floorLog2
    by_cases hn : n < 2
    · rw [if_pos hn]
      constructor
      · simpa using h2
      · simpa using hn
    · rw [if_neg hn]
      have h := ih (n / 2) (by omega) (by omega)
      have e := Nat.div_add_mod n 2
      have hm : n % 2 < 2 := Nat.mod_lt _ (by decide)
      constructor
      · rw [pow_succ]; omega
      · rw [pow_succ]; omega

theorem roundHalfEven_near (n d : Nat) (hd : 0 < d) :
    2 * (roundHalfEven n d * d) ≤ 2 * n + d ∧ 2 * n ≤ 2 * (roundHalfEven n d * d) + d := by
  have e := Nat.div_add_mod n d
  have hr : n % d < d := Nat.mod_lt _ hd
  have hq : (n / d + 1) * d = d * (n / d) + d := by ring
  have hq0 : n / d * d = d * (n / d) := by ring
  unfold roundHalfEven
  simp only []
  split_ifs
  · rw [hq0]; omega
  · rw [hq]; omega
  · rw [hq0]; omega
  · rw [hq]; omega

theorem roundDouble_of_nonneg (x : ℚ) (n d m : Nat) (e : Int)
    (hn : x.num = (n : Int)) (hd : x.den = d) (hme : doubleMantissaExponent n d = (m, e)) :
    roundDouble x = (m : ℚ) * 2 ^ e := by
  unfold roundDouble
  simp only [hn, hd, Int.natAbs_ofNat, hme]
  rw [if_neg (by omega), one_mul]

theorem roundDouble_of_neg (x : ℚ) (n d m : Nat) (e : Int) (hpos : 0 < n)
    (hn : x.num = -(n : Int)) (hd : x.den = d) (hme : doubleMantissaExponent n d = (m, e)) :
    roundDouble x = -((m : ℚ) * 2 ^ e) := by
  unfold roundDouble
  simp only [hn, hd, Int.natAbs_neg, Int.natAbs_ofNat, hme]
  rw [if_pos (by omega), neg_one_mul]

theorem roundDouble_zero : roundDouble 0 = 0 := by
  rw [roundDouble_of_nonneg 0 0 1 0 (-53) (by simp) (by simp) (by decide)]
  simp

theorem roundDouble_one_tenth :
    roundDouble (1 / 10) = 3602879701896397 / 36028797018963968 := by
  rw [roundDouble_of_nonneg (1 / 10) 1 10 7205759403792794 (-56) (by norm_num) (by norm_num)
    (by decide)]
  norm_num

theorem roundDouble_two_tenths :
    roundDouble (2 / 10) = 3602879701896397 / 18014398509481984 := by
  rw [roundDouble_of_nonneg (2 / 10) 1 5 7205759403792794 (-55) (by norm_num) (by norm_num)
    (by decide)]
  norm_num

theorem roundDouble_sum_tenths :
    roundDouble (roundDouble (1 / 10) + roundDouble (2 / 10)) =
      1351079888211149 / 4503599627370496 := by
  rw [roundDouble_one_tenth, roundDouble_two_tenths]
  have e : (3602879701896397 / 36028797018963968 + 3602879701896397 / 18014398509481984 : ℚ) =
      10808639105689191 / 36028797018963968 := by norm_num
  rw [e, roundDouble_of_nonneg _ 10808639105689191 36028797018963968 5404319552844596 (-54)
    (by norm_num) (by norm_num) (by decide)]
  norm_num

theorem log2Ratio_bracket (n d : Nat) (hn : 0 < n) (hd : 0 < d) :
    (2 : ℚ) ^ log2Ratio n d ≤ (n : ℚ) / d ∧ (n : ℚ) / d < 2 ^ (log2Ratio n d + 1) := by
  obtain ⟨a1, a2⟩ := floorLog2_bracket n n (Nat.le_refl n) hn
  obtain ⟨b1, b2⟩ := floorLog2_bracket d d (Nat.le_refl d) hd
  have hdq : (0 : ℚ) < (d : ℚ) := by exact_mod_cast hd
  have qa1 : (2 : ℚ) ^ floorLog2 n n ≤ (n : ℚ) := by exact_mod_cast a1
  have qa2 : (n : ℚ) < 2 ^ (floorLog2 n n + 1) := by exact_mod_cast a2
  have qb1 : (2 : ℚ) ^ floorLog2 d d ≤ (d : ℚ) := by exact_mod_cast b1
  have qb2 : (d : ℚ) < 2 ^ (floorLog2 d d + 1) := by exact_mod_cast b2
  have hpa : (0 : ℚ) < 2 ^ floorLog2 n n := pow_pos (by norm_num) _
  have hpb : (0 : ℚ) < 2 ^ floorLog2 d d := pow_pos (by norm_num) _
  obtain ⟨k, hk⟩ : ∃ k : Int, k = (floorLog2 n n : Int) - (floorLog2 d d : Int) := ⟨_, rfl⟩
  have hkpow : (2 : ℚ) ^ k = 2 ^ floorLog2 n n / 2 ^ floorLog2 d d := by
    rw [hk, zpow_sub₀ (by norm_num), zpow_natCast, zpow_natCast]
  have hksplit : (2 : ℚ) ^ k = 2 ^ k.toNat / 2 ^ (-k).toNat := by
    have hz : k = (k.toNat : Int) - ((-k).toNat : Int) := (Int.toNat_sub_toNat_neg k).symm
    conv_lhs => rw [hz]
    rw [zpow_sub₀ (by norm_num), zpow_natCast, zpow_natCast]
  have hp1 : (0 : ℚ) < 2 ^ k.toNat := pow_pos (by norm_num) _
  have hp2 : (0 : ℚ) < 2 ^ (-k).toNat := pow_pos (by norm_num) _
  have hsucc : (2 : ℚ) ^ (k + 1) = 2 ^ k * 2 := by
    rw [zpow_add₀ (by norm_num), zpow_one]
  have hpred : (2 : ℚ) ^ (k - 1) = 2 ^ k / 2 := by
    rw [zpow_sub₀ (by norm_num), zpow_one]
  have hupper : (n : ℚ) / d < 2 ^ k * 2 := by
    rw [hkpow, div_mul_eq_mul_div, div_lt_div_iff₀ hdq hpb]
    have h1 : (n : ℚ) * 2 ^ floorLog2 d d < 2 ^ (floorLog2 n n + 1) * 2 ^ floorLog2 d d :=
      mul_lt_mul_of_pos_right qa2 hpb
    have h2 : (2 : ℚ) ^ (floorLog2 n n + 1) * 2 ^ floorLog2 d d ≤
        2 ^ (floorLog2 n n + 1) * (d : ℚ) :=
      mul_le_mul_of_nonneg_left qb1 (le_of_lt (pow_pos (by norm_num) _))
    rw [pow_succ] at h1 h2
    linarith
  have hlower : (2 : ℚ) ^ k / 2 ≤ (n : ℚ) / d := by
    rw [hkpow, div_div, div_le_div_iff₀ (mul_pos hpb (by norm_num)) hdq]
    have h1 : (2 : ℚ) ^ floorLog2 n n * (d : ℚ) ≤ (n : ℚ) * (d : ℚ) :=
      mul_le_mul_of_nonneg_right qa1 (le_of_lt hdq)
    have h2 : (n : ℚ) * (d : ℚ) ≤ (n : ℚ) * 2 ^ (floorLog2 d d + 1) :=
      mul_le_mul_of_nonneg_left (le_of_lt qb2) (by exact_mod_cast Nat.zero_le n)
    rw [pow_succ] at h2
    linarith
  unfold log2Ratio
  simp only [← hk]
  by_cases hc : d * 2 ^ k.toNat ≤ n * 2 ^ (-k).toNat
  · rw [if_pos hc, hsucc]
    refine ⟨?_, hupper⟩
    have qc : (d : ℚ) * 2 ^ k.toNat ≤ (n : ℚ) * 2 ^ (-k).toNat := by exact_mod_cast hc
    rw [hksplit, div_le_div_iff₀ hp2 hdq]
    linarith
  · rw [if_neg hc]
    have hk1 : k - 1 + 1 = k := by ring
    rw [hk1, hpred]
    refine ⟨hlower, ?_⟩
    have qc : (n : ℚ) * 2 ^ (-k).toNat < (d : ℚ) * 2 ^ k.toNat := by
      exact_mod_cast (not_le.1 hc)
    rw [hksplit, div_lt_div_iff₀ hdq hp2]
    linarith

theorem roundDouble_near (x : ℚ) :
    |roundDouble x - x| * 2 ≤ 2 ^ (doubleMantissaExponent x.num.natAbs x.den).2 := by
  have hden : 0 < x.den := x.den_pos
  have hdq : (0 : ℚ) < (x.den : ℚ) := by exact_mod_cast hden
  obtain ⟨e, he⟩ : ∃ e, (doubleMantissaExponent x.num.natAbs x.den).2 = e := ⟨_, rfl⟩
  have hm : (doubleMantissaExponent x.num.natAbs x.den).1 =
      roundHalfEven (x.num.natAbs * 2 ^ (-e).toNat) (x.den * 2 ^ e.toNat) := by
    rw [← he]; rfl
  have hnear := roundHalfEven_near (x.num.natAbs * 2 ^ (-e).toNat) (x.den * 2 ^ e.toNat)
    (Nat.mul_pos hden (pow_pos (by decide) _))
  rw [← hm] at hnear
  obtain ⟨m, hm'⟩ : ∃ m, (doubleMantissaExponent x.num.natAbs x.den).1 = m := ⟨_, rfl⟩
  rw [hm'] at hnear
  have h1 : (2 : ℚ) * ((m : ℚ) * ((x.den : ℚ) * 2 ^ e.toNat)) ≤
      2 * ((x.num.natAbs : ℚ) * 2 ^ (-e).toNat) + (x.den : ℚ) * 2 ^ e.toNat := by
    exact_mod_cast hnear.1
  have h2 : (2 : ℚ) * ((x.num.natAbs : ℚ) * 2 ^ (-e).toNat) ≤
      2 * ((m : ℚ) * ((x.den : ℚ) * 2 ^ e.toNat)) + (x.den : ℚ) * 2 ^ e.toNat := by
    exact_mod_cast hnear.2
  have hpow : (2 : ℚ) ^ e = 2 ^ e.toNat / 2 ^ (-e).toNat := by
    have hz : e = (e.toNat : Int) - ((-e).toNat : Int) := (Int.toNat_sub_toNat_neg e).symm
    conv_lhs => rw [hz]
    rw [zpow_sub₀ (by norm_num), zpow_natCast, zpow_natCast]
  have ha : (0 : ℚ) < 2 ^ (-e).toNat := pow_pos (by norm_num) _
  have hb : (0 : ℚ) < 2 ^ e.toNat := pow_pos (by norm_num) _
  have habs : |(m : ℚ) * 2 ^ e - (x.num.natAbs : ℚ) / x.den| * 2 ≤ 2 ^ e := by
    rw [hpow]
    have e1 : (m : ℚ) * (2 ^ e.toNat / 2 ^ (-e).toNat) - (x.num.natAbs : ℚ) / x.den =
        ((m : ℚ) * ((x.den : ℚ) * 2 ^ e.toNat) - (x.num.natAbs : ℚ) * 2 ^ (-e).toNat) /
          ((x.den : ℚ) * 2 ^ (-e).toNat) := by
      field_simp
      ring
    have e2 : (2 : ℚ) ^ e.toNat / 2 ^ (-e).toNat =
        ((x.den : ℚ) * 2 ^ e.toNat) / ((x.den : ℚ) * 2 ^ (-e).toNat) := by
      field_simp
      ring
    rw [e1, e2, abs_div, abs_of_pos (mul_pos hdq ha), div_mul_eq_mul_div,
      div_le_div_iff_of_pos_right (mul_pos hdq ha)]
    have h3 : |(m : ℚ) * ((x.den : ℚ) * 2 ^ e.toNat) - (x.num.natAbs : ℚ) * 2 ^ (-e).toNat| ≤
        ((x.den : ℚ) * 2 ^ e.toNat) / 2 := by
      rw [abs_le]
      constructor <;> linarith
    linarith
  have hx : x = (x.num : ℚ) / (x.den : ℚ) := (Rat.num_div_den x).symm
  unfold roundDouble
  simp only [he, hm']
  by_cases hneg : x.num < 0
  · rw [if_pos hneg]
    have hn : (x.num.natAbs : ℚ) = -(x.num : ℚ) := by
      have h : (x.num.natAbs : Int) = -x.num := Int.ofNat_natAbs_of_nonpos (le_of_lt hneg)
      have h' : ((x.num.natAbs : Int) : ℚ) = ((-x.num : Int) : ℚ) := by rw [h]
      rw [Int.cast_natCast, Int.cast_neg] at h'
      exact h'
    have e3 : -1 * ((m : ℚ) * 2 ^ e) - x = -((m : ℚ) * 2 ^ e - (x.num.natAbs : ℚ) / x.den) := by
      rw [hn]
      conv_lhs => rw [hx]
      ring
    rw [e3, abs_neg]
    exact habs
  · rw [if_neg hneg]
    have hn : (x.num.natAbs : ℚ) = (x.num : ℚ) := by
      have h : (x.num.natAbs : Int) = x.num := Int.natAbs_of_nonneg (not_lt.1 hneg)
      have h' : ((x.num.natAbs : Int) : ℚ) = ((x.num : Int) : ℚ) := by rw [h]
      rw [Int.cast_natCast] at h'
      exact h'
    have e3 : 1 * ((m : ℚ) * 2 ^ e) - x = (m : ℚ) * 2 ^ e - (x.num.natAbs : ℚ) / x.den := by
      rw [hn]
      conv_rhs => rw [← hx]
      ring
    rw [e3]
    exact habs

theorem roundDouble_one : roundDouble 1 = 1 := by
  rw [roundDouble_of_nonneg 1 1 1 4503599627370496 (-52) (by norm_num) (by norm_num)
    (by decide)]
  norm_num

theorem roundDouble_three_halves : roundDouble (3 / 2) = 3 / 2 := by
  rw [roundDouble_of_nonneg (3 / 2) 3 2 6755399441055744 (-52) (by norm_num) (by norm_num)
    (by decide)]
  norm_num

theorem drift_dt : roundDouble (107 / 100) = 4818851601286431 / 4503599627370496 := by
  rw [roundDouble_of_nonneg (107 / 100) 107 100 4818851601286431 (-52) (by norm_num)
    (by norm_num) (by decide)]
  norm_num

theorem drift_tol :
    roundDouble (1 / 10000000000000) =
      3961408125713217 / 39614081257132168796771975168 := by
  rw [roundDouble_of_nonneg (1 / 10000000000000) 1 10000000000000 7922816251426434 (-96)
    (by norm_num) (by norm_num) (by decide)]
  norm_num

theorem drift_sum :
    roundDouble (1023 + 4818851601286431 / 4503599627370496) =
      4503907490626273 / 4398046511104 := by
  have e : (1023 + 4818851601286431 / 4503599627370496 : ℚ) =
      4612001270401303839 / 4503599627370496 := by norm_num
  rw [e, roundDouble_of_nonneg _ 4612001270401303839 4503599627370496 4503907490626273 (-42)
    (by norm_num) (by norm_num) (by decide)]
  norm_num

theorem drift_back :
    roundDouble (4503907490626273 / 4398046511104 - 4818851601286431 / 4503599627370496) =
      8998403161718783 / 8796093022208 := by
  have e : (4503907490626273 / 4398046511104 - 4818851601286431 / 4503599627370496 : ℚ) =
      4607182418800017121 / 4503599627370496 := by norm_num
  rw [e, roundDouble_of_nonneg _ 4607182418800017121 4503599627370496 8998403161718783 (-43)
    (by norm_num) (by norm_num) (by decide)]
  norm_num

theorem drift_error :
    roundDouble (8998403161718783 / 8796093022208 - 1023) = -(1 / 8796093022208) := by
  have e : (8998403161718783 / 8796093022208 - 1023 : ℚ) = -(1 / 8796093022208) := by norm_num
  rw [e, roundDouble_of_neg _ 1 8796093022208 4503599627370496 (-95) (by decide)
    (by norm_num) (by norm_num) (by decide)]
  norm_num

theorem drift_step_accepted : ¬ driftState.dt < driftEnv.minDT := by
  have h1 : driftState.dt = roundDouble (107 / 100) := rfl
  have h2 : driftEnv.minDT = 1 / 100 := rfl
  rw [h1, h2, drift_dt]
  norm_num

theorem drift_at_target : |driftState.time - driftEnv.targetTime| ≤ driftEnv.timestepTol := by
  have h1 : driftState.time = 1023 := rfl
  have h2 : driftEnv.targetTime = 1023 := rfl
  have h3 : driftEnv.timestepTol = roundDouble (1 / 10000000000000) := rfl
  rw [h1, h2, h3, drift_tol]
  norm_num

/-- C24, as amended: the member function `synchronizeOut` returns false exactly
when `minimize_transfers_out` is set and the magnitude of
`_time - _dt - targetTime`, with each of the two subtractions rounded to
`double`, exceeds the step tolerance; with the toggle unset it returns true;
its result does not depend on `minimize_transfers_in`, on the `transfer_in`
value or on `first`. On the state left by an `externalSolve` that took its step
from driver time `t` (outside build-only mode, `_dt` not below the minimum),
with the toggle set, it returns true exactly when the magnitude of
`((t + dt) - dt) - targetTime`, each operation rounded, is within the
tolerance; this is the test `|t - targetTime| <= timestepTol` whenever
`(t + dt) - dt` gives back `t` and `t - targetTime` is a double. -/
theorem synchronizeOut_iff (pb : NekRSProblemBase) (env : RunEnv) (s : RunState) :
    (pb.synchronizeOut env s = false ↔
      pb.minimize_transfers_out = true ∧
        |roundDouble (roundDouble (s.time - s.dt) - env.targetTime)| > env.timestepTol) ∧
    (pb.minimize_transfers_out = false → pb.synchronizeOut env s = true) ∧
    (∀ (b : Bool) (x : ℚ) (f : Bool),
      NekRSProblemBase.synchronizeOut { pb with minimize_transfers_in := b } env
          { s with transfer_in := x, first := f } =
        pb.synchronizeOut env s) ∧
    (env.buildOnly = false → ¬ s.dt < env.minDT → pb.minimize_transfers_out = true →
      (pb.synchronizeOut env (pb.externalSolve env s).state = true ↔
        |roundDouble (roundDouble (roundDouble (s.time + s.dt) - s.dt) - env.targetTime)| ≤
          env.timestepTol)) ∧
    (env.buildOnly = false → ¬ s.dt < env.minDT → pb.minimize_transfers_out = true →
      roundDouble (roundDouble (s.time + s.dt) - s.dt) = s.time →
      roundDouble (s.time - env.targetTime) = s.time - env.targetTime →
      (pb.synchronizeOut env (pb.externalSolve env s).state = true ↔
        |s.time - env.targetTime| ≤ env.timestepTol)) := by
  have hstep : env.buildOnly = false → ¬ s.dt < env.minDT → pb.minimize_transfers_out = true →
      (pb.synchronizeOut env (pb.externalSolve env s).state = true ↔
        |roundDouble (roundDouble (roundDouble (s.time + s.dt) - s.dt) - env.targetTime)| ≤
          env.timestepTol) := by
    intro hrun hdt hmin
    rw [externalSolve_eq pb env s hrun hdt]
    unfold NekRSProblemBase.synchronizeOut
    simp only [hmin, if_true]
    by_cases h2 : |roundDouble (roundDouble (roundDouble (s.time + s.dt) - s.dt) -
        env.targetTime)| > env.timestepTol
    · simp [h2]
    · simp [h2, not_lt.1 h2]
  refine ⟨?_, ?_, ?_, hstep, ?_⟩
  · unfold NekRSProblemBase.synchronizeOut
    by_cases h : pb.minimize_transfers_out = true
    · by_cases h2 : |roundDouble (roundDouble (s.time - s.dt) - env.targetTime)| >
          env.timestepTol
      · simp [h, h2]
      · simp [h, h2]
    · simp [h]
  · intro h
    simp [NekRSProblemBase.synchronizeOut, h]
  · intro b x f
    rfl
  · intro hrun hdt hmin hback hdiff
    rw [hstep hrun hdt hmin, hback, hdiff]

theorem sample_round_trip :
    roundDouble (roundDouble (sampleRunState.time + sampleRunState.dt) - sampleRunState.dt) =
      sampleRunState.time := by
  have h1 : sampleRunState.time = 1 := rfl
  have h2 : sampleRunState.dt = 1 / 2 := rfl
  have e1 : (1 + 1 / 2 : ℚ) = 3 / 2 := by norm_num
  have e2 : (3 / 2 - 1 / 2 : ℚ) = 1 := by norm_num
  rw [h1, h2, e1, roundDouble_three_halves, e2, roundDouble_one]

theorem sample_exact_difference :
    roundDouble (sampleRunState.time - sampleRunEnv.targetTime) =
      sampleRunState.time - sampleRunEnv.targetTime := by
  have h1 : sampleRunState.time = 1 := rfl
  have h2 : sampleRunEnv.targetTime = 1 := rfl
  have e : (1 - 1 : ℚ) = 0 := by norm_num
  rw [h1, h2, e, roundDouble_zero]

theorem synchronizeOut_iff_witness :
    sampleRunEnv.buildOnly = false ∧ ¬ sampleRunState.dt < sampleRunEnv.minDT ∧
    minimizingProblem.minimize_transfers_out = true ∧
    roundDouble (roundDouble (sampleRunState.time + sampleRunState.dt) - sampleRunState.dt) =
      sampleRunState.time ∧
    roundDouble (sampleRunState.time - sampleRunEnv.targetTime) =
      sampleRunState.time - sampleRunEnv.targetTime ∧
    minimizingProblem.synchronizeOut sampleRunEnv
      (minimizingProblem.externalSolve sampleRunEnv sampleRunState).state = true :=
  ⟨rfl, sample_step_accepted, rfl, sample_round_trip, sample_exact_difference,
    ((synchronizeOut_iff minimizingProblem sampleRunEnv sampleRunState).2.2.2.2 rfl
      sample_step_accepted rfl sample_round_trip sample_exact_difference).2 sample_at_target⟩

/-- The input at which the last sentence of C24, read without rounding, fails:
driver time and target time 1023, step 1.07, step tolerance 1e-13 (the doubles
nearest to them), `minimize_transfers_out` set, outside build-only mode.
`externalSolve` stores the double sum `1023 + 1.07`; subtracting the step from
it gives `1023 - 2⁻⁴³`, not `1023`, so `synchronizeOut` finds a magnitude of
`2⁻⁴³`, above the tolerance, and returns false although `|t - targetTime|` is
zero. -/
theorem synchronizeOut_drift :
    driftEnv.buildOnly = false ∧ ¬ driftState.dt < driftEnv.minDT ∧
    minimizingProblem.minimize_transfers_out = true ∧
    |driftState.time - driftEnv.targetTime| ≤ driftEnv.timestepTol ∧
    (minimizingProblem.externalSolve driftEnv driftState).state.time =
      4503907490626273 / 4398046511104 ∧
    roundDouble (roundDouble ((minimizingProblem.externalSolve driftEnv driftState).state.time -
        driftState.dt) - driftEnv.targetTime) = -(1 / 8796093022208) ∧
    minimizingProblem.synchronizeOut driftEnv
      (minimizingProblem.externalSolve driftEnv driftState).state = false := by
  have h1 : driftState.time = 1023 := rfl
  have h2 : driftState.dt = roundDouble (107 / 100) := rfl
  have h3 : driftEnv.targetTime = 1023 := rfl
  have h4 : driftEnv.timestepTol = roundDouble (1 / 10000000000000) := rfl
  have hmin : minimizingProblem.minimize_transfers_out = true := rfl
  have ht : (minimizingProblem.externalSolve driftEnv driftState).state.time =
      4503907490626273 / 4398046511104 := by
    rw [externalSolve_eq minimizingProblem driftEnv driftState rfl drift_step_accepted]
    simp only [h1, h2, drift_dt, drift_sum]
  have hd : (minimizingProblem.externalSolve driftEnv driftState).state.dt =
      4818851601286431 / 4503599627370496 := by
    rw [externalSolve_eq minimizingProblem driftEnv driftState rfl drift_step_accepted]
    simp only [h2, drift_dt]
  have herr : roundDouble (roundDouble ((minimizingProblem.externalSolve driftEnv
      driftState).state.time - driftState.dt) - driftEnv.targetTime) =
        -(1 / 8796093022208) := by
    rw [ht, h2, drift_dt, drift_back, h3, drift_error]
  refine ⟨rfl, drift_step_accepted, rfl, drift_at_target, ht, herr, ?_⟩
  have hgt : |(-(1 / 8796093022208) : ℚ)| >
      3961408125713217 / 39614081257132168796771975168 := by
    rw [abs_neg, abs_of_pos (by norm_num)]
    norm_num
  unfold NekRSProblemBase.synchronizeOut
  rw [if_pos hmin, hd, ht, drift_back, h3, drift_error, h4, drift_tol, if_pos hgt]

end Cardinal
